import Mathlib

/-!
# Resource-lifecycle handlers of the azurerm provider: a shallow embedding

Go `string` is `String`, a Go `error` is `Option GoError` (`none` is `nil`), a
Go function returning `(T, error)` is `Except GoError T` or a pair, a Go pointer
that may be `nil` is an `Option`, and a Go `map[string]string` is an association
list read through `GoMap.get`.  A handler is a function of the resource state
`d` and of its remote client; it returns the state it leaves, the remote calls
it issued and what it returned.
-/

set_option autoImplicit false

namespace AzureRM

/-! ## Definitions -/

/-- One `retention_policy` block of the flow-log schema: `enabled` and `days`. -/
structure RetentionPolicyBlock where
  enabled : Bool
  days : Int
  deriving DecidableEq, Repr

/-- One `traffic_analytics` block of the flow-log schema. -/
structure TrafficAnalyticsBlock where
  enabled : Bool
  workspace_id : String
  workspace_region : String
  workspace_resource_id : String
  deriving DecidableEq, Repr

/-- The state of an `azurerm_network_watcher_flow_log` resource as seen through
`*schema.ResourceData`: the tracked ID and the top-level schema fields that the
handlers of `resource_arm_network_watcher_flow_log.go` read with `d.Get`.  The
two block lists hold at most one element, which is `none` for a `nil` element;
`version` is `0` when unset. -/
structure FlowLogResourceData where
  Id : String
  network_watcher_name : String
  resource_group_name : String
  network_security_group_id : String
  storage_account_id : String
  enabled : Bool
  retention_policy : List (Option RetentionPolicyBlock) := []
  traffic_analytics : List (Option TrafficAnalyticsBlock) := []
  version : Int := 0
  deriving DecidableEq, Repr

/-- Source: `azureRMSuppressFlowLogRetentionPolicyEnabledDiff`
(`return old != "" && !d.Get("enabled").(bool)`). -/
def azureRMSuppressFlowLogRetentionPolicyEnabledDiff
    (_k old _new : String) (d : FlowLogResourceData) : Bool :=
  old != "" && !d.enabled

/-- Source: `azureRMSuppressFlowLogRetentionPolicyDaysDiff`
(`return old != "" && !d.Get("enabled").(bool)`). -/
def azureRMSuppressFlowLogRetentionPolicyDaysDiff
    (_k old _new : String) (d : FlowLogResourceData) : Bool :=
  old != "" && !d.enabled

/-- A flow-log state used to evaluate the drift predicates on concrete inputs. -/
def sampleFlowLog (enabled : Bool) : FlowLogResourceData :=
  { Id := "", network_watcher_name := "watcher", resource_group_name := "rg",
    network_security_group_id := "nsg", storage_account_id := "sa", enabled := enabled }

/-! ### Go errors and maps -/

/-- A Go `error` value built by `fmt.Errorf`: the format string and its string
arguments, and for a wrapping call the wrapped error.  The text that `fmt`
would render is not computed; an error without verbs, such as
`fmt.Errorf("ID was missing the 'subscriptions' element")`, has its format
string as its message. -/
inductive GoError where
  | errorf (format : String) (args : List String)
  | wrapf (format : String) (args : List String) (cause : GoError)
  deriving DecidableEq, Repr

deriving instance DecidableEq for Except

/-- Go `map[string]string`: an association list with pairwise distinct keys. -/
abbrev GoMap := List (String × String)

/-- The Go lookup `v, ok := m[k]`. -/
def GoMap.get (m : GoMap) (k : String) : Option String :=
  match m with
  | [] => none
  | (k', v) :: rest => if k' = k then some v else GoMap.get rest k

/-- The Go `delete(m, k)`. -/
def GoMap.delete (m : GoMap) (k : String) : GoMap :=
  m.filter (fun kv => kv.1 ≠ k)

/-- The Go assignment `m[k] = v`, replacing any earlier entry for `k`. -/
def GoMap.set (m : GoMap) (k v : String) : GoMap :=
  (k, v) :: GoMap.delete m k

/-- The Go `len(m)`. -/
def GoMap.len (m : GoMap) : Nat := m.length

/-! ### The generic ARM resource ID (package `azurerm/helpers/azure`) -/

/-- The type `azure.ResourceID`, as the handlers use it: `SubscriptionID`,
`ResourceGroup` and the `Path` map of the remaining named segments. -/
structure ResourceID where
  SubscriptionID : String
  ResourceGroup : String
  Provider : String
  Path : GoMap
  deriving DecidableEq, Repr

/-- Go `strings.Split(s, "/")` on the characters of `s`: always at least one part. -/
def splitSlash : List Char → List (List Char)
  | [] => [[]]
  | c :: cs =>
    if c = '/' then [] :: splitSlash cs
    else match splitSlash cs with
      | [] => [[c]]
      | seg :: segs => (c :: seg) :: segs

/-- Go `strings.TrimPrefix(s, "/")`. -/
def trimPrefixSlash : List Char → List Char
  | '/' :: cs => cs
  | cs => cs

/-- Go `strings.TrimSuffix(s, "/")`. -/
def trimSuffixSlash (cs : List Char) : List Char :=
  if cs.getLast? = some '/' then cs.dropLast else cs

/-- The ordered path segments of a raw ID: one leading and one trailing `/` are
dropped and the rest is split at every `/`. -/
def pathSegments (id : String) : List String :=
  (splitSlash (trimSuffixSlash (trimPrefixSlash id.data))).map String.mk

/-- Groups an even-length list of segments into (collection, instance) pairs;
`none` when the number of segments is odd. -/
def pairSegments : List String → Option (List (String × String))
  | [] => some []
  | [_] => none
  | k :: v :: rest => (pairSegments rest).map (fun ps => (k, v) :: ps)

/-- The running state of the generic parser: the subscription seen so far and
the map of the other segments. -/
structure ParseAcc where
  subscriptionID : String
  componentMap : GoMap
  deriving DecidableEq, Repr

/-- One (collection, instance) pair of the generic parser: an empty key or value
is an error; the first `subscriptions` pair is kept aside as the subscription,
every other pair is assigned into the map. -/
def parseStep (acc : ParseAcc) (kv : String × String) : Except GoError ParseAcc :=
  if kv.1 = "" ∨ kv.2 = "" then
    .error (.errorf "Key/Value cannot be empty strings. Key: '%s', Value: '%s'" [kv.1, kv.2])
  else if kv.1 = "subscriptions" ∧ acc.subscriptionID = "" then
    .ok { acc with subscriptionID := kv.2 }
  else
    .ok { acc with componentMap := acc.componentMap.set kv.1 kv.2 }

/-- The generic parser's loop over the pairs, stopping at the first error. -/
def parsePairs (acc : ParseAcc) : List (String × String) → Except GoError ParseAcc
  | [] => .ok acc
  | kv :: rest =>
    match parseStep acc kv with
    | .error e => .error e
    | .ok acc' => parsePairs acc' rest

/-- Moves the named segment, when present, out of the map: its value (or the
empty string) and the map without it. -/
def extractSegment (m : GoMap) (name : String) : String × GoMap :=
  match m.get name with
  | some v => (v, m.delete name)
  | none => ("", m)

/-- Modelled from the spec: `azure.ParseAzureResourceID` of package
`azurerm/helpers/azure`, whose source is not among the files at hand.  Following
sections 3 and 4.1 it splits the raw ID into ordered path segments, reads them as
(collection-name, instance-name) pairs, rejects an odd number of segments and any
empty segment, and roots the result at the subscription and the resource group:
the `subscriptions`, `resourceGroups` and `providers` pairs become the fields
`SubscriptionID`, `ResourceGroup` and `Provider`, every other pair stays in
`Path`.  A missing subscription or resource group is left to the caller, which
tests the two fields for the empty string.  URL-level validation of the raw
string is not modelled. -/
def ParseAzureResourceID (id : String) : Except GoError ResourceID :=
  match pairSegments (pathSegments id) with
  | none =>
    .error (.errorf "The number of path segments is not divisible by 2 in %q" [id])
  | some pairs =>
    match parsePairs { subscriptionID := "", componentMap := [] } pairs with
    | .error e => .error e
    | .ok acc =>
      let rg := extractSegment acc.componentMap "resourceGroups"
      let provider := extractSegment rg.2 "providers"
      .ok { SubscriptionID := acc.subscriptionID, ResourceGroup := rg.1,
            Provider := provider.1, Path := provider.2 }

/-- Modelled from the spec: `(*azure.ResourceID).PopSegment`, not among the files
at hand: it extracts a required named segment, removing it from `Path`, and
fails with an error naming the segment when it is absent (section 4.1). -/
def ResourceID.PopSegment (id : ResourceID) (name : String) :
    Except GoError (String × ResourceID) :=
  match id.Path.get name with
  | none => .error (.errorf "ID was missing the %s element" [name])
  | some val => .ok (val, { id with Path := id.Path.delete name })

/-- Modelled from the spec: `(*azure.ResourceID).ValidateNoEmptySegments`, not
among the files at hand: after the required segments were popped, an ID that
still holds further segments is rejected. -/
def ResourceID.ValidateNoEmptySegments (id : ResourceID) (sourceId : String) :
    Option GoError :=
  if id.Path.len = 0 then none
  else some (.errorf "ID contained more segments than required: %q" [sourceId])

/-! ### MSSQL database transparent data encryption: the identifier -/

/-- Source: `type TransparentDataEncryptionId struct`. -/
structure TransparentDataEncryptionId where
  SubscriptionId : String
  ResourceGroup : String
  ServerName : String
  DatabaseName : String
  Name : String
  deriving DecidableEq, Repr

/-- Source: `NewTransparentDataEncryptiontID`. -/
def NewTransparentDataEncryptiontID
    (subscriptionId resourceGroup serverName database name : String) :
    TransparentDataEncryptionId :=
  { SubscriptionId := subscriptionId, ResourceGroup := resourceGroup,
    ServerName := serverName, DatabaseName := database, Name := name }

/-- Modelled from the spec: the string form of a `TransparentDataEncryptionId`.
The source declares no `ID()` or `String()` method for this type; the form is
the ARM path of the resource,
`/subscriptions/SUB/resourceGroups/RG/providers/Microsoft.Sql/servers/SERVER/databases/DB/transparentDataEncryption/NAME`. -/
def TransparentDataEncryptionId.ID (id : TransparentDataEncryptionId) : String :=
  "/subscriptions/" ++ id.SubscriptionId ++ "/resourceGroups/" ++ id.ResourceGroup ++
    "/providers/Microsoft.Sql/servers/" ++ id.ServerName ++ "/databases/" ++
    id.DatabaseName ++ "/transparentDataEncryption/" ++ id.Name

/-- Source: `parseTransparentDataEncryptionID`. -/
def parseTransparentDataEncryptionID (input : String) :
    Except GoError TransparentDataEncryptionId :=
  match ParseAzureResourceID input with
  | .error err => .error err
  | .ok id =>
    if id.SubscriptionID = "" then
      .error (.errorf "ID was missing the 'subscriptions' element" [])
    else if id.ResourceGroup = "" then
      .error (.errorf "ID was missing the 'resourceGroups' element" [])
    else
      match id.PopSegment "servers" with
      | .error err => .error err
      | .ok (serverName, id1) =>
        match id1.PopSegment "databases" with
        | .error err => .error err
        | .ok (databaseName, id2) =>
          match id2.PopSegment "transparentDataEncryption" with
          | .error err => .error err
          | .ok (name, id3) =>
            match id3.ValidateNoEmptySegments input with
            | some err => .error err
            | none =>
              .ok { SubscriptionId := id.SubscriptionID, ResourceGroup := id.ResourceGroup,
                    ServerName := serverName, DatabaseName := databaseName, Name := name }

/-- The segments joined with `/` between them (Go `strings.Join(segs, "/")`). -/
def joinSlash : List (List Char) → List Char
  | [] => []
  | [a] => a
  | a :: b :: rest => a ++ '/' :: joinSlash (b :: rest)

/-- A component of an identifier that can be built into an ARM path and read
back: non-empty and free of the separator `/`. -/
def validSegment (s : String) : Prop := s ≠ "" ∧ '/' ∉ s.data

instance (s : String) : Decidable (validSegment s) := by
  unfold validSegment; infer_instance

/-- The collection names of a segment list: the segments at even positions. -/
def collectionNames : List String → List String
  | [] => []
  | [k] => [k]
  | k :: _ :: rest => k :: collectionNames rest

/-- The named segment `key` occurs in the raw ID `input`. -/
def hasSegment (input key : String) : Prop := key ∈ collectionNames (pathSegments input)

instance (input key : String) : Decidable (hasSegment input key) := by
  unfold hasSegment; infer_instance

/-- The segments that `parseTransparentDataEncryptionID` requires. -/
def transparentDataEncryptionSegments : List String :=
  ["subscriptions", "resourceGroups", "servers", "databases", "transparentDataEncryption"]

/-! ### Network watcher flow log: the identifier -/

/-- Source: `type NetworkWatcherFlowLogAccountID struct`, which embeds
`azure.ResourceID`. -/
structure NetworkWatcherFlowLogAccountID extends ResourceID where
  NetworkWatcherName : String
  FlowLogName : String
  deriving DecidableEq, Repr

/-- Source: `ParseNetworkWatcherFlowLogID`. -/
def ParseNetworkWatcherFlowLogID (id : String) :
    Except GoError NetworkWatcherFlowLogAccountID :=
  match ParseAzureResourceID id with
  | .error err => .error err
  | .ok flowLogID =>
    match flowLogID.Path.get "networkWatchers" with
    | none => .error (.errorf "Error: Watcher name not found in Flow Log ID: %s" [id])
    | some watcherName =>
      match flowLogID.Path.get "flowLogs" with
      | none => .error (.errorf "Error: Flow Log name not found in Flow Log ID: %s" [id])
      | some flowLogName =>
        .ok { toResourceID := flowLogID, NetworkWatcherName := watcherName,
              FlowLogName := flowLogName }

/-! ### Handlers, responses and remote calls -/

/-- How a handler invocation ends: it returns `nil`, it returns an error, or the
Go run time stops it with a nil-pointer dereference. -/
inductive Returned where
  | nil
  | error (err : GoError)
  | panic
  deriving DecidableEq, Repr

/-- One invocation of a handler: the resource state it leaves, the calls it
issued on the remote client, in order, and how it ended. -/
structure Run (δ κ : Type) where
  d : δ
  calls : List κ
  result : Returned
  deriving DecidableEq, Repr

/-- The `autorest.Response` embedded in every SDK result: the HTTP status code,
or `none` when no HTTP response was received. -/
structure AutorestResponse where
  StatusCode : Option Nat
  deriving DecidableEq, Repr

/-- Modelled from the spec: `utils.ResponseWasNotFound` of package
`azurerm/utils`, whose source is not among the files at hand: the remote call
answered "not found" (section 4.2), that is with HTTP status 404. -/
def ResponseWasNotFound (resp : AutorestResponse) : Bool :=
  resp.StatusCode == some 404

/-! ### MySQL and PostgreSQL configuration sets -/

/-- The SDK type `ConfigurationProperties`, of which the handlers read `Value`. -/
structure ConfigurationProperties where
  Value : Option String
  deriving DecidableEq, Repr

/-- The SDK type `Configuration` (one server setting): `Name` and
`ConfigurationProperties` are pointers. -/
structure Configuration where
  Name : Option String
  ConfigurationProperties : Option ConfigurationProperties
  deriving DecidableEq, Repr

/-- The SDK type `ConfigurationListResult`: the response and the pointer to the
slice of configurations. -/
structure ConfigurationListResult where
  Response : AutorestResponse
  Value : Option (List Configuration)
  deriving DecidableEq, Repr

/-- The calls of the SDK's `ConfigurationsClient` that the handlers can issue. -/
inductive ConfigurationsCall where
  | ListByServer (resourceGroup serverName : String)
  deriving DecidableEq, Repr

/-- The remote `ConfigurationsClient`: what `ListByServer` answers. -/
structure ConfigurationsClient where
  ListByServer : String → String → ConfigurationListResult × Option GoError

/-- The state of a configuration-set resource (`config_map`,
`resource_group_name`, `server_name`) and its tracked ID. -/
structure ConfigurationSetResourceData where
  Id : String
  config_map : GoMap
  resource_group_name : String
  server_name : String
  deriving DecidableEq, Repr

/-- The loop `for _, conf := range *configs` of the configuration-set Read:
`configMap[*key] = *value` for each listed configuration.  `none` is the
nil-pointer dereference of `conf.ConfigurationProperties`, `key` or `value`. -/
def collectConfigurations (configMap : GoMap) : List Configuration → Option GoMap
  | [] => some configMap
  | conf :: rest =>
    match conf.ConfigurationProperties with
    | none => none
    | some props =>
      match conf.Name, props.Value with
      | some key, some value => collectConfigurations (configMap.set key value) rest
      | _, _ => none

/-- Source: `resourceArmMySQLConfigurationSetCreate` (`return nil`). -/
def resourceArmMySQLConfigurationSetCreate (d : ConfigurationSetResourceData)
    (_meta : ConfigurationsClient) : Run ConfigurationSetResourceData ConfigurationsCall :=
  { d := d, calls := [], result := .nil }

/-- Source: `resourceArmMySQLConfigurationSetDelete` (`return nil`). -/
def resourceArmMySQLConfigurationSetDelete (d : ConfigurationSetResourceData)
    (_meta : ConfigurationsClient) : Run ConfigurationSetResourceData ConfigurationsCall :=
  { d := d, calls := [], result := .nil }

/-- Source: `resourceArmMySQLConfigurationSetRead`. -/
def resourceArmMySQLConfigurationSetRead (d : ConfigurationSetResourceData)
    (meta : ConfigurationsClient) : Run ConfigurationSetResourceData ConfigurationsCall :=
  match ParseAzureResourceID d.Id with
  | .error err => { d := d, calls := [], result := .error err }
  | .ok id =>
    let resourceGroup := id.ResourceGroup
    let serverName := (id.Path.get "servers").getD ""
    let calls := [ConfigurationsCall.ListByServer resourceGroup serverName]
    match meta.ListByServer resourceGroup serverName with
    | (resp, some err) =>
      if ResponseWasNotFound resp.Response then
        { d := { d with Id := "" }, calls := calls, result := .nil }
      else
        { d := d, calls := calls,
          result := .error (.wrapf
            "Error making List Configuration request on Azure MySQL Server %q (Resource Group %q): %+v"
            [serverName, resourceGroup] err) }
    | (resp, none) =>
      match resp.Value with
      | none => { d := d, calls := calls, result := .panic }
      | some configs =>
        match collectConfigurations [] configs with
        | none => { d := d, calls := calls, result := .panic }
        | some configMap =>
          { d := { d with server_name := serverName, resource_group_name := resourceGroup,
                          config_map := configMap },
            calls := calls, result := .nil }

/-- Source: `resourceArmPostgreSQLConfigurationSetCreate` (`return nil`). -/
def resourceArmPostgreSQLConfigurationSetCreate (d : ConfigurationSetResourceData)
    (_meta : ConfigurationsClient) : Run ConfigurationSetResourceData ConfigurationsCall :=
  { d := d, calls := [], result := .nil }

/-- Source: `resourceArmPostgreSQLConfigurationSetDelete` (`return nil`). -/
def resourceArmPostgreSQLConfigurationSetDelete (d : ConfigurationSetResourceData)
    (_meta : ConfigurationsClient) : Run ConfigurationSetResourceData ConfigurationsCall :=
  { d := d, calls := [], result := .nil }

/-- Source: `resourceArmPostgreSQLConfigurationSetRead`. -/
def resourceArmPostgreSQLConfigurationSetRead (d : ConfigurationSetResourceData)
    (meta : ConfigurationsClient) : Run ConfigurationSetResourceData ConfigurationsCall :=
  match ParseAzureResourceID d.Id with
  | .error err => { d := d, calls := [], result := .error err }
  | .ok id =>
    let resourceGroup := id.ResourceGroup
    let serverName := (id.Path.get "servers").getD ""
    let calls := [ConfigurationsCall.ListByServer resourceGroup serverName]
    match meta.ListByServer resourceGroup serverName with
    | (resp, some err) =>
      if ResponseWasNotFound resp.Response then
        { d := { d with Id := "" }, calls := calls, result := .nil }
      else
        { d := d, calls := calls,
          result := .error (.wrapf
            "Error making List Configuration request on Azure PostgreSQL Server %q (Resource Group %q): %+v"
            [serverName, resourceGroup] err) }
    | (resp, none) =>
      match resp.Value with
      | none => { d := d, calls := calls, result := .panic }
      | some configs =>
        match collectConfigurations [] configs with
        | none => { d := d, calls := calls, result := .panic }
        | some configMap =>
          { d := { d with server_name := serverName, resource_group_name := resourceGroup,
                          config_map := configMap },
            calls := calls, result := .nil }

/-- The handlers that `schema.Resource` wires to the four lifecycle operations. -/
structure Resource (δ μ κ : Type) where
  Create : δ → μ → Run δ κ
  Read : δ → μ → Run δ κ
  Update : δ → μ → Run δ κ
  Delete : δ → μ → Run δ κ

/-- Source: `resourceArmMySQLConfigurationSet` (the handlers it registers). -/
def resourceArmMySQLConfigurationSet :
    Resource ConfigurationSetResourceData ConfigurationsClient ConfigurationsCall :=
  { Create := resourceArmMySQLConfigurationSetCreate,
    Read := resourceArmMySQLConfigurationSetRead,
    Delete := resourceArmMySQLConfigurationSetDelete,
    Update := resourceArmMySQLConfigurationSetCreate }

/-- Source: `resourceArmPostgreSQLConfigurationSet` (the handlers it registers). -/
def resourceArmPostgreSQLConfigurationSet :
    Resource ConfigurationSetResourceData ConfigurationsClient ConfigurationsCall :=
  { Create := resourceArmPostgreSQLConfigurationSetCreate,
    Read := resourceArmPostgreSQLConfigurationSetRead,
    Delete := resourceArmPostgreSQLConfigurationSetDelete,
    Update := resourceArmPostgreSQLConfigurationSetCreate }

/-- A listed configuration with all its fields present. -/
def Configuration.ofPair (kv : String × String) : Configuration :=
  { Name := some kv.1, ConfigurationProperties := some { Value := some kv.2 } }

/-- A `ConfigurationsClient` whose listing succeeds with the given response. -/
def listingClient (resp : ConfigurationListResult) : ConfigurationsClient :=
  { ListByServer := fun _ _ => (resp, none) }

/-- A successful listing response holding the given children. -/
def listingOf (children : List (String × String)) : ConfigurationListResult :=
  { Response := { StatusCode := some 200 }, Value := some (children.map Configuration.ofPair) }

/-- A configuration-set state tracking the given ID, with nothing read yet. -/
def configurationSetAt (id : String) : ConfigurationSetResourceData :=
  { Id := id, config_map := [], resource_group_name := "", server_name := "" }

/-! ### MSSQL database transparent data encryption: the inert handlers -/

/-- The state of an `azurerm_mssql_database_transparent_data_encryption`
resource (`server_id`, `state`, `database_id`) and its tracked ID. -/
structure TransparentDataEncryptionResourceData where
  Id : String
  server_id : String
  state : String
  database_id : String
  deriving DecidableEq, Repr

/-- The SDK result of `TransparentDataEncryptionsClient.Get`: the response and
the status held by the (pointer to the) properties. -/
structure TransparentDataEncryption where
  Response : AutorestResponse
  Status : Option String
  deriving DecidableEq, Repr

/-- The calls of the SDK's `TransparentDataEncryptionsClient` that the handlers
can issue. -/
inductive TransparentDataEncryptionsCall where
  | Get (resourceGroup serverName databaseName : String)
  deriving DecidableEq, Repr

/-- The remote `TransparentDataEncryptionsClient`: what `Get` answers. -/
structure TransparentDataEncryptionsClient where
  Get : String → String → String → TransparentDataEncryption × Option GoError

/-- Source: `resourceMsSqlDatabaseTransparentDataEncryptionCreateUpdate`
(`return nil`), registered as both `Create` and `Update`. -/
def resourceMsSqlDatabaseTransparentDataEncryptionCreateUpdate
    (d : TransparentDataEncryptionResourceData) (_meta : TransparentDataEncryptionsClient) :
    Run TransparentDataEncryptionResourceData TransparentDataEncryptionsCall :=
  { d := d, calls := [], result := .nil }

/-- Source: `resourceMsSqlDatabaseTransparentDataEncryptionDelete` (`return nil`). -/
def resourceMsSqlDatabaseTransparentDataEncryptionDelete
    (d : TransparentDataEncryptionResourceData) (_meta : TransparentDataEncryptionsClient) :
    Run TransparentDataEncryptionResourceData TransparentDataEncryptionsCall :=
  { d := d, calls := [], result := .nil }

/-! ### Security Center subscription pricing -/

/-- The SDK type `security.PricingProperties`, of which the handlers use
`PricingTier`. -/
structure PricingProperties where
  PricingTier : String
  deriving DecidableEq, Repr

/-- The SDK type `security.Pricing`: the response, the pointer to the
properties and the pointer to the ID. -/
structure Pricing where
  Response : AutorestResponse
  PricingProperties : Option PricingProperties
  ID : Option String
  deriving DecidableEq, Repr

/-- The calls of the SDK's `PricingsClient` that the handlers can issue. -/
inductive PricingCall where
  | Update (pricingName : String) (pricing : Pricing)
  | Get (pricingName : String)
  deriving DecidableEq, Repr

/-- The remote `PricingsClient` over a service in state `σ`: what `Update` and
`Get` answer and the state in which they leave the service. -/
structure PricingClient (σ : Type) where
  Update : σ → String → Pricing → (Pricing × Option GoError) × σ
  Get : σ → String → (Pricing × Option GoError) × σ

/-- The state of an `azurerm_security_center_subscription_pricing` resource
(`tier`, `resource_type`) and its tracked ID. -/
structure PricingResourceData where
  Id : String
  tier : String
  resource_type : String
  deriving DecidableEq, Repr

/-- Source: `type SecurityCenterSubscriptionPricingId struct`. -/
structure SecurityCenterSubscriptionPricingId where
  ResourceType : String
  deriving DecidableEq, Repr

/-- Source: `SecurityCenterSubscriptionPricingID`. -/
def SecurityCenterSubscriptionPricingID (input : String) :
    Except GoError SecurityCenterSubscriptionPricingId :=
  match ParseAzureResourceID input with
  | .error err =>
    .error (.wrapf "unable to parse Security Center Subscription Pricing ID %q: %+v" [input] err)
  | .ok id =>
    match id.PopSegment "pricings" with
    | .error err => .error err
    | .ok (resourceType, id1) =>
      match id1.ValidateNoEmptySegments input with
      | some err => .error err
      | none => .ok { ResourceType := resourceType }

/-- Source: `resourceArmSecurityCenterSubscriptionPricingRead`; `calls` are the
calls issued before it by the same handler invocation. -/
def resourceArmSecurityCenterSubscriptionPricingRead {σ : Type} (d : PricingResourceData)
    (client : PricingClient σ) (s : σ) (calls : List PricingCall) :
    Run PricingResourceData PricingCall × σ :=
  match SecurityCenterSubscriptionPricingID d.Id with
  | .error err => ({ d := d, calls := calls, result := .error err }, s)
  | .ok id =>
    let calls := calls ++ [PricingCall.Get id.ResourceType]
    match client.Get s id.ResourceType with
    | ((resp, some err), s1) =>
      if ResponseWasNotFound resp.Response then
        ({ d := { d with Id := "" }, calls := calls, result := .nil }, s1)
      else
        ({ d := d, calls := calls,
           result := .error (.wrapf "Reading %q Security Center Subscription pricing: %+v"
             [id.ResourceType] err) }, s1)
    | ((resp, none), s1) =>
      let d1 :=
        match resp.PricingProperties with
        | some properties => { d with tier := properties.PricingTier }
        | none => d
      ({ d := { d1 with resource_type := id.ResourceType }, calls := calls, result := .nil }, s1)

/-- Source: `resourceArmSecurityCenterSubscriptionPricingUpdate`, registered as
both `Create` and `Update`. -/
def resourceArmSecurityCenterSubscriptionPricingUpdate {σ : Type} (d : PricingResourceData)
    (client : PricingClient σ) (s : σ) : Run PricingResourceData PricingCall × σ :=
  let pricing : Pricing :=
    { Response := { StatusCode := none },
      PricingProperties := some { PricingTier := d.tier }, ID := none }
  let resource_type := d.resource_type
  match client.Update s resource_type pricing with
  | ((_, some err), s1) =>
    ({ d := d, calls := [PricingCall.Update resource_type pricing],
       result := .error
         (.wrapf "Creating/updating Security Center Subscription pricing: %+v" [] err) }, s1)
  | ((_, none), s1) =>
    match client.Get s1 resource_type with
    | ((_, some err), s2) =>
      ({ d := d,
         calls := [PricingCall.Update resource_type pricing, PricingCall.Get resource_type],
         result := .error
           (.wrapf "Reading Security Center Subscription pricing: %+v" [] err) }, s2)
    | ((resp, none), s2) =>
      match resp.ID with
      | none =>
        ({ d := d,
           calls := [PricingCall.Update resource_type pricing, PricingCall.Get resource_type],
           result := .error (.errorf "Security Center Subscription pricing ID is nil" []) }, s2)
      | some id =>
        resourceArmSecurityCenterSubscriptionPricingRead { d with Id := id } client s2
          [PricingCall.Update resource_type pricing, PricingCall.Get resource_type]

/-- Source: the values that the schema of
`resourceArmSecurityCenterSubscriptionPricing` admits for `resource_type`; the
default is `VirtualMachines`. -/
def pricingResourceTypes : List String :=
  ["AppServices", "ContainerRegistry", "KeyVaults", "KubernetesService", "SqlServers",
   "SqlServerVirtualMachines", "StorageAccounts", "VirtualMachines", "Arm", "Dns"]

/-- The ARM ID of the pricing named `name` in subscription `sub`:
`/subscriptions/SUB/providers/Microsoft.Security/pricings/NAME`. -/
def pricingID (sub name : String) : String :=
  "/subscriptions/" ++ sub ++ "/providers/Microsoft.Security/pricings/" ++ name

/-- The pricing that `resourceArmSecurityCenterSubscriptionPricingUpdate`
submits for tier `tier`. -/
def pricingOfTier (tier : String) : Pricing :=
  { Response := { StatusCode := none },
    PricingProperties := some { PricingTier := tier }, ID := none }

/-- A pricing service of subscription `sub` that stores the tier submitted by
`Update` under the pricing name: `Update` answers without error, `Get` leaves
the service as it is, and after an `Update` of a tier under a name, `Get` of that
name answers without error with the stored tier and the ID `pricingID sub name`. -/
structure StoresTier {σ : Type} (client : PricingClient σ) (sub : String) : Prop where
  update_ok : ∀ s name pricing, (client.Update s name pricing).1.2 = none
  get_keeps : ∀ s name, (client.Get s name).2 = s
  get_after_update : ∀ s name tier,
    (client.Get (client.Update s name (pricingOfTier tier)).2 name).1.2 = none ∧
    (client.Get (client.Update s name (pricingOfTier tier)).2 name).1.1.ID =
      some (pricingID sub name) ∧
    (client.Get (client.Update s name (pricingOfTier tier)).2 name).1.1.PricingProperties =
      some { PricingTier := tier }

/-- The client of an in-memory pricing service of subscription `sub`; the
state of the service is the map from pricing name to stored tier. -/
def storeClient (sub : String) : PricingClient GoMap :=
  { Update := fun s name pricing =>
      let tier := match pricing.PricingProperties with
        | some properties => properties.PricingTier
        | none => ""
      (({ Response := { StatusCode := some 200 },
          PricingProperties := some { PricingTier := tier },
          ID := some (pricingID sub name) }, none),
       s.set name tier),
    Get := fun s name =>
      match s.get name with
      | some tier =>
        (({ Response := { StatusCode := some 200 },
            PricingProperties := some { PricingTier := tier },
            ID := some (pricingID sub name) }, none), s)
      | none =>
        (({ Response := { StatusCode := some 404 }, PricingProperties := none, ID := none },
          some (.errorf "pricing not found" [name])), s) }

/-- The names of the listed children are pairwise distinct. -/
def distinctNames (children : List (String × String)) : Prop :=
  (children.map Prod.fst).Nodup

instance (children : List (String × String)) : Decidable (distinctNames children) := by
  unfold distinctNames; infer_instance

/-- The listing call that Read issues for the parsed ID `id` succeeds on `meta`
and lists exactly `children`, each with its name and value present. -/
def ListsChildren (meta : ConfigurationsClient) (id : ResourceID)
    (children : List (String × String)) : Prop :=
  ∃ response, meta.ListByServer id.ResourceGroup ((id.Path.get "servers").getD "") =
    ({ Response := response, Value := some (children.map Configuration.ofPair) }, none)

/-- The ID of a MySQL server, tracked by its configuration set. -/
def sampleServerID : String :=
  "/subscriptions/sub1/resourceGroups/rg1/providers/Microsoft.DBforMySQL/servers/srv1"

/-- The generic parse of `sampleServerID`. -/
def sampleServerResourceID : ResourceID :=
  { SubscriptionID := "sub1", ResourceGroup := "rg1", Provider := "Microsoft.DBforMySQL",
    Path := [("servers", "srv1")] }

/-- A listed configuration named `name` whose `ConfigurationProperties` pointer
is `nil`. -/
def configurationWithoutProperties (name : String) : Configuration :=
  { Name := some name, ConfigurationProperties := none }

/-! ### Network watcher flow log: the handlers -/

/-- The SDK type `RetentionPolicyParameters`. -/
structure RetentionPolicyParameters where
  Enabled : Option Bool
  Days : Option Int
  deriving DecidableEq, Repr

/-- The SDK type `FlowLogFormatParameters`, of which the handlers use `Version`. -/
structure FlowLogFormatParameters where
  Version : Option Int
  deriving DecidableEq, Repr

/-- The SDK type `TrafficAnalyticsConfigurationProperties`. -/
structure TrafficAnalyticsConfigurationProperties where
  Enabled : Option Bool
  WorkspaceID : Option String
  WorkspaceRegion : Option String
  WorkspaceResourceID : Option String
  deriving DecidableEq, Repr

/-- The SDK type `TrafficAnalyticsProperties`. -/
structure TrafficAnalyticsProperties where
  NetworkWatcherFlowAnalyticsConfiguration : Option TrafficAnalyticsConfigurationProperties
  deriving DecidableEq, Repr

/-- The SDK type `FlowLogPropertiesFormat`, with the fields the handlers use. -/
structure FlowLogPropertiesFormat where
  TargetResourceID : Option String
  StorageID : Option String
  Enabled : Option Bool
  RetentionPolicy : Option RetentionPolicyParameters
  Format : Option FlowLogFormatParameters
  FlowAnalyticsConfiguration : Option TrafficAnalyticsProperties
  deriving DecidableEq, Repr

/-- The SDK type `FlowLog`: the response, the embedded pointer
`*FlowLogPropertiesFormat` (through which `resp.TargetResourceID` and
`resp.FlowAnalyticsConfiguration` are read) and the pointer to the ID. -/
structure FlowLog where
  Response : AutorestResponse
  FlowLogPropertiesFormat : Option FlowLogPropertiesFormat
  ID : Option String
  deriving DecidableEq, Repr

/-- The calls of the SDK's `FlowLogsClient` that the handlers can issue; the two
`WaitForCompletionRef` calls are those on the future of the preceding call. -/
inductive FlowLogsCall where
  | CreateOrUpdate (resourceGroup watcherName flowLogName : String) (parameters : FlowLog)
  | WaitForCreateOrUpdate
  | Get (resourceGroup watcherName flowLogName : String)
  | Delete (resourceGroup watcherName flowLogName : String)
  | WaitForDelete
  deriving DecidableEq, Repr

/-- The remote `FlowLogsClient` over a service in state `σ`. -/
structure FlowLogsClient (σ : Type) where
  CreateOrUpdate : σ → String → String → String → FlowLog → Option GoError × σ
  WaitForCreateOrUpdate : σ → Option GoError × σ
  Get : σ → String → String → String → (FlowLog × Option GoError) × σ
  Delete : σ → String → String → String → Option GoError × σ
  WaitForDelete : σ → Option GoError × σ

/-- The Go conversion `int32(n)` of an `int`: the value modulo `2^32`, taken in
the range `-2^31 .. 2^31 - 1`. -/
def toInt32 (n : Int) : Int :=
  (n + 2147483648) % 4294967296 - 2147483648

/-- Source: `expandAzureRmNetworkWatcherFlowLogRetentionPolicy`. -/
def expandAzureRmNetworkWatcherFlowLogRetentionPolicy (d : FlowLogResourceData) :
    Option RetentionPolicyParameters :=
  match d.retention_policy with
  | [] => none
  | none :: _ => none
  | some v :: _ => some { Enabled := some v.enabled, Days := some (toInt32 v.days) }

/-- Source: `expandAzureRmNetworkWatcherFlowLogTrafficAnalytics`; the outer
`none` is the run-time panic of `vs[0].(map[string]interface{})` on an empty
list or a `nil` element. -/
def expandAzureRmNetworkWatcherFlowLogTrafficAnalytics (d : FlowLogResourceData) :
    Option TrafficAnalyticsProperties :=
  match d.traffic_analytics with
  | some v :: _ =>
    some { NetworkWatcherFlowAnalyticsConfiguration := some (
      { Enabled := some v.enabled, WorkspaceID := some v.workspace_id,
        WorkspaceRegion := some v.workspace_region,
        WorkspaceResourceID := some v.workspace_resource_id } :
        TrafficAnalyticsConfigurationProperties) }
  | _ => none

/-- The map built by `flattenAzureRmNetworkWatcherFlowLogRetentionPolicy`: each
key is present only when the input field is. -/
structure FlattenedRetentionPolicy where
  enabled : Option Bool
  days : Option Int
  deriving DecidableEq, Repr

/-- Source: `flattenAzureRmNetworkWatcherFlowLogRetentionPolicy`. -/
def flattenAzureRmNetworkWatcherFlowLogRetentionPolicy
    (input : Option RetentionPolicyParameters) : List FlattenedRetentionPolicy :=
  match input with
  | none => []
  | some input => [{ enabled := input.Enabled, days := input.Days }]

/-- The map built by `flattenAzureRmNetworkWatcherFlowLogTrafficAnalytics`. -/
structure FlattenedTrafficAnalytics where
  enabled : Option Bool
  workspace_id : Option String
  workspace_region : Option String
  workspace_resource_id : Option String
  deriving DecidableEq, Repr

/-- Source: `flattenAzureRmNetworkWatcherFlowLogTrafficAnalytics`. -/
def flattenAzureRmNetworkWatcherFlowLogTrafficAnalytics
    (input : Option TrafficAnalyticsProperties) : List FlattenedTrafficAnalytics :=
  match input with
  | none => []
  | some input =>
    match input.NetworkWatcherFlowAnalyticsConfiguration with
    | none => []
    | some cfg =>
      [{ enabled := cfg.Enabled, workspace_id := cfg.WorkspaceID,
         workspace_region := cfg.WorkspaceRegion,
         workspace_resource_id := cfg.WorkspaceResourceID }]

/-- `d.Set("retention_policy", ...)`: a key absent from the map reads back as the
zero value of its schema type. -/
def setRetentionPolicy (flat : List FlattenedRetentionPolicy) :
    List (Option RetentionPolicyBlock) :=
  flat.map fun m => some { enabled := m.enabled.getD false, days := m.days.getD 0 }

/-- `d.Set("traffic_analytics", ...)`: a key absent from the map reads back as
the zero value of its schema type. -/
def setTrafficAnalytics (flat : List FlattenedTrafficAnalytics) :
    List (Option TrafficAnalyticsBlock) :=
  flat.map fun m => some
    { enabled := m.enabled.getD false, workspace_id := m.workspace_id.getD "",
      workspace_region := m.workspace_region.getD "",
      workspace_resource_id := m.workspace_resource_id.getD "" }

/-- Source: `resourceArmNetworkWatcherFlowLogRead`; `calls` are the calls issued
before it by the same handler invocation.  `.panic` is the read of
`resp.TargetResourceID` through a `nil` embedded `*FlowLogPropertiesFormat`. -/
def resourceArmNetworkWatcherFlowLogRead {σ : Type} (d : FlowLogResourceData)
    (client : FlowLogsClient σ) (s : σ) (calls : List FlowLogsCall) :
    Run FlowLogResourceData FlowLogsCall × σ :=
  match ParseNetworkWatcherFlowLogID d.Id with
  | .error err => ({ d := d, calls := calls, result := .error err }, s)
  | .ok id =>
    let calls := calls ++ [FlowLogsCall.Get id.ResourceGroup id.NetworkWatcherName id.FlowLogName]
    match client.Get s id.ResourceGroup id.NetworkWatcherName id.FlowLogName with
    | ((resp, some err), s1) =>
      if ResponseWasNotFound resp.Response then
        ({ d := { d with Id := "" }, calls := calls, result := .nil }, s1)
      else
        ({ d := d, calls := calls,
           result := .error (.wrapf "Error retrieving Flow Log %q (Resource Group %q): %+v"
             [d.Id, id.ResourceGroup] err) }, s1)
    | ((resp, none), s1) =>
      let d1 := { d with network_watcher_name := id.NetworkWatcherName,
                         resource_group_name := id.ResourceGroup }
      match resp.FlowLogPropertiesFormat with
      | none => ({ d := d1, calls := calls, result := .panic }, s1)
      | some props =>
        let d2 := { d1 with
          network_security_group_id := props.TargetResourceID.getD "",
          traffic_analytics := setTrafficAnalytics
            (flattenAzureRmNetworkWatcherFlowLogTrafficAnalytics props.FlowAnalyticsConfiguration),
          enabled := props.Enabled.getD false }
        let d3 :=
          match props.Format with
          | some format => { d2 with version := format.Version.getD 0 }
          | none => d2
        let d4 :=
          match props.StorageID with
          | some storageID =>
            if storageID ≠ "" then { d3 with storage_account_id := storageID } else d3
          | none => d3
        let retention :=
          flattenAzureRmNetworkWatcherFlowLogRetentionPolicy props.RetentionPolicy
        let d5 := { d4 with retention_policy := setRetentionPolicy retention }
        ({ d := d5, calls := calls, result := .nil }, s1)

/-- The parameters that `resourceArmNetworkWatcherFlowLogCreateUpdate` submits;
`none` is the panic of the traffic-analytics expansion. -/
def flowLogParameters (d : FlowLogResourceData) : Option FlowLog :=
  let format : Option FlowLogFormatParameters :=
    if d.version ≠ 0 then some { Version := some (toInt32 d.version) } else none
  let properties (analytics : Option TrafficAnalyticsProperties) : FlowLog :=
    { Response := { StatusCode := none },
      FlowLogPropertiesFormat := some
        { TargetResourceID := some d.network_security_group_id,
          StorageID := some d.storage_account_id,
          Enabled := some d.enabled,
          RetentionPolicy := expandAzureRmNetworkWatcherFlowLogRetentionPolicy d,
          Format := format,
          FlowAnalyticsConfiguration := analytics },
      ID := none }
  if d.traffic_analytics ≠ [] then
    match expandAzureRmNetworkWatcherFlowLogTrafficAnalytics d with
    | none => none
    | some analytics => some (properties (some analytics))
  else some (properties none)

/-- Source: `resourceArmNetworkWatcherFlowLogCreateUpdate`, registered as both
`Create` and `Update`. -/
def resourceArmNetworkWatcherFlowLogCreateUpdate {σ : Type} (d : FlowLogResourceData)
    (client : FlowLogsClient σ) (s : σ) : Run FlowLogResourceData FlowLogsCall × σ :=
  let networkWatcherName := d.network_watcher_name
  let resourceGroupName := d.resource_group_name
  let networkSecurityGroupID := d.network_security_group_id
  match flowLogParameters d with
  | none => ({ d := d, calls := [], result := .panic }, s)
  | some parameters =>
    let c1 := [FlowLogsCall.CreateOrUpdate resourceGroupName networkWatcherName
      networkSecurityGroupID parameters]
    match client.CreateOrUpdate s resourceGroupName networkWatcherName networkSecurityGroupID
        parameters with
    | (some err, s1) =>
      ({ d := d, calls := c1,
         result := .error (.wrapf "Error creating or updating Flow Log on Watcher %q: %+v"
           [networkWatcherName] err) }, s1)
    | (none, s1) =>
      let c2 := c1 ++ [FlowLogsCall.WaitForCreateOrUpdate]
      match client.WaitForCreateOrUpdate s1 with
      | (some err, s2) =>
        ({ d := d, calls := c2,
           result := .error (.wrapf
             "Error waiting for completion of setting Flow Log Configuration for target %q (Network Watcher %q / Resource Group %q): %+v"
             [networkSecurityGroupID, networkWatcherName, resourceGroupName] err) }, s2)
      | (none, s2) =>
        let c3 := c2 ++ [FlowLogsCall.Get resourceGroupName networkWatcherName
          networkSecurityGroupID]
        match client.Get s2 resourceGroupName networkWatcherName networkSecurityGroupID with
        | ((_, some err), s3) =>
          ({ d := d, calls := c3,
             result := .error (.wrapf "Cannot read Network Watcher %q (Resource Group %q) err: %+v"
               [networkWatcherName, resourceGroupName] err) }, s3)
        | ((resp, none), s3) =>
          match resp.ID with
          | none =>
            ({ d := d, calls := c3,
               result := .error (.errorf "Flow Log %q is nil (Resource Group %q)"
                 [networkWatcherName, resourceGroupName]) }, s3)
          | some id => resourceArmNetworkWatcherFlowLogRead { d with Id := id } client s3 c3

/-- Source: `resourceArmNetworkWatcherFlowLogDelete`. -/
def resourceArmNetworkWatcherFlowLogDelete {σ : Type} (d : FlowLogResourceData)
    (client : FlowLogsClient σ) (s : σ) : Run FlowLogResourceData FlowLogsCall × σ :=
  match ParseNetworkWatcherFlowLogID d.Id with
  | .error err => ({ d := d, calls := [], result := .error err }, s)
  | .ok id =>
    let c1 := [FlowLogsCall.Get id.ResourceGroup id.NetworkWatcherName id.FlowLogName]
    match client.Get s id.ResourceGroup id.NetworkWatcherName id.FlowLogName with
    | ((resp, some err), s1) =>
      if ResponseWasNotFound resp.Response then
        ({ d := { d with Id := "" }, calls := c1, result := .nil }, s1)
      else
        ({ d := d, calls := c1,
           result := .error (.wrapf "Error retrieving Flow Log %q (Resource Group %q): %+v"
             [d.Id, id.ResourceGroup] err) }, s1)
    | ((resp, none), s1) =>
      let enabled : Bool :=
        match resp.FlowLogPropertiesFormat with
        | some props => props.Enabled == some true
        | none => false
      if enabled then
        let c2 := c1 ++ [FlowLogsCall.Delete id.ResourceGroup id.NetworkWatcherName id.FlowLogName]
        match client.Delete s1 id.ResourceGroup id.NetworkWatcherName id.FlowLogName with
        | (some err, s2) =>
          ({ d := d, calls := c2,
             result := .error (.wrapf "Error deleting Flow Log %q: %+v" [d.Id] err) }, s2)
        | (none, s2) =>
          let c3 := c2 ++ [FlowLogsCall.WaitForDelete]
          match client.WaitForDelete s2 with
          | (some err, s3) =>
            ({ d := d, calls := c3,
               result := .error (.wrapf
                 "Error waiting for completion of Flow Log deletion %q: %+v" [d.Id] err) }, s3)
          | (none, s3) => ({ d := d, calls := c3, result := .nil }, s3)
      else ({ d := d, calls := c1, result := .nil }, s1)

/-! ### MSSQL database transparent data encryption: Read -/

/-- Modelled from the spec: `parse.NewServerID(...).ID()` of package
`mssql/parse`, not among the files at hand: the ARM path of the parent server,
built from subscription, resource group and server name (section 4.1, Build). -/
def NewServerID_ID (subscriptionId resourceGroup serverName : String) : String :=
  "/subscriptions/" ++ subscriptionId ++ "/resourceGroups/" ++ resourceGroup ++
    "/providers/Microsoft.Sql/servers/" ++ serverName

/-- Modelled from the spec: `parse.NewDatabaseID(...).ID()` of package
`mssql/parse`, not among the files at hand: the ARM path of the database
(section 4.1, Build). -/
def NewDatabaseID_ID (subscriptionId resourceGroup serverName databaseName : String) :
    String :=
  "/subscriptions/" ++ subscriptionId ++ "/resourceGroups/" ++ resourceGroup ++
    "/providers/Microsoft.Sql/servers/" ++ serverName ++ "/databases/" ++ databaseName

/-- Source: `resourceMsSqlDatabaseTransparentDataEncryptionRead`. -/
def resourceMsSqlDatabaseTransparentDataEncryptionRead
    (d : TransparentDataEncryptionResourceData) (meta : TransparentDataEncryptionsClient) :
    Run TransparentDataEncryptionResourceData TransparentDataEncryptionsCall :=
  match parseTransparentDataEncryptionID d.Id with
  | .error err => { d := d, calls := [], result := .error err }
  | .ok id =>
    let calls := [TransparentDataEncryptionsCall.Get id.ResourceGroup id.ServerName
      id.DatabaseName]
    match meta.Get id.ResourceGroup id.ServerName id.DatabaseName with
    | (resp, some err) =>
      if ResponseWasNotFound resp.Response then
        { d := { d with Id := "" }, calls := calls, result := .nil }
      else
        { d := d, calls := calls,
          result := .error (.wrapf "making Read request for %s: %v"
            [id.SubscriptionId, id.ResourceGroup, id.ServerName, id.DatabaseName, id.Name]
            err) }
    | (resp, none) =>
      let state :=
        match resp.Status with
        | some status => if status ≠ "" then status else ""
        | none => ""
      { d := { d with
          server_id := NewServerID_ID id.SubscriptionId id.ResourceGroup id.ServerName,
          database_id := NewDatabaseID_ID id.SubscriptionId id.ResourceGroup id.ServerName
            id.DatabaseName,
          state := state },
        calls := calls, result := .nil }

/-! ### Remote sides whose read call fails -/

/-- The error with which a failing remote call answers. -/
def remoteFailure (status : Nat) : GoError :=
  .errorf "remote call failed" [if status = 404 then "not found" else "failure"]

/-- A `TransparentDataEncryptionsClient` whose `Get` fails with the given HTTP
status. -/
def failingTransparentDataEncryptionsClient (status : Nat) :
    TransparentDataEncryptionsClient :=
  { Get := fun _ _ _ =>
      ({ Response := { StatusCode := some status }, Status := none },
        some (remoteFailure status)) }

/-- A `ConfigurationsClient` whose listing fails with the given HTTP status. -/
def failingConfigurationsClient (status : Nat) : ConfigurationsClient :=
  { ListByServer := fun _ _ =>
      ({ Response := { StatusCode := some status }, Value := none },
        some (remoteFailure status)) }

/-- A `PricingClient` whose calls fail with the given HTTP status. -/
def failingPricingClient (status : Nat) : PricingClient Unit :=
  { Update := fun s _ _ =>
      (({ Response := { StatusCode := some status }, PricingProperties := none, ID := none },
        some (remoteFailure status)), s),
    Get := fun s _ =>
      (({ Response := { StatusCode := some status }, PricingProperties := none, ID := none },
        some (remoteFailure status)), s) }

/-- A `FlowLogsClient` whose calls fail with the given HTTP status. -/
def failingFlowLogsClient (status : Nat) : FlowLogsClient Unit :=
  { CreateOrUpdate := fun s _ _ _ _ => (some (remoteFailure status), s),
    WaitForCreateOrUpdate := fun s => (some (remoteFailure status), s),
    Get := fun s _ _ _ =>
      (({ Response := { StatusCode := some status }, FlowLogPropertiesFormat := none,
          ID := none }, some (remoteFailure status)), s),
    Delete := fun s _ _ _ => (some (remoteFailure status), s),
    WaitForDelete := fun s => (some (remoteFailure status), s) }

/-- A flow-log ID and the state tracking it. -/
def sampleFlowLogID : String :=
  "/subscriptions/sub1/resourceGroups/rg1/providers/Microsoft.Network/networkWatchers/w1/flowLogs/f1"

/-- The flow-log state `sampleFlowLog enabled`, tracking `sampleFlowLogID`. -/
def sampleTrackedFlowLog (enabled : Bool) : FlowLogResourceData :=
  { sampleFlowLog enabled with Id := sampleFlowLogID }

/-- A transparent-data-encryption state tracking a well-formed ID. -/
def sampleTransparentDataEncryption : TransparentDataEncryptionResourceData :=
  { Id := (NewTransparentDataEncryptiontID "sub1" "rg1" "s1" "db1" "current").ID,
    server_id := "", state := "", database_id := "" }

/-- A pricing state tracking the ID of the `VirtualMachines` pricing. -/
def samplePricing : PricingResourceData :=
  { Id := pricingID "sub1" "VirtualMachines", tier := "Free",
    resource_type := "VirtualMachines" }

/-! ### Key Vault secret: identifiers, payloads and the remote side -/

/-- The type `azure.KeyVaultChildID`, as the handlers use it. -/
structure KeyVaultChildID where
  KeyVaultBaseUrl : String
  Name : String
  Version : String
  deriving DecidableEq, Repr

/-- Modelled from the spec: `azure.ParseKeyVaultChildID` of package
`azurerm/helpers/azure`, not among the files at hand.  Following sections 3 and
4.1 it splits the raw ID `SCHEME//HOST/COLLECTION/NAME/VERSION` into its ordered
path segments and fails unless the host, the name and the version suffix are
all present and non-empty; the base URL is `SCHEME//HOST/`. -/
def ParseKeyVaultChildID (id : String) : Except GoError KeyVaultChildID :=
  match (splitSlash (trimSuffixSlash id.data)).map String.mk with
  | [scheme, sep, host, _, name, version] =>
    if sep = "" ∧ host ≠ "" ∧ name ≠ "" ∧ version ≠ "" then
      .ok { KeyVaultBaseUrl := scheme ++ "//" ++ host ++ "/", Name := name, Version := version }
    else .error (.errorf "Bad segments in Key Vault child ID %q" [id])
  | _ => .error (.errorf "Bad number of segments in Key Vault child ID %q" [id])

/-- The SDK type `keyvault.SecretAttributes`, of which the handlers use the two
dates (Unix times). -/
structure SecretAttributes where
  NotBefore : Option Int
  Expires : Option Int
  deriving DecidableEq, Repr

/-- The SDK type `keyvault.SecretSetParameters`. -/
structure SecretSetParameters where
  Value : Option String
  ContentType : Option String
  Tags : GoMap
  SecretAttributes : Option SecretAttributes
  deriving DecidableEq, Repr

/-- The SDK type `keyvault.SecretUpdateParameters`. -/
structure SecretUpdateParameters where
  ContentType : Option String
  Tags : GoMap
  SecretAttributes : Option SecretAttributes
  deriving DecidableEq, Repr

/-- The SDK type `keyvault.SecretBundle`, of which the handlers read the
response and the pointer to the ID. -/
structure SecretBundle where
  Response : AutorestResponse
  ID : Option String
  deriving DecidableEq, Repr

/-- The SDK type `keyvault.SecretItem`, an entry of a listing page. -/
structure SecretItem where
  ID : Option String
  ContentType : Option String
  Attributes : Option SecretAttributes
  Tags : GoMap
  deriving DecidableEq, Repr

/-- The remote calls that the Key Vault secret handlers can issue: the three
vault lookups of package `azurerm/helpers/azure` and the calls of the SDK's
management client. -/
inductive KeyVaultCall where
  | GetKeyVaultBaseUrlFromID (keyVaultId : String)
  | GetKeyVaultIDFromBaseUrl (keyVaultBaseUrl : String)
  | KeyVaultExists (keyVaultId : String)
  | GetSecret (vaultBaseUrl name version : String)
  | SetSecret (vaultBaseUrl name : String) (parameters : SecretSetParameters)
  | UpdateSecret (vaultBaseUrl name version : String) (parameters : SecretUpdateParameters)
  | GetSecrets (vaultBaseUrl : String) (maxresults : Option Int)
  | DeleteSecret (vaultBaseUrl name : String)
  deriving DecidableEq, Repr

/-- What the secret handlers take from `meta` and from the Go libraries, over a
remote side in state `σ`.  `ShouldResourcesBeImported` is the feature flag
`features.ShouldResourcesBeImported()`; `parseTime` and `formatTime` are
`time.Parse(time.RFC3339, _)` (its error dropped, as in the source) and
`time.Time(_).Format(time.RFC3339)`; `GetSecrets` answers with the items of the
page it returns (`resp.Values()`).  The three vault lookups stand for
`azure.GetKeyVaultBaseUrlFromID`, `azure.GetKeyVaultIDFromBaseUrl` and
`azure.KeyVaultExists`, whose sources are not among the files at hand and whose
answers depend on the remote side only. -/
structure KeyVaultMeta (σ : Type) where
  ShouldResourcesBeImported : Bool
  parseTime : String → Int
  formatTime : Int → String
  GetKeyVaultBaseUrlFromID : σ → String → Except GoError String × σ
  GetKeyVaultIDFromBaseUrl : σ → String → Except GoError (Option String) × σ
  KeyVaultExists : σ → String → Except GoError Bool × σ
  GetSecret : σ → String → String → String → (SecretBundle × Option GoError) × σ
  SetSecret : σ → String → String → SecretSetParameters → (SecretBundle × Option GoError) × σ
  UpdateSecret : σ → String → String → String → SecretUpdateParameters →
    (SecretBundle × Option GoError) × σ
  GetSecrets : σ → String → Option Int → (List SecretItem × Option GoError) × σ
  DeleteSecret : σ → String → String → Option GoError × σ

/-- The state of an `azurerm_key_vault_secret` resource and its tracked ID.
`value_prior` is the value held in state before the change being applied, so
that `d.HasChange("value")` is `value_prior ≠ value`. -/
structure SecretResourceData where
  Id : String
  name : String
  key_vault_id : String
  value : String
  value_prior : String
  content_type : String
  not_before_date : String
  expiration_date : String
  version : String
  tags : GoMap
  deriving DecidableEq, Repr

/-- Modelled from the spec: `tf.ImportAsExistsError` of package
`azurerm/helpers/tf`, not among the files at hand: the `AlreadyExists` error of
section 7, carrying the conflicting identifier. -/
def ImportAsExistsError (resourceName id : String) : GoError :=
  .errorf "AlreadyExists: a resource with the ID %q already exists and must be imported (%q)"
    [id, resourceName]

/-- The `SecretAttributes` that Create and Update build from the two date
fields: a date is set when `d.GetOk` finds the field non-empty. -/
def secretAttributesOf {σ : Type} (meta : KeyVaultMeta σ) (d : SecretResourceData) :
    SecretAttributes :=
  { NotBefore := if d.not_before_date ≠ "" then some (meta.parseTime d.not_before_date)
      else none,
    Expires := if d.expiration_date ≠ "" then some (meta.parseTime d.expiration_date)
      else none }

/-- The parameters of `SetSecret` built by Create and Update (`tags.Expand` of a
string map is the same map). -/
def secretSetParametersOf {σ : Type} (meta : KeyVaultMeta σ) (d : SecretResourceData) :
    SecretSetParameters :=
  { Value := some d.value, ContentType := some d.content_type, Tags := d.tags,
    SecretAttributes := some (secretAttributesOf meta d) }

/-- The parameters of `UpdateSecret` built by Update. -/
def secretUpdateParametersOf {σ : Type} (meta : KeyVaultMeta σ) (d : SecretResourceData) :
    SecretUpdateParameters :=
  { ContentType := some d.content_type, Tags := d.tags,
    SecretAttributes := some (secretAttributesOf meta d) }

/-! ### Key Vault secret: the handlers -/

/-- The parts `strings.Split(strings.TrimSuffix(*item.ID, "/"), "/")` of an item
ID. -/
def secretParts (itemID : String) : List String :=
  (splitSlash (trimSuffixSlash itemID.data)).map String.mk

/-- How the loop of Read over the listed items ends: with the item it stopped
at, without a match, with the `Unexpected Key Vault Secret ID format` error for
an item ID of fewer than 4 parts, or with the dereference of a `nil` item ID. -/
inductive SecretSearch where
  | found (item : SecretItem)
  | absent
  | unexpectedFormat (itemID : String)
  | nilID
  deriving DecidableEq, Repr

/-- The loop `for _, item := range resp.Values()` of
`resourceArmKeyVaultSecretRead`. -/
def searchSecret (name : String) : List SecretItem → SecretSearch
  | [] => .absent
  | item :: rest =>
    match item.ID with
    | none => .nilID
    | some itemID =>
      if (secretParts itemID).length < 4 then .unexpectedFormat itemID
      else if (secretParts itemID).getLast? = some name then .found item
      else searchSecret name rest

/-- The fields that Read sets once the secret is found: `key_vault_id`, `name`,
`version`, `content_type`, the dates that the item carries, and the tags
(`tags.FlattenAndSet`, which for a string map stores the map). -/
def setSecretFields {σ : Type} (meta : KeyVaultMeta σ) (d : SecretResourceData)
    (keyVaultId : String) (id : KeyVaultChildID) (secret : SecretItem) : SecretResourceData :=
  let d1 := { d with key_vault_id := keyVaultId, name := id.Name, version := id.Version,
                     content_type := secret.ContentType.getD "" }
  let d2 :=
    match secret.Attributes with
    | some attributes =>
      let d' :=
        match attributes.NotBefore with
        | some v => { d1 with not_before_date := meta.formatTime v }
        | none => d1
      match attributes.Expires with
      | some v => { d' with expiration_date := meta.formatTime v }
      | none => d'
    | none => d1
  { d2 with tags := secret.Tags }

/-- Source: `resourceArmKeyVaultSecretRead`; `calls` are the calls issued before
it by the same handler invocation. -/
def resourceArmKeyVaultSecretRead {σ : Type} (d : SecretResourceData) (meta : KeyVaultMeta σ)
    (s : σ) (calls : List KeyVaultCall) : Run SecretResourceData KeyVaultCall × σ :=
  match ParseKeyVaultChildID d.Id with
  | .error err => ({ d := d, calls := calls, result := .error err }, s)
  | .ok id =>
    let c1 := calls ++ [KeyVaultCall.GetKeyVaultIDFromBaseUrl id.KeyVaultBaseUrl]
    match meta.GetKeyVaultIDFromBaseUrl s id.KeyVaultBaseUrl with
    | (.error err, s1) =>
      ({ d := d, calls := c1,
         result := .error (.wrapf "Error retrieving the Resource ID the Key Vault at URL %q: %s"
           [id.KeyVaultBaseUrl] err) }, s1)
    | (.ok none, s1) => ({ d := { d with Id := "" }, calls := c1, result := .nil }, s1)
    | (.ok (some keyVaultId), s1) =>
      let c2 := c1 ++ [KeyVaultCall.KeyVaultExists keyVaultId]
      match meta.KeyVaultExists s1 keyVaultId with
      | (.error err, s2) =>
        ({ d := d, calls := c2,
           result := .error (.wrapf
             "Error checking if key vault %q for Secret %q in Vault at url %q exists: %v"
             [keyVaultId, id.Name, id.KeyVaultBaseUrl] err) }, s2)
      | (.ok false, s2) => ({ d := { d with Id := "" }, calls := c2, result := .nil }, s2)
      | (.ok true, s2) =>
        let c3 := c2 ++ [KeyVaultCall.GetSecrets id.KeyVaultBaseUrl (some 25)]
        match meta.GetSecrets s2 id.KeyVaultBaseUrl (some 25) with
        | ((_, some err), s3) =>
          ({ d := d, calls := c3,
             result := .error (.wrapf "Error listing Key Vault Secrets: %s" [] err) }, s3)
        | ((values, none), s3) =>
          match searchSecret id.Name values with
          | .nilID => ({ d := d, calls := c3, result := .panic }, s3)
          | .unexpectedFormat itemID =>
            ({ d := d, calls := c3,
               result := .error (.errorf "Unexpected Key Vault Secret ID format: %+v"
                 [itemID]) }, s3)
          | .absent => ({ d := { d with Id := "" }, calls := c3, result := .nil }, s3)
          | .found secret =>
            ({ d := setSecretFields meta d keyVaultId id secret, calls := c3,
               result := .nil }, s3)

/-- Source: `resourceArmKeyVaultSecretCreate`. -/
def resourceArmKeyVaultSecretCreate {σ : Type} (d : SecretResourceData) (meta : KeyVaultMeta σ)
    (s : σ) : Run SecretResourceData KeyVaultCall × σ :=
  let name := d.name
  let keyVaultId := d.key_vault_id
  let c1 := [KeyVaultCall.GetKeyVaultBaseUrlFromID keyVaultId]
  match meta.GetKeyVaultBaseUrlFromID s keyVaultId with
  | (.error err, s1) =>
    ({ d := d, calls := c1,
       result := .error (.wrapf "Error looking up Secret %q vault url from id %q: %+v"
         [name, keyVaultId] err) }, s1)
  | (.ok keyVaultBaseUrl, s1) =>
    let submit (c2 : List KeyVaultCall) (s2 : σ) : Run SecretResourceData KeyVaultCall × σ :=
      let parameters := secretSetParametersOf meta d
      let c3 := c2 ++ [KeyVaultCall.SetSecret keyVaultBaseUrl name parameters]
      match meta.SetSecret s2 keyVaultBaseUrl name parameters with
      | ((_, some err), s3) => ({ d := d, calls := c3, result := .error err }, s3)
      | ((_, none), s3) =>
        let c4 := c3 ++ [KeyVaultCall.GetSecret keyVaultBaseUrl name ""]
        match meta.GetSecret s3 keyVaultBaseUrl name "" with
        | ((_, some err), s4) => ({ d := d, calls := c4, result := .error err }, s4)
        | ((read, none), s4) =>
          match read.ID with
          | none =>
            ({ d := d, calls := c4,
               result := .error (.errorf "Cannot read KeyVault Secret '%s' (in key vault '%s')"
                 [name, keyVaultBaseUrl]) }, s4)
          | some readID => resourceArmKeyVaultSecretRead { d with Id := readID } meta s4 c4
    if meta.ShouldResourcesBeImported then
      let c2 := c1 ++ [KeyVaultCall.GetSecret keyVaultBaseUrl name ""]
      let checkID (existing : SecretBundle) (s2 : σ) :
          Run SecretResourceData KeyVaultCall × σ :=
        match existing.ID with
        | some existingID =>
          if existingID ≠ "" then
            ({ d := d, calls := c2,
               result := .error (ImportAsExistsError "azurerm_key_vault_secret" existingID) },
             s2)
          else submit c2 s2
        | none => submit c2 s2
      match meta.GetSecret s1 keyVaultBaseUrl name "" with
      | ((existing, some err), s2) =>
        if ResponseWasNotFound existing.Response then checkID existing s2
        else
          ({ d := d, calls := c2,
             result := .error (.wrapf
               "Error checking for presence of existing Secret %q (Key Vault %q): %s"
               [name, keyVaultBaseUrl] err) }, s2)
      | ((existing, none), s2) => checkID existing s2
    else submit c1 s1

/-- Source: `resourceArmKeyVaultSecretUpdate`.  `.panic` is the dereference
`*read.ID` of a re-read payload without ID. -/
def resourceArmKeyVaultSecretUpdate {σ : Type} (d : SecretResourceData) (meta : KeyVaultMeta σ)
    (s : σ) : Run SecretResourceData KeyVaultCall × σ :=
  match ParseKeyVaultChildID d.Id with
  | .error err => ({ d := d, calls := [], result := .error err }, s)
  | .ok id =>
    let c1 := [KeyVaultCall.GetKeyVaultIDFromBaseUrl id.KeyVaultBaseUrl]
    match meta.GetKeyVaultIDFromBaseUrl s id.KeyVaultBaseUrl with
    | (.error err, s1) =>
      ({ d := d, calls := c1,
         result := .error (.wrapf "Error retrieving the Resource ID the Key Vault at URL %q: %s"
           [id.KeyVaultBaseUrl] err) }, s1)
    | (.ok none, s1) =>
      ({ d := d, calls := c1,
         result := .error (.errorf
           "Unable to determine the Resource ID for the Key Vault at URL %q"
           [id.KeyVaultBaseUrl]) }, s1)
    | (.ok (some keyVaultId), s1) =>
      let c2 := c1 ++ [KeyVaultCall.KeyVaultExists keyVaultId]
      match meta.KeyVaultExists s1 keyVaultId with
      | (.error err, s2) =>
        ({ d := d, calls := c2,
           result := .error (.wrapf
             "Error checking if key vault %q for Secret %q in Vault at url %q exists: %v"
             [keyVaultId, id.Name, id.KeyVaultBaseUrl] err) }, s2)
      | (.ok false, s2) => ({ d := { d with Id := "" }, calls := c2, result := .nil }, s2)
      | (.ok true, s2) =>
        if d.value_prior ≠ d.value then
          let parameters := secretSetParametersOf meta d
          let c3 := c2 ++ [KeyVaultCall.SetSecret id.KeyVaultBaseUrl id.Name parameters]
          match meta.SetSecret s2 id.KeyVaultBaseUrl id.Name parameters with
          | ((_, some err), s3) => ({ d := d, calls := c3, result := .error err }, s3)
          | ((_, none), s3) =>
            let c4 := c3 ++ [KeyVaultCall.GetSecret id.KeyVaultBaseUrl id.Name ""]
            match meta.GetSecret s3 id.KeyVaultBaseUrl id.Name "" with
            | ((_, some err2), s4) =>
              ({ d := d, calls := c4,
                 result := .error (.wrapf "Error getting Key Vault Secret %q : %+v"
                   [id.Name] err2) }, s4)
            | ((read, none), s4) =>
              match read.ID with
              | none => ({ d := d, calls := c4, result := .panic }, s4)
              | some readID =>
                match ParseKeyVaultChildID readID with
                | .error err => ({ d := d, calls := c4, result := .error err }, s4)
                | .ok _ => resourceArmKeyVaultSecretRead { d with Id := readID } meta s4 c4
        else
          let parameters := secretUpdateParametersOf meta d
          let c3 := c2 ++ [KeyVaultCall.UpdateSecret id.KeyVaultBaseUrl id.Name id.Version
            parameters]
          match meta.UpdateSecret s2 id.KeyVaultBaseUrl id.Name id.Version parameters with
          | ((_, some err), s3) => ({ d := d, calls := c3, result := .error err }, s3)
          | ((_, none), s3) => resourceArmKeyVaultSecretRead d meta s3 c3

/-- Source: `resourceArmKeyVaultSecretDelete`. -/
def resourceArmKeyVaultSecretDelete {σ : Type} (d : SecretResourceData) (meta : KeyVaultMeta σ)
    (s : σ) : Run SecretResourceData KeyVaultCall × σ :=
  match ParseKeyVaultChildID d.Id with
  | .error err => ({ d := d, calls := [], result := .error err }, s)
  | .ok id =>
    let c1 := [KeyVaultCall.GetKeyVaultIDFromBaseUrl id.KeyVaultBaseUrl]
    match meta.GetKeyVaultIDFromBaseUrl s id.KeyVaultBaseUrl with
    | (.error err, s1) =>
      ({ d := d, calls := c1,
         result := .error (.wrapf "Error retrieving the Resource ID the Key Vault at URL %q: %s"
           [id.KeyVaultBaseUrl] err) }, s1)
    | (.ok none, s1) =>
      ({ d := d, calls := c1,
         result := .error (.errorf
           "Unable to determine the Resource ID for the Key Vault at URL %q"
           [id.KeyVaultBaseUrl]) }, s1)
    | (.ok (some keyVaultId), s1) =>
      let c2 := c1 ++ [KeyVaultCall.KeyVaultExists keyVaultId]
      match meta.KeyVaultExists s1 keyVaultId with
      | (.error err, s2) =>
        ({ d := d, calls := c2,
           result := .error (.wrapf
             "Error checking if key vault %q for Secret %q in Vault at url %q exists: %v"
             [keyVaultId, id.Name, id.KeyVaultBaseUrl] err) }, s2)
      | (.ok false, s2) => ({ d := { d with Id := "" }, calls := c2, result := .nil }, s2)
      | (.ok true, s2) =>
        let c3 := c2 ++ [KeyVaultCall.DeleteSecret id.KeyVaultBaseUrl id.Name]
        match meta.DeleteSecret s2 id.KeyVaultBaseUrl id.Name with
        | (some err, s3) => ({ d := d, calls := c3, result := .error err }, s3)
        | (none, s3) => ({ d := d, calls := c3, result := .nil }, s3)

/-! ### An in-memory Key Vault -/

/-- A secret held by the in-memory vault: its current version and attributes. -/
structure StoredSecret where
  name : String
  version : String
  contentType : String
  tags : GoMap
  attributes : SecretAttributes
  deriving DecidableEq, Repr

/-- The state of the in-memory vault: whether its resource ID can be determined
from the base URL, whether it exists, its secrets in listing order, and the
number of versions it has assigned so far. -/
structure VaultState where
  vaultKnown : Bool
  vaultExists : Bool
  secrets : List StoredSecret
  issued : Nat
  deriving DecidableEq, Repr

/-- The base URL of the in-memory vault. -/
def vaultBaseUrl : String := "https://vault1.vault.azure.net/"

/-- The resource ID of the in-memory vault. -/
def vaultResourceID : String :=
  "/subscriptions/sub1/resourceGroups/rg1/providers/Microsoft.KeyVault/vaults/vault1"

/-- The `n`-th version that the in-memory vault assigns: `v`, `v1`, `v11`, ... -/
def freshVersion (n : Nat) : String := String.mk ('v' :: List.replicate n '1')

/-- The ID of a version of a secret of the in-memory vault. -/
def secretID (name version : String) : String :=
  vaultBaseUrl ++ "secrets/" ++ name ++ "/" ++ version

/-- The listing entry of a stored secret; its ID carries no version. -/
def StoredSecret.item (st : StoredSecret) : SecretItem :=
  { ID := some (vaultBaseUrl ++ "secrets/" ++ st.name), ContentType := some st.contentType,
    Attributes := some st.attributes, Tags := st.tags }

/-- The stored secret of the given name, if any. -/
def VaultState.find (s : VaultState) (name : String) : Option StoredSecret :=
  s.secrets.find? (fun st => st.name = name)

/-- The in-memory vault as the remote side of the secret handlers.  `SetSecret`
assigns a fresh version, `GetSecrets` answers with the first `maxresults`
secrets, `DeleteSecret` removes the secret, and a call on a secret that is not
stored fails with status 404. -/
def vaultMeta (importProtection : Bool) : KeyVaultMeta VaultState :=
  { ShouldResourcesBeImported := importProtection,
    parseTime := fun t => t.length,
    formatTime := fun _ => "1970-01-01T00:00:00Z",
    GetKeyVaultBaseUrlFromID := fun s _ => (.ok vaultBaseUrl, s),
    GetKeyVaultIDFromBaseUrl := fun s _ =>
      (.ok (if s.vaultKnown then some vaultResourceID else none), s),
    KeyVaultExists := fun s _ => (.ok s.vaultExists, s),
    GetSecret := fun s _ name _ =>
      match s.find name with
      | some st =>
        (({ Response := { StatusCode := some 200 }, ID := some (secretID name st.version) },
          none), s)
      | none =>
        (({ Response := { StatusCode := some 404 }, ID := none }, some (remoteFailure 404)), s),
    SetSecret := fun s _ name parameters =>
      let st : StoredSecret :=
        { name := name, version := freshVersion s.issued,
          contentType := parameters.ContentType.getD "", tags := parameters.Tags,
          attributes := parameters.SecretAttributes.getD { NotBefore := none, Expires := none } }
      (({ Response := { StatusCode := some 200 }, ID := some (secretID name st.version) }, none),
       { s with
         secrets := if (s.find name).isSome
           then s.secrets.map (fun old => if old.name = name then st else old)
           else s.secrets ++ [st],
         issued := s.issued + 1 }),
    UpdateSecret := fun s _ name _ parameters =>
      match s.find name with
      | some st =>
        let st' : StoredSecret :=
          { st with contentType := parameters.ContentType.getD st.contentType,
                    tags := parameters.Tags,
                    attributes := parameters.SecretAttributes.getD st.attributes }
        (({ Response := { StatusCode := some 200 }, ID := some (secretID name st.version) },
          none),
         { s with secrets := s.secrets.map (fun old => if old.name = name then st' else old) })
      | none =>
        (({ Response := { StatusCode := some 404 }, ID := none }, some (remoteFailure 404)), s),
    GetSecrets := fun s _ maxresults =>
      (((s.secrets.take (maxresults.getD 25).toNat).map StoredSecret.item, none), s),
    DeleteSecret := fun s _ name =>
      if (s.find name).isSome then
        (none, { s with secrets := s.secrets.filter (fun st => st.name ≠ name) })
      else (some (remoteFailure 404), s) }

/-- A stored secret with the given name and version and no further attributes. -/
def plainSecret (name version : String) : StoredSecret :=
  { name := name, version := version, contentType := "text/plain", tags := [],
    attributes := { NotBefore := none, Expires := none } }

/-- A secret state tracking version `version` of the secret `name` of the
in-memory vault, with `value` as configured and as prior value. -/
def secretAt (name version value : String) : SecretResourceData :=
  { Id := secretID name version, name := name, key_vault_id := vaultResourceID,
    value := value, value_prior := value, content_type := "", not_before_date := "",
    expiration_date := "", version := version, tags := [] }

/-- The in-memory vault with the given secrets, known and existing. -/
def vaultWith (secrets : List StoredSecret) : VaultState :=
  { vaultKnown := true, vaultExists := true, secrets := secrets, issued := secrets.length }

/-- The parsed form of `secretID name version`. -/
def secretChildID (name version : String) : KeyVaultChildID :=
  { KeyVaultBaseUrl := vaultBaseUrl, Name := name, Version := version }

/-- The item has an ID, and the ID splits into at least 4 parts. -/
def wellFormedItem (item : SecretItem) : Bool :=
  match item.ID with
  | some itemID => decide (4 ≤ (secretParts itemID).length)
  | none => false

/-- The last part of the item's ID is `name`. -/
def itemMatches (name : String) (item : SecretItem) : Bool :=
  match item.ID with
  | some itemID => decide ((secretParts itemID).getLast? = some name)
  | none => false

/-- The name of the `i`-th secret of the sample vault: `s`, `s1`, `s11`, ... -/
def sampleSecretName (i : Nat) : String := String.mk ('s' :: List.replicate i '1')

/-- A vault holding the `n` secrets `sampleSecretName 0`, ..., each at version
`v`. -/
def sampleVault (n : Nat) : VaultState :=
  vaultWith ((List.range n).map fun i => plainSecret (sampleSecretName i) "v")

/-- From service state `s`, the vault at the base URL of `id` is resolved to
`keyVaultId` and exists, and the listing that Read requests (at most 25 items)
succeeds with the page `page`, leaving the service in state `s'`. -/
def ListsPage {σ : Type} (meta : KeyVaultMeta σ) (s : σ) (id : KeyVaultChildID)
    (keyVaultId : String) (page : List SecretItem) (s' : σ) : Prop :=
  ∃ s1 s2, meta.GetKeyVaultIDFromBaseUrl s id.KeyVaultBaseUrl = (.ok (some keyVaultId), s1) ∧
    meta.KeyVaultExists s1 keyVaultId = (.ok true, s2) ∧
    meta.GetSecrets s2 id.KeyVaultBaseUrl (some 25) = ((page, none), s')

/-- The calls of a Read that reaches the listing. -/
def readCalls (id : KeyVaultChildID) (keyVaultId : String) : List KeyVaultCall :=
  [.GetKeyVaultIDFromBaseUrl id.KeyVaultBaseUrl, .KeyVaultExists keyVaultId,
   .GetSecrets id.KeyVaultBaseUrl (some 25)]

/-- The desired state of a secret `name` of the in-memory vault that is not
tracked yet. -/
def newSecret (name value : String) : SecretResourceData :=
  { secretAt name "" value with Id := "" }

/-- The import check of the secret Create lets the creation proceed from
service state `s1` in state `s2`, having issued the calls `checks`: either the
protection against imports is disabled, or the lookup of the secret answers
(without error, or with a not-found error) with no ID or an empty one. -/
def ImportCheckPasses {σ : Type} (meta : KeyVaultMeta σ) (s1 : σ) (keyVaultBaseUrl name : String)
    (checks : List KeyVaultCall) (s2 : σ) : Prop :=
  (meta.ShouldResourcesBeImported = false ∧ checks = [] ∧ s2 = s1) ∨
  (meta.ShouldResourcesBeImported = true ∧
    checks = [KeyVaultCall.GetSecret keyVaultBaseUrl name ""] ∧
    ∃ existing err, meta.GetSecret s1 keyVaultBaseUrl name "" = ((existing, err), s2) ∧
      (err = none ∨ ResponseWasNotFound existing.Response = true) ∧
      (existing.ID = none ∨ existing.ID = some ""))

/-- A `PricingClient` whose `Update` succeeds and whose `Get` answers without
error with a payload that carries no ID. -/
def anonymousPricingClient : PricingClient Unit :=
  { Update := fun s _ pricing => ((pricing, none), s),
    Get := fun s _ =>
      (({ Response := { StatusCode := some 200 },
          PricingProperties := some { PricingTier := "Free" }, ID := none }, none), s) }

/-- The client of an in-memory flow-log service holding at most one flow log,
the one of ID `sampleFlowLogID`: `CreateOrUpdate` stores the submitted flow log
under that ID, `Delete` removes it, and `Get` and `Delete` of an absent flow log
fail with status 404. -/
def flowLogStoreClient : FlowLogsClient (Option FlowLog) :=
  { CreateOrUpdate := fun _ _ _ _ parameters =>
      (none, some { parameters with Response := { StatusCode := some 200 },
                                    ID := some sampleFlowLogID }),
    WaitForCreateOrUpdate := fun s => (none, s),
    Get := fun s _ _ _ =>
      match s with
      | some flowLog => ((flowLog, none), s)
      | none =>
        (({ Response := { StatusCode := some 404 }, FlowLogPropertiesFormat := none,
            ID := none }, some (remoteFailure 404)), s),
    Delete := fun s _ _ _ =>
      match s with
      | some _ => (none, none)
      | none => (some (remoteFailure 404), s),
    WaitForDelete := fun s => (none, s) }

/-- The calls that Read can issue: the two vault lookups and the listing. -/
def isLookupCall : KeyVaultCall → Bool
  | .GetKeyVaultIDFromBaseUrl _ => true
  | .KeyVaultExists _ => true
  | .GetSecrets _ _ => true
  | _ => false

/-- An enabled flow log as the in-memory flow-log service stores it. -/
def storedFlowLog : FlowLog :=
  { Response := { StatusCode := some 200 },
    FlowLogPropertiesFormat := some
      { TargetResourceID := some "nsg", StorageID := some "sa", Enabled := some true,
        RetentionPolicy := none, Format := none, FlowAnalyticsConfiguration := none },
    ID := some sampleFlowLogID }

/-- The response carries properties whose `Enabled` is present and true. -/
def reportsEnabled (resp : FlowLog) : Bool :=
  match resp.FlowLogPropertiesFormat with
  | some props => props.Enabled == some true
  | none => false

/-- The storage ID that the response reports, if any. -/
def reportedStorageID (resp : FlowLog) : Option String :=
  match resp.FlowLogPropertiesFormat with
  | some props => props.StorageID
  | none => none

/-- A disabled flow log as the in-memory flow-log service stores it; the
service reports an empty storage ID for it. -/
def disabledFlowLog : FlowLog :=
  { Response := { StatusCode := some 200 },
    FlowLogPropertiesFormat := some
      { TargetResourceID := some "nsg", StorageID := some "", Enabled := some false,
        RetentionPolicy := some { Enabled := some false, Days := some 0 }, Format := none,
        FlowAnalyticsConfiguration := none },
    ID := some sampleFlowLogID }

/-- The parsed form of `sampleFlowLogID`. -/
def sampleFlowLogAccountID : NetworkWatcherFlowLogAccountID :=
  { SubscriptionID := "sub1", ResourceGroup := "rg1", Provider := "Microsoft.Network",
    Path := [("flowLogs", "f1"), ("networkWatchers", "w1")],
    NetworkWatcherName := "w1", FlowLogName := "f1" }

/-- The in-memory vault, except that `GetSecret` answers without error with a
payload that carries no ID. -/
def vaultMetaWithoutReadID (importProtection : Bool) : KeyVaultMeta VaultState :=
  { vaultMeta importProtection with
    GetSecret := fun s _ _ _ =>
      (({ Response := { StatusCode := some 200 }, ID := none }, none), s) }

/-- The item has an ID, and the ID splits into fewer than 4 parts. -/
def malformedItem (item : SecretItem) : Bool :=
  match item.ID with
  | some itemID => decide ((secretParts itemID).length < 4)
  | none => false

/-- A listing entry with the given ID and nothing else. -/
def itemWithID (itemID : String) : SecretItem :=
  { ID := some itemID, ContentType := none, Attributes := none, Tags := [] }

/-- The in-memory vault, except that the listing answers with the given page. -/
def pageMeta (page : List SecretItem) : KeyVaultMeta VaultState :=
  { vaultMeta false with GetSecrets := fun s _ _ => ((page, none), s) }

/-! ### SQL extended auditing (package `sql/helper`) -/

/-- The dynamic values that the auditing helpers meet behind `interface{}`:
Go `string`, `bool`, `int` and `int32`. -/
inductive GoScalar where
  | str (v : String)
  | bool (v : Bool)
  | int (v : Int)
  | int32 (v : Int)
  deriving DecidableEq, Repr

/-- Go `map[string]interface{}` as an association list; `List.lookup` is the
map index with its `ok` flag. -/
abbrev GoObject := List (String × GoScalar)

/-- An element of a `[]interface{}`: a `map[string]interface{}` or a scalar. -/
inductive GoValue where
  | object (m : GoObject)
  | scalar (v : GoScalar)
  deriving DecidableEq, Repr

/-- The keys of the element schema returned by `ExtendedAuditingSchema`. -/
def ExtendedAuditingSchema : List String :=
  ["storage_endpoint", "storage_account_access_key_is_secondary", "retention_in_days"]

/-- SDK constant `sql.BlobAuditingPolicyStateDisabled`. -/
def BlobAuditingPolicyStateDisabled : String := "Disabled"

/-- SDK constant `sql.BlobAuditingPolicyStateEnabled`. -/
def BlobAuditingPolicyStateEnabled : String := "Enabled"

/-- The fields of `sql.ExtendedServerBlobAuditingPolicyProperties` that the
helpers use. -/
structure ExtendedServerBlobAuditingPolicyProperties where
  State : String
  StorageEndpoint : Option String := none
  StorageAccountAccessKey : Option String := none
  RetentionDays : Option Int := none
  IsStorageSecondaryKeyInUse : Option Bool := none
  deriving DecidableEq, Repr

/-- The SDK type `sql.ExtendedServerBlobAuditingPolicy`: its properties are an
embedded pointer. -/
structure ExtendedServerBlobAuditingPolicy where
  ExtendedServerBlobAuditingPolicyProperties : Option ExtendedServerBlobAuditingPolicyProperties
  deriving DecidableEq, Repr

/-- The fields of `sql.ExtendedDatabaseBlobAuditingPolicyProperties` that the
helpers use. -/
structure ExtendedDatabaseBlobAuditingPolicyProperties where
  State : String
  StorageEndpoint : Option String := none
  StorageAccountAccessKey : Option String := none
  RetentionDays : Option Int := none
  IsStorageSecondaryKeyInUse : Option Bool := none
  deriving DecidableEq, Repr

/-- The SDK type `sql.ExtendedDatabaseBlobAuditingPolicy`: its properties are an
embedded pointer. -/
structure ExtendedDatabaseBlobAuditingPolicy where
  ExtendedDatabaseBlobAuditingPolicyProperties :
    Option ExtendedDatabaseBlobAuditingPolicyProperties
  deriving DecidableEq, Repr

/-- Source: `ExpandAzureRmSqlServerBlobAuditingPolicies`.  The result `none` is
the run-time panic of a failed type assertion `x.(T)`, which a missing map key
(a `nil` interface) fails as a value of another type does. -/
def ExpandAzureRmSqlServerBlobAuditingPolicies (input : List GoValue) :
    Option ExtendedServerBlobAuditingPolicyProperties :=
  match input with
  | [] => some { State := BlobAuditingPolicyStateDisabled }
  | .scalar _ :: _ => none
  | .object serverBlobAuditingPolicies :: _ =>
    match serverBlobAuditingPolicies.lookup "storage_account_access_key",
        serverBlobAuditingPolicies.lookup "storage_endpoint" with
    | some (.str accessKey), some (.str endpoint) =>
      let p0 : ExtendedServerBlobAuditingPolicyProperties :=
        { State := BlobAuditingPolicyStateEnabled, StorageAccountAccessKey := some accessKey,
          StorageEndpoint := some endpoint }
      let p1 : Option ExtendedServerBlobAuditingPolicyProperties :=
        match serverBlobAuditingPolicies.lookup "storage_account_access_key_is_secondary" with
        | some (.bool v) => some { p0 with IsStorageSecondaryKeyInUse := some v }
        | some _ => none
        | none => some p0
      match p1 with
      | none => none
      | some p =>
        match serverBlobAuditingPolicies.lookup "retention_in_days" with
        | some (.int v) => some { p with RetentionDays := some (toInt32 v) }
        | some _ => none
        | none => some p
    | _, _ => none

/-- Source: `FlattenAzureRmSqlServerBlobAuditingPolicies`, without its unused
parameter `d`.  The result `none` is the panic of reading `State` through a
`nil` properties pointer. -/
def FlattenAzureRmSqlServerBlobAuditingPolicies
    (extendedServerBlobAuditingPolicy : Option ExtendedServerBlobAuditingPolicy) :
    Option (List GoValue) :=
  match extendedServerBlobAuditingPolicy with
  | none => some []
  | some policy =>
    match policy.ExtendedServerBlobAuditingPolicyProperties with
    | none => none
    | some props =>
      if props.State = BlobAuditingPolicyStateDisabled then some []
      else
        let storageEndpoint := props.StorageEndpoint.getD ""
        let secondKeyInUse := props.IsStorageSecondaryKeyInUse.getD false
        let retentionDays := props.RetentionDays.getD 0
        some [.object [("storage_endpoint", .str storageEndpoint),
                       ("storage_account_access_key_is_secondary", .bool secondKeyInUse),
                       ("retention_in_days", .int32 retentionDays)]]

/-- Source: `ExpandAzureRmSqlDBBlobAuditingPolicies`; `none` is the panic of a
failed type assertion. -/
def ExpandAzureRmSqlDBBlobAuditingPolicies (input : List GoValue) :
    Option ExtendedDatabaseBlobAuditingPolicyProperties :=
  match input with
  | [] => some { State := BlobAuditingPolicyStateDisabled }
  | .scalar _ :: _ => none
  | .object dbBlobAuditingPolicies :: _ =>
    match dbBlobAuditingPolicies.lookup "storage_account_access_key",
        dbBlobAuditingPolicies.lookup "storage_endpoint" with
    | some (.str accessKey), some (.str endpoint) =>
      let p0 : ExtendedDatabaseBlobAuditingPolicyProperties :=
        { State := BlobAuditingPolicyStateEnabled, StorageAccountAccessKey := some accessKey,
          StorageEndpoint := some endpoint }
      let p1 : Option ExtendedDatabaseBlobAuditingPolicyProperties :=
        match dbBlobAuditingPolicies.lookup "storage_account_access_key_is_secondary" with
        | some (.bool v) => some { p0 with IsStorageSecondaryKeyInUse := some v }
        | some _ => none
        | none => some p0
      match p1 with
      | none => none
      | some p =>
        match dbBlobAuditingPolicies.lookup "retention_in_days" with
        | some (.int v) => some { p with RetentionDays := some (toInt32 v) }
        | some _ => none
        | none => some p
    | _, _ => none

/-- Source: `FlattenAzureRmSqlDBBlobAuditingPolicies`, without its unused
parameter `d`; `none` is the panic of reading `State` through a `nil` properties
pointer. -/
def FlattenAzureRmSqlDBBlobAuditingPolicies
    (extendedDatabaseBlobAuditingPolicy : Option ExtendedDatabaseBlobAuditingPolicy) :
    Option (List GoValue) :=
  match extendedDatabaseBlobAuditingPolicy with
  | none => some []
  | some policy =>
    match policy.ExtendedDatabaseBlobAuditingPolicyProperties with
    | none => none
    | some props =>
      if props.State = BlobAuditingPolicyStateDisabled then some []
      else
        let storageEndpoint := props.StorageEndpoint.getD ""
        let secondKeyInUse := props.IsStorageSecondaryKeyInUse.getD false
        let retentionDays := props.RetentionDays.getD 0
        some [.object [("storage_endpoint", .str storageEndpoint),
                       ("storage_account_access_key_is_secondary", .bool secondKeyInUse),
                       ("retention_in_days", .int32 retentionDays)]]

/-- A configured auditing block with exactly the keys of the element schema. -/
def sampleAuditingBlock : GoObject :=
  [("storage_endpoint", .str "https://acct.blob.core.windows.net/"),
   ("storage_account_access_key_is_secondary", .bool false),
   ("retention_in_days", .int 30)]

/-! ### Timeouts -/

/-- The type `schema.ResourceTimeout` as a handler sees it through `d.Timeout`:
the duration, in seconds, in force for each kind of operation. -/
structure ResourceTimeout where
  Create : Nat
  Read : Nat
  Update : Nat
  Delete : Nat
  deriving DecidableEq, Repr

/-- Go `time.Second`, the unit of the durations here. -/
def Second : Nat := 1

/-- Go `time.Minute`. -/
def Minute : Nat := 60 * Second

/-- Source: the `Timeouts` that `resourceArmNetworkWatcherFlowLog` declares. -/
def networkWatcherFlowLogTimeouts : ResourceTimeout :=
  { Create := 30 * Minute, Read := 5 * Minute, Update := 30 * Minute, Delete := 30 * Minute }

/-- Source: the `Timeouts` that `resourceArmKeyVaultSecret` declares. -/
def keyVaultSecretTimeouts : ResourceTimeout :=
  { Create := 30 * Minute, Read := 5 * Minute, Update := 30 * Minute, Delete := 30 * Minute }

/-- Source: the `Timeouts` that `resourceArmMySQLConfigurationSet` declares. -/
def mySQLConfigurationSetTimeouts : ResourceTimeout :=
  { Create := 30 * Minute, Read := 5 * Minute, Update := 30 * Minute, Delete := 30 * Minute }

/-- Source: the `Timeouts` that `resourceArmPostgreSQLConfigurationSet`
declares. -/
def postgreSQLConfigurationSetTimeouts : ResourceTimeout :=
  { Create := 30 * Minute, Read := 5 * Minute, Update := 30 * Minute, Delete := 30 * Minute }

/-- Source: the `Timeouts` that `resourceArmSecurityCenterSubscriptionPricing`
declares. -/
def securityCenterSubscriptionPricingTimeouts : ResourceTimeout :=
  { Create := 60 * Minute, Read := 5 * Minute, Update := 60 * Minute, Delete := 60 * Minute }

/-- Source: the `Timeouts` that
`resourceArmMsSqlDatabaseTransparentDataEncryption` declares. -/
def transparentDataEncryptionTimeouts : ResourceTimeout :=
  { Create := 30 * Minute, Read := 5 * Minute, Update := 30 * Minute, Delete := 30 * Minute }

/-- Modelled from the spec: `timeouts.ForCreate` of package
`azurerm/internal/timeouts`, which is not under `src/`; the context it returns
expires after the create timeout in force for the resource. -/
def timeouts.ForCreate (t : ResourceTimeout) : Nat := t.Create

/-- Modelled from the spec: `timeouts.ForRead`; the context expires after the
read timeout. -/
def timeouts.ForRead (t : ResourceTimeout) : Nat := t.Read

/-- Modelled from the spec: `timeouts.ForUpdate`; the context expires after the
update timeout. -/
def timeouts.ForUpdate (t : ResourceTimeout) : Nat := t.Update

/-- Modelled from the spec: `timeouts.ForDelete`; the context expires after the
delete timeout. -/
def timeouts.ForDelete (t : ResourceTimeout) : Nat := t.Delete

/-- The handlers that open a context for their remote calls. -/
inductive Handler where
  | resourceArmKeyVaultSecretCreate
  | resourceArmKeyVaultSecretUpdate
  | resourceArmKeyVaultSecretRead
  | resourceArmKeyVaultSecretDelete
  | resourceArmSecurityCenterSubscriptionPricingUpdate
  | resourceArmSecurityCenterSubscriptionPricingRead
  | resourceArmNetworkWatcherFlowLogCreateUpdate
  | resourceArmNetworkWatcherFlowLogRead
  | resourceArmNetworkWatcherFlowLogDelete
  | resourceArmMySQLConfigurationSetRead
  | resourceArmPostgreSQLConfigurationSetRead
  | resourceMsSqlDatabaseTransparentDataEncryptionRead
  deriving DecidableEq, Repr

/-- Source: the statement `ctx, cancel := ...` of each handler.  The value is
the duration, in seconds, after which the context of the handler expires, with
`t` the timeouts in force for its resource. -/
def Handler.deadline (t : ResourceTimeout) : Handler → Nat
  | .resourceArmKeyVaultSecretCreate => timeouts.ForCreate t
  | .resourceArmKeyVaultSecretUpdate => timeouts.ForUpdate t
  | .resourceArmKeyVaultSecretRead => timeouts.ForRead t
  | .resourceArmKeyVaultSecretDelete => timeouts.ForDelete t
  | .resourceArmSecurityCenterSubscriptionPricingUpdate => timeouts.ForUpdate t
  | .resourceArmSecurityCenterSubscriptionPricingRead => timeouts.ForRead t
  | .resourceArmNetworkWatcherFlowLogCreateUpdate => timeouts.ForRead t
  | .resourceArmNetworkWatcherFlowLogRead => timeouts.ForRead t
  | .resourceArmNetworkWatcherFlowLogDelete => timeouts.ForDelete t
  | .resourceArmMySQLConfigurationSetRead => timeouts.ForRead t
  | .resourceArmPostgreSQLConfigurationSetRead => 30 * Second
  | .resourceMsSqlDatabaseTransparentDataEncryptionRead => timeouts.ForRead t

/-! ## Theorems -/

/-- C1: for every key, every non-empty observed value `old` and every declared
value `new`, both retention-policy drift predicates return `true` when the flow
log's `enabled` toggle is off; and they return `false` when the toggle is on,
whatever `old` and `new` are. -/
theorem suppress_retention_policy_by_toggle (k old new : String) (d : FlowLogResourceData) :
    (old ≠ "" → d.enabled = false →
        azureRMSuppressFlowLogRetentionPolicyDaysDiff k old new d = true ∧
        azureRMSuppressFlowLogRetentionPolicyEnabledDiff k old new d = true) ∧
    (d.enabled = true →
        azureRMSuppressFlowLogRetentionPolicyDaysDiff k old new d = false ∧
        azureRMSuppressFlowLogRetentionPolicyEnabledDiff k old new d = false) := by
  refine ⟨fun hold hoff => ?_, fun hon => ?_⟩
  · simp [azureRMSuppressFlowLogRetentionPolicyDaysDiff,
      azureRMSuppressFlowLogRetentionPolicyEnabledDiff, hold, hoff]
  · simp [azureRMSuppressFlowLogRetentionPolicyDaysDiff,
      azureRMSuppressFlowLogRetentionPolicyEnabledDiff, hon]

/-- C1 at the spec's scenario: observed `"0"`, declared `"30"`; suppressed with the
toggle off, not suppressed with the toggle on. -/
theorem suppress_retention_policy_by_toggle_witness :
    ("0" ≠ "" ∧ (sampleFlowLog false).enabled = false ∧
      azureRMSuppressFlowLogRetentionPolicyDaysDiff "retention_policy.0.days" "0" "30"
        (sampleFlowLog false) = true ∧
      azureRMSuppressFlowLogRetentionPolicyEnabledDiff "retention_policy.0.days" "0" "30"
        (sampleFlowLog false) = true) ∧
    ((sampleFlowLog true).enabled = true ∧
      azureRMSuppressFlowLogRetentionPolicyDaysDiff "retention_policy.0.days" "0" "30"
        (sampleFlowLog true) = false ∧
      azureRMSuppressFlowLogRetentionPolicyEnabledDiff "retention_policy.0.days" "0" "30"
        (sampleFlowLog true) = false) :=
  ⟨⟨by decide, rfl,
      (suppress_retention_policy_by_toggle "retention_policy.0.days" "0" "30"
        (sampleFlowLog false)).1 (by decide) rfl⟩,
    ⟨rfl, (suppress_retention_policy_by_toggle "retention_policy.0.days" "0" "30"
        (sampleFlowLog true)).2 rfl⟩⟩

/-- C2 fails as stated: with an observed value `"0"`, an empty declared value and
the toggle off, the days predicate suppresses although `new` is empty. -/
theorem suppress_with_empty_declared_value :
    ¬ (∀ (k old new : String) (d : FlowLogResourceData),
        azureRMSuppressFlowLogRetentionPolicyDaysDiff k old new d = true →
          new ≠ "" ∧ d.enabled = false) := by
  intro h
  exact (h "retention_policy.0.days" "0" "" (sampleFlowLog false) (by decide)).1 rfl

/-- C2 (amended): whenever either retention-policy drift predicate returns `true`,
the observed value `old` is non-empty and the `enabled` toggle is off. -/
theorem suppress_only_when_observed_and_toggle_off
    (k old new : String) (d : FlowLogResourceData)
    (h : azureRMSuppressFlowLogRetentionPolicyDaysDiff k old new d = true ∨
         azureRMSuppressFlowLogRetentionPolicyEnabledDiff k old new d = true) :
    old ≠ "" ∧ d.enabled = false := by
  rcases h with h | h <;>
    simpa [azureRMSuppressFlowLogRetentionPolicyDaysDiff,
      azureRMSuppressFlowLogRetentionPolicyEnabledDiff] using h

/-- C2 (amended) applied to the empty-declared-value input. -/
theorem suppress_only_when_observed_and_toggle_off_witness :
    "0" ≠ "" ∧ (sampleFlowLog false).enabled = false :=
  suppress_only_when_observed_and_toggle_off "retention_policy.0.days" "0" ""
    (sampleFlowLog false) (Or.inl (by decide))

/-! ### Splitting an ARM path -/

theorem splitSlash_of_not_mem (a : List Char) (h : '/' ∉ a) : splitSlash a = [a] := by
  induction a with
  | nil => rfl
  | cons c cs ih =>
    have hc : c ≠ '/' := fun e => h (by simp [e])
    have hcs : '/' ∉ cs := fun e => h (by simp [e])
    simp [splitSlash, hc, ih hcs]

theorem splitSlash_append_slash (a rest : List Char) (h : '/' ∉ a) :
    splitSlash (a ++ '/' :: rest) = a :: splitSlash rest := by
  induction a with
  | nil => simp [splitSlash]
  | cons c cs ih =>
    have hc : c ≠ '/' := fun e => h (by simp [e])
    have hcs : '/' ∉ cs := fun e => h (by simp [e])
    simp [splitSlash, hc, ih hcs]

theorem trimSuffixSlash_append (xs a : List Char) (hne : a ≠ []) (h : '/' ∉ a) :
    trimSuffixSlash (xs ++ a) = xs ++ a := by
  unfold trimSuffixSlash
  have hlast : (xs ++ a).getLast? ≠ some '/' := by
    rw [List.getLast?_append_of_ne_nil _ hne]
    intro e
    exact h (List.mem_of_getLast?_eq_some e)
  rw [if_neg hlast]

theorem validSegment_data {s : String} (h : validSegment s) : s.data ≠ [] ∧ '/' ∉ s.data := by
  refine ⟨fun e => h.1 ?_, h.2⟩
  cases s
  simp_all

theorem splitSlash_joinSlash (segs : List (List Char)) (hne : segs ≠ [])
    (h : ∀ seg ∈ segs, '/' ∉ seg) : splitSlash (joinSlash segs) = segs := by
  induction segs with
  | nil => exact absurd rfl hne
  | cons a rest ih =>
    cases rest with
    | nil => simpa [joinSlash] using splitSlash_of_not_mem a (h a (by simp))
    | cons b rest =>
      have hrest := ih (by simp) (fun seg hseg => h seg (List.mem_cons_of_mem _ hseg))
      simp only [joinSlash] at hrest ⊢
      rw [splitSlash_append_slash _ _ (h a (by simp)), hrest]

theorem trimSuffixSlash_joinSlash (segs : List (List Char)) (last : List Char)
    (hne : last ≠ []) (h : '/' ∉ last) :
    trimSuffixSlash (joinSlash (segs ++ [last])) = joinSlash (segs ++ [last]) := by
  have key : ∃ xs, joinSlash (segs ++ [last]) = xs ++ last := by
    induction segs with
    | nil => exact ⟨[], by simp [joinSlash]⟩
    | cons a rest ih =>
      obtain ⟨xs, hxs⟩ := ih
      cases rest with
      | nil => exact ⟨a ++ ['/'], by simp [joinSlash]⟩
      | cons b rest =>
        refine ⟨a ++ '/' :: xs, ?_⟩
        have e : joinSlash (a :: b :: rest ++ [last]) =
            a ++ '/' :: joinSlash (b :: rest ++ [last]) := rfl
        rw [e, hxs]
        simp
  obtain ⟨xs, hxs⟩ := key
  rw [hxs]
  exact trimSuffixSlash_append xs last hne h

/-- The segments of the string form of a transparent-data-encryption ID. -/
theorem pathSegments_TransparentDataEncryptionId_ID (sub rg server db name : String)
    (hsub : validSegment sub) (hrg : validSegment rg) (hserver : validSegment server)
    (hdb : validSegment db) (hname : validSegment name) :
    pathSegments (NewTransparentDataEncryptiontID sub rg server db name).ID =
      ["subscriptions", sub, "resourceGroups", rg, "providers", "Microsoft.Sql",
       "servers", server, "databases", db, "transparentDataEncryption", name] := by
  have e : (NewTransparentDataEncryptiontID sub rg server db name).ID.data =
      '/' :: joinSlash (["subscriptions".data, sub.data, "resourceGroups".data, rg.data,
        "providers".data, "Microsoft.Sql".data, "servers".data, server.data,
        "databases".data, db.data, "transparentDataEncryption".data] ++ [name.data]) := by
    simp [TransparentDataEncryptionId.ID, NewTransparentDataEncryptiontID, String.data_append,
      joinSlash]
  obtain ⟨_, hsub⟩ := validSegment_data hsub
  obtain ⟨_, hrg⟩ := validSegment_data hrg
  obtain ⟨_, hserver⟩ := validSegment_data hserver
  obtain ⟨_, hdb⟩ := validSegment_data hdb
  obtain ⟨hne, hname⟩ := validSegment_data hname
  unfold pathSegments
  rw [e]
  simp only [trimPrefixSlash]
  rw [trimSuffixSlash_joinSlash _ _ hne hname, splitSlash_joinSlash _ (by simp)]
  · rfl
  · intro seg hseg
    simp only [List.cons_append, List.nil_append, List.mem_cons, List.mem_singleton,
      List.not_mem_nil, or_false] at hseg
    rcases hseg with h | h | h | h | h | h | h | h | h | h | h | h <;> subst h <;>
      first | assumption | decide

/-! ### Maps and the generic parser -/

theorem GoMap.get_delete (m : GoMap) (k k' : String) :
    GoMap.get (GoMap.delete m k) k' = if k = k' then none else GoMap.get m k' := by
  induction m with
  | nil => simp [GoMap.delete, GoMap.get]
  | cons kv rest ih =>
    obtain ⟨a, b⟩ := kv
    simp only [GoMap.delete, ne_eq, decide_not] at ih ⊢
    by_cases hak : a = k
    · subst hak
      by_cases hk : a = k'
      · subst hk
        simpa [List.filter_cons, GoMap.get] using ih
      · simpa [List.filter_cons, GoMap.get, hk] using ih
    · by_cases hk : k = k'
      · subst hk
        simpa [List.filter_cons, GoMap.get, hak] using ih
      · by_cases hak' : a = k'
        · subst hak'
          simp [List.filter_cons, GoMap.get, hak, hk]
        · simpa [List.filter_cons, GoMap.get, hak, hk, hak'] using ih

theorem extractSegment_fst (m : GoMap) (name : String) :
    (extractSegment m name).1 = (m.get name).getD "" := by
  unfold extractSegment
  cases m.get name <;> rfl

theorem extractSegment_get (m : GoMap) (name k : String) :
    (extractSegment m name).2.get k = if name = k then none else m.get k := by
  unfold extractSegment
  cases h : m.get name with
  | none =>
    by_cases hk : name = k
    · subst hk
      simp [h]
    · simp [hk]
  | some v => simp [GoMap.get_delete]

theorem GoMap.get_set (m : GoMap) (k v k' : String) :
    GoMap.get (GoMap.set m k v) k' = if k = k' then some v else GoMap.get m k' := by
  by_cases hk : k = k'
  · simp [GoMap.set, GoMap.get, hk]
  · simp [GoMap.set, GoMap.get, hk, GoMap.get_delete]

theorem pairSegments_keys (segs : List String) (ps : List (String × String))
    (h : pairSegments segs = some ps) : ps.map Prod.fst = collectionNames segs := by
  induction segs using pairSegments.induct generalizing ps with
  | case1 => simp [pairSegments] at h; simp [h, collectionNames]
  | case2 => simp [pairSegments] at h
  | case3 k v rest ih =>
    simp only [pairSegments, Option.map_eq_some'] at h
    obtain ⟨ps', hps', rfl⟩ := h
    simp [collectionNames, ih ps' hps']

/-- What a successful run of the generic parser's loop preserves and establishes. -/
theorem parsePairs_ok (ps : List (String × String)) (acc acc' : ParseAcc)
    (h : parsePairs acc ps = .ok acc') :
    (∀ k, k ∉ ps.map Prod.fst → acc'.componentMap.get k = acc.componentMap.get k) ∧
    ("subscriptions" ∉ ps.map Prod.fst → acc'.subscriptionID = acc.subscriptionID) ∧
    (acc.subscriptionID ≠ "" → acc'.subscriptionID ≠ "") ∧
    ("subscriptions" ∈ ps.map Prod.fst → acc'.subscriptionID ≠ "") ∧
    ((∀ k v, acc.componentMap.get k = some v → v ≠ "") →
      ∀ k v, acc'.componentMap.get k = some v → v ≠ "") := by
  induction ps generalizing acc with
  | nil =>
    simp only [parsePairs, Except.ok.injEq] at h
    subst h
    simp
  | cons kv rest ih =>
    obtain ⟨a, b⟩ := kv
    simp only [parsePairs] at h
    cases hstep : parseStep acc (a, b) with
    | error e => simp [hstep] at h
    | ok acc1 =>
      rw [hstep] at h
      obtain ⟨h1, h2, h3, h4, h5⟩ := ih acc1 h
      unfold parseStep at hstep
      split at hstep
      · cases hstep
      · rename_i hne
        have hb : b ≠ "" := fun e => hne (Or.inr e)
        split at hstep
        · rename_i hs
          simp only [Except.ok.injEq] at hstep
          subst hstep
          refine ⟨fun k hk => ?_, fun hk => ?_, fun _ => h3 hb, fun _ => h3 hb, fun hv => h5 hv⟩
          · exact h1 k (fun hmem => hk (List.mem_cons_of_mem _ hmem))
          · exact absurd (List.mem_cons.mpr (Or.inl hs.1.symm)) hk
        · rename_i hs
          simp only [Except.ok.injEq] at hstep
          subst hstep
          refine ⟨fun k hk => ?_, fun hk => ?_, fun hsub => h3 hsub, fun hk => ?_, fun hv => ?_⟩
          · have hka : a ≠ k := fun e => hk (by simp [e])
            rw [h1 k (fun hmem => hk (List.mem_cons_of_mem _ hmem))]
            simp [GoMap.get_set, hka]
          · exact h2 (fun hmem => hk (List.mem_cons_of_mem _ hmem))
          · simp only [List.map_cons, List.mem_cons] at hk
            rcases hk with hk | hk
            · have hsub : acc.subscriptionID ≠ "" := fun e => hs ⟨hk.symm, e⟩
              exact h3 hsub
            · exact h4 hk
          · refine h5 (fun k v hkv => ?_)
            simp only [GoMap.get_set] at hkv
            split at hkv
            · simp only [Option.some.injEq] at hkv
              exact hkv ▸ hb
            · exact hv k v hkv

/-- A successful generic parse, read off the segments of the raw ID. -/
theorem ParseAzureResourceID_ok (input : String) (id : ResourceID)
    (h : ParseAzureResourceID input = .ok id) :
    (hasSegment input "subscriptions" ↔ id.SubscriptionID ≠ "") ∧
    (¬ hasSegment input "resourceGroups" → id.ResourceGroup = "") ∧
    (∀ k, ¬ hasSegment input k → id.Path.get k = none) ∧
    (∀ k v, id.Path.get k = some v → v ≠ "") := by
  unfold ParseAzureResourceID at h
  cases hp : pairSegments (pathSegments input) with
  | none => simp [hp] at h
  | some ps =>
    rw [hp] at h
    simp only at h
    cases hacc : parsePairs { subscriptionID := "", componentMap := [] } ps with
    | error e => simp [hacc] at h
    | ok acc =>
      rw [hacc] at h
      have hkeys := pairSegments_keys _ _ hp
      obtain ⟨h1, h2, _, h4, h5⟩ := parsePairs_ok ps _ acc hacc
      rw [hkeys] at h1 h2 h4
      have h5 := h5 (by simp [GoMap.get])
      simp only [GoMap.get] at h1
      simp only [Except.ok.injEq] at h
      subst h
      refine ⟨⟨h4, fun hne => ?_⟩, fun hrg => ?_, fun k hk => ?_, fun k v hkv => ?_⟩
      · by_contra hno
        exact hne (h2 hno)
      · simp [extractSegment_fst, h1 _ hrg]
      · simp only [extractSegment_get, h1 k hk]
        split <;> [rfl; (split <;> rfl)]
      · simp only [extractSegment_get] at hkv
        split at hkv
        · cases hkv
        · split at hkv
          · cases hkv
          · exact h5 k v hkv

/-- The generic parse of the string form of a transparent-data-encryption ID. -/
theorem ParseAzureResourceID_TransparentDataEncryptionId_ID (sub rg server db name : String)
    (hsub : validSegment sub) (hrg : validSegment rg) (hserver : validSegment server)
    (hdb : validSegment db) (hname : validSegment name) :
    ParseAzureResourceID (NewTransparentDataEncryptiontID sub rg server db name).ID =
      .ok { SubscriptionID := sub, ResourceGroup := rg, Provider := "Microsoft.Sql",
            Path := [("transparentDataEncryption", name), ("databases", db),
                     ("servers", server)] } := by
  unfold ParseAzureResourceID
  rw [pathSegments_TransparentDataEncryptionId_ID sub rg server db name hsub hrg hserver hdb
    hname]
  simp [pairSegments, parsePairs, parseStep, extractSegment, GoMap.set, GoMap.delete,
    GoMap.get, hsub.1, hrg.1, hserver.1, hdb.1, hname.1]

/-- C3: for non-empty, slash-free subscription, resource group, server, database
and name, parsing the string form of the identifier built by
`NewTransparentDataEncryptiontID` succeeds and returns the built identifier. -/
theorem parseTransparentDataEncryptionID_roundtrip (sub rg server db name : String)
    (hsub : validSegment sub) (hrg : validSegment rg) (hserver : validSegment server)
    (hdb : validSegment db) (hname : validSegment name) :
    parseTransparentDataEncryptionID (NewTransparentDataEncryptiontID sub rg server db name).ID =
      .ok (NewTransparentDataEncryptiontID sub rg server db name) := by
  unfold parseTransparentDataEncryptionID
  rw [ParseAzureResourceID_TransparentDataEncryptionId_ID sub rg server db name hsub hrg
    hserver hdb hname]
  simp [ResourceID.PopSegment, ResourceID.ValidateNoEmptySegments, GoMap.get, GoMap.delete,
    GoMap.len, NewTransparentDataEncryptiontID, hsub.1, hrg.1]

/-- C3 at a concrete identifier. -/
theorem parseTransparentDataEncryptionID_roundtrip_witness :
    (validSegment "00000000-0000-0000-0000-000000000000" ∧ validSegment "rg1" ∧
      validSegment "sqlserver1" ∧ validSegment "db1" ∧ validSegment "current") ∧
    parseTransparentDataEncryptionID
        (NewTransparentDataEncryptiontID "00000000-0000-0000-0000-000000000000" "rg1"
          "sqlserver1" "db1" "current").ID =
      .ok (NewTransparentDataEncryptiontID "00000000-0000-0000-0000-000000000000" "rg1"
          "sqlserver1" "db1" "current") :=
  ⟨by decide,
   parseTransparentDataEncryptionID_roundtrip "00000000-0000-0000-0000-000000000000" "rg1"
     "sqlserver1" "db1" "current" (by decide) (by decide) (by decide) (by decide) (by decide)⟩

/-- What a successful `parseTransparentDataEncryptionID` tells about the generic
parse of the same input. -/
theorem parseTransparentDataEncryptionID_ok (input : String) (r : TransparentDataEncryptionId)
    (h : parseTransparentDataEncryptionID input = .ok r) :
    ∃ id, ParseAzureResourceID input = .ok id ∧
      id.SubscriptionID = r.SubscriptionId ∧ id.SubscriptionID ≠ "" ∧
      id.ResourceGroup = r.ResourceGroup ∧ id.ResourceGroup ≠ "" ∧
      id.Path.get "servers" = some r.ServerName ∧
      id.Path.get "databases" = some r.DatabaseName ∧
      id.Path.get "transparentDataEncryption" = some r.Name := by
  unfold parseTransparentDataEncryptionID at h
  cases hid : ParseAzureResourceID input with
  | error e => simp [hid] at h
  | ok id =>
    rw [hid] at h
    simp only at h
    split at h
    · cases h
    · rename_i hsub
      split at h
      · cases h
      · rename_i hrg
        cases hs : id.Path.get "servers" with
        | none => simp [ResourceID.PopSegment, hs] at h
        | some server =>
          cases hd : id.Path.get "databases" with
          | none => simp [ResourceID.PopSegment, GoMap.get_delete, hs, hd] at h
          | some db =>
            cases ht : id.Path.get "transparentDataEncryption" with
            | none => simp [ResourceID.PopSegment, GoMap.get_delete, hs, hd, ht] at h
            | some name =>
              simp [ResourceID.PopSegment, GoMap.get_delete, hs, hd, ht] at h
              split at h
              · cases h
              · simp only [Except.ok.injEq] at h
                subst h
                exact ⟨id, rfl, rfl, hsub, rfl, hrg, hs, hd, ht⟩

/-- C4: `parseTransparentDataEncryptionID` returns an error for every input in
which one of the segments `subscriptions`, `resourceGroups`, `servers`,
`databases`, `transparentDataEncryption` is absent; and when the generic parse
of the input succeeds, a missing subscription gives the error
`ID was missing the 'subscriptions' element` and a missing resource group (the
subscription being present) gives `ID was missing the 'resourceGroups' element`. -/
theorem parseTransparentDataEncryptionID_missing_segment (input : String) :
    (∀ key ∈ transparentDataEncryptionSegments, ¬ hasSegment input key →
      ∃ err, parseTransparentDataEncryptionID input = .error err) ∧
    (∀ id, ParseAzureResourceID input = .ok id →
      (¬ hasSegment input "subscriptions" →
        parseTransparentDataEncryptionID input =
          .error (.errorf "ID was missing the 'subscriptions' element" [])) ∧
      (hasSegment input "subscriptions" → ¬ hasSegment input "resourceGroups" →
        parseTransparentDataEncryptionID input =
          .error (.errorf "ID was missing the 'resourceGroups' element" []))) := by
  constructor
  · intro key hkey habsent
    cases hres : parseTransparentDataEncryptionID input with
    | error e => exact ⟨e, rfl⟩
    | ok r =>
      exfalso
      obtain ⟨id, hid, _, hsub, _, hrg, hs, hd, ht⟩ :=
        parseTransparentDataEncryptionID_ok input r hres
      obtain ⟨p1, p2, p3, _⟩ := ParseAzureResourceID_ok input id hid
      simp only [transparentDataEncryptionSegments, List.mem_cons, List.mem_singleton,
        List.not_mem_nil, or_false] at hkey
      rcases hkey with rfl | rfl | rfl | rfl | rfl
      · exact hsub (by_contra fun hne => habsent (p1.mpr hne))
      · exact hrg (p2 habsent)
      · rw [p3 _ habsent] at hs
        cases hs
      · rw [p3 _ habsent] at hd
        cases hd
      · rw [p3 _ habsent] at ht
        cases ht
  · intro id hid
    obtain ⟨p1, p2, _, _⟩ := ParseAzureResourceID_ok input id hid
    constructor
    · intro hno
      have hsub : id.SubscriptionID = "" := by_contra fun hne => hno (p1.mpr hne)
      simp [parseTransparentDataEncryptionID, hid, hsub]
    · intro hyes hno
      simp [parseTransparentDataEncryptionID, hid, p1.mp hyes, p2 hno]

/-- C4 on five IDs, each lacking one required segment. -/
theorem parseTransparentDataEncryptionID_missing_segment_witness :
    (parseTransparentDataEncryptionID
        "/resourceGroups/rg1/providers/Microsoft.Sql/servers/s1/databases/db1/transparentDataEncryption/current" =
      .error (.errorf "ID was missing the 'subscriptions' element" [])) ∧
    (parseTransparentDataEncryptionID
        "/subscriptions/sub1/providers/Microsoft.Sql/servers/s1/databases/db1/transparentDataEncryption/current" =
      .error (.errorf "ID was missing the 'resourceGroups' element" [])) ∧
    (∃ err, parseTransparentDataEncryptionID
        "/subscriptions/sub1/resourceGroups/rg1/providers/Microsoft.Sql/databases/db1/transparentDataEncryption/current" =
      .error err) ∧
    (∃ err, parseTransparentDataEncryptionID
        "/subscriptions/sub1/resourceGroups/rg1/providers/Microsoft.Sql/servers/s1/transparentDataEncryption/current" =
      .error err) ∧
    (∃ err, parseTransparentDataEncryptionID
        "/subscriptions/sub1/resourceGroups/rg1/providers/Microsoft.Sql/servers/s1/databases/db1" =
      .error err) :=
  ⟨((parseTransparentDataEncryptionID_missing_segment _).2
      { SubscriptionID := "", ResourceGroup := "rg1", Provider := "Microsoft.Sql",
        Path := [("transparentDataEncryption", "current"), ("databases", "db1"),
                 ("servers", "s1")] } (by decide)).1 (by decide),
   ((parseTransparentDataEncryptionID_missing_segment _).2
      { SubscriptionID := "sub1", ResourceGroup := "", Provider := "Microsoft.Sql",
        Path := [("transparentDataEncryption", "current"), ("databases", "db1"),
                 ("servers", "s1")] } (by decide)).2 (by decide) (by decide),
   (parseTransparentDataEncryptionID_missing_segment _).1 "servers" (by decide) (by decide),
   (parseTransparentDataEncryptionID_missing_segment _).1 "databases" (by decide) (by decide),
   (parseTransparentDataEncryptionID_missing_segment _).1 "transparentDataEncryption"
     (by decide) (by decide)⟩

/-- C5: whenever `parseTransparentDataEncryptionID` returns an identifier, each
of its fields `SubscriptionId`, `ResourceGroup`, `ServerName`, `DatabaseName`
and `Name` is different from the empty string. -/
theorem parseTransparentDataEncryptionID_fields_nonempty (input : String)
    (r : TransparentDataEncryptionId) (h : parseTransparentDataEncryptionID input = .ok r) :
    r.SubscriptionId ≠ "" ∧ r.ResourceGroup ≠ "" ∧ r.ServerName ≠ "" ∧
      r.DatabaseName ≠ "" ∧ r.Name ≠ "" := by
  obtain ⟨id, hid, e1, hsub, e2, hrg, hs, hd, ht⟩ :=
    parseTransparentDataEncryptionID_ok input r h
  obtain ⟨_, _, _, p4⟩ := ParseAzureResourceID_ok input id hid
  exact ⟨e1 ▸ hsub, e2 ▸ hrg, p4 _ _ hs, p4 _ _ hd, p4 _ _ ht⟩

/-- C5 on a concrete ID that parses. -/
theorem parseTransparentDataEncryptionID_fields_nonempty_witness :
    "sub1" ≠ "" ∧ "rg1" ≠ "" ∧ "s1" ≠ "" ∧ "db1" ≠ "" ∧ "current" ≠ "" :=
  parseTransparentDataEncryptionID_fields_nonempty
    "/subscriptions/sub1/resourceGroups/rg1/providers/Microsoft.Sql/servers/s1/databases/db1/transparentDataEncryption/current"
    { SubscriptionId := "sub1", ResourceGroup := "rg1", ServerName := "s1",
      DatabaseName := "db1", Name := "current" } (by decide)

/-- C6: when the generic parser accepts the input, `ParseNetworkWatcherFlowLogID`
returns an error if the `networkWatchers` segment or the `flowLogs` segment is
absent, and otherwise returns the identifier made of the generic parse result
and the values of those two segments. -/
theorem ParseNetworkWatcherFlowLogID_of_parsed (id : String) (r : ResourceID)
    (h : ParseAzureResourceID id = .ok r) :
    (r.Path.get "networkWatchers" = none →
      ParseNetworkWatcherFlowLogID id =
        .error (.errorf "Error: Watcher name not found in Flow Log ID: %s" [id])) ∧
    (r.Path.get "networkWatchers" ≠ none → r.Path.get "flowLogs" = none →
      ParseNetworkWatcherFlowLogID id =
        .error (.errorf "Error: Flow Log name not found in Flow Log ID: %s" [id])) ∧
    (¬ hasSegment id "networkWatchers" ∨ ¬ hasSegment id "flowLogs" →
      ∃ err, ParseNetworkWatcherFlowLogID id = .error err) ∧
    (∀ watcher flowLog, r.Path.get "networkWatchers" = some watcher →
      r.Path.get "flowLogs" = some flowLog →
      ParseNetworkWatcherFlowLogID id =
        .ok { toResourceID := r, NetworkWatcherName := watcher, FlowLogName := flowLog }) := by
  obtain ⟨_, _, p3, _⟩ := ParseAzureResourceID_ok id r h
  have hwatcher : r.Path.get "networkWatchers" = none →
      ParseNetworkWatcherFlowLogID id =
        .error (.errorf "Error: Watcher name not found in Flow Log ID: %s" [id]) := by
    intro hw
    simp [ParseNetworkWatcherFlowLogID, h, hw]
  have hflow : r.Path.get "networkWatchers" ≠ none → r.Path.get "flowLogs" = none →
      ParseNetworkWatcherFlowLogID id =
        .error (.errorf "Error: Flow Log name not found in Flow Log ID: %s" [id]) := by
    intro hw hf
    cases hw' : r.Path.get "networkWatchers" with
    | none => exact absurd hw' hw
    | some w => simp [ParseNetworkWatcherFlowLogID, h, hw', hf]
  refine ⟨hwatcher, hflow, fun habs => ?_, fun w f hw hf => ?_⟩
  · by_cases hw : r.Path.get "networkWatchers" = none
    · exact ⟨_, hwatcher hw⟩
    · rcases habs with habs | habs
      · exact absurd (p3 _ habs) hw
      · exact ⟨_, hflow hw (p3 _ habs)⟩
  · simp [ParseNetworkWatcherFlowLogID, h, hw, hf]

/-- C6 on a flow-log ID and on the same ID cut before its `flowLogs` segment. -/
theorem ParseNetworkWatcherFlowLogID_of_parsed_witness :
    ParseNetworkWatcherFlowLogID
        "/subscriptions/sub1/resourceGroups/rg1/providers/Microsoft.Network/networkWatchers/w1/flowLogs/f1" =
      .ok { SubscriptionID := "sub1", ResourceGroup := "rg1", Provider := "Microsoft.Network",
            Path := [("flowLogs", "f1"), ("networkWatchers", "w1")],
            NetworkWatcherName := "w1", FlowLogName := "f1" } ∧
    ParseNetworkWatcherFlowLogID
        "/subscriptions/sub1/resourceGroups/rg1/providers/Microsoft.Network/networkWatchers/w1" =
      .error (.errorf "Error: Flow Log name not found in Flow Log ID: %s"
        ["/subscriptions/sub1/resourceGroups/rg1/providers/Microsoft.Network/networkWatchers/w1"]) :=
  ⟨(ParseNetworkWatcherFlowLogID_of_parsed _
      { SubscriptionID := "sub1", ResourceGroup := "rg1", Provider := "Microsoft.Network",
        Path := [("flowLogs", "f1"), ("networkWatchers", "w1")] } (by decide)).2.2.2
      "w1" "f1" (by decide) (by decide),
   (ParseNetworkWatcherFlowLogID_of_parsed _
      { SubscriptionID := "sub1", ResourceGroup := "rg1", Provider := "Microsoft.Network",
        Path := [("networkWatchers", "w1")] } (by decide)).2.1 (by decide) (by decide)⟩

/-! ### The configuration-set aggregate -/

theorem GoMap.delete_of_not_mem (m : GoMap) (k : String) (h : k ∉ m.map Prod.fst) :
    GoMap.delete m k = m := by
  unfold GoMap.delete
  rw [List.filter_eq_self]
  intro kv hkv
  have : kv.1 ≠ k := fun e => h (e ▸ List.mem_map_of_mem Prod.fst hkv)
  simpa using this

theorem GoMap.get_eq_some_iff (m : GoMap) (hm : (m.map Prod.fst).Nodup) (k v : String) :
    GoMap.get m k = some v ↔ (k, v) ∈ m := by
  induction m with
  | nil => simp [GoMap.get]
  | cons kv rest ih =>
    obtain ⟨a, b⟩ := kv
    simp only [List.map_cons, List.nodup_cons] at hm
    by_cases hak : a = k
    · subst hak
      have hno : ∀ v', (a, v') ∉ rest := fun v' hmem =>
        hm.1 (List.mem_map_of_mem Prod.fst hmem)
      simp only [GoMap.get, if_true, Option.some.injEq, List.mem_cons, Prod.mk.injEq,
        true_and]
      constructor
      · intro e
        exact Or.inl e.symm
      · rintro (e | e)
        · exact e.symm
        · exact absurd e (hno v)
    · have hne : ¬ (k = a ∧ v = b) := fun e => hak e.1.symm
      simp [GoMap.get, hak, ih hm.2, hne]

/-- Assigning children with pairwise distinct names, none of them in the map
yet, adds them all. -/
theorem foldl_set_eq (children : List (String × String)) (m : GoMap)
    (hnodup : (children.map Prod.fst).Nodup)
    (hfresh : ∀ kv ∈ children, kv.1 ∉ m.map Prod.fst) :
    children.foldl (fun acc kv => GoMap.set acc kv.1 kv.2) m = children.reverse ++ m := by
  induction children generalizing m with
  | nil => rfl
  | cons kv rest ih =>
    simp only [List.map_cons, List.nodup_cons] at hnodup
    have hkv : kv.1 ∉ m.map Prod.fst := hfresh kv (by simp)
    have hset : GoMap.set m kv.1 kv.2 = (kv.1, kv.2) :: m := by
      rw [GoMap.set, GoMap.delete_of_not_mem m kv.1 hkv]
    rw [List.foldl_cons, hset, ih ((kv.1, kv.2) :: m) hnodup.2]
    · simp
    · intro kv' hkv'
      simp only [List.map_cons, List.mem_cons, not_or]
      refine ⟨fun e => hnodup.1 (e ▸ List.mem_map_of_mem Prod.fst hkv'), ?_⟩
      exact hfresh kv' (List.mem_cons_of_mem _ hkv')

theorem collectConfigurations_ofPair (children : List (String × String)) (m : GoMap) :
    collectConfigurations m (children.map Configuration.ofPair) =
      some (children.foldl (fun acc kv => GoMap.set acc kv.1 kv.2) m) := by
  induction children generalizing m with
  | nil => rfl
  | cons kv rest ih => simp [collectConfigurations, Configuration.ofPair, ih]

/-- The map that the Read loop builds from children with distinct names. -/
theorem collectConfigurations_distinct (children : List (String × String))
    (h : distinctNames children) :
    collectConfigurations [] (children.map Configuration.ofPair) = some children.reverse := by
  rw [collectConfigurations_ofPair, foldl_set_eq children [] h (by simp)]
  simp

theorem get_reverse_iff (children : List (String × String)) (h : distinctNames children)
    (k v : String) : GoMap.get children.reverse k = some v ↔ (k, v) ∈ children := by
  rw [GoMap.get_eq_some_iff _ (by simpa [distinctNames, List.map_reverse] using h)]
  simp

/-- The MySQL Read on a successful listing of children with distinct names. -/
theorem resourceArmMySQLConfigurationSetRead_lists (d : ConfigurationSetResourceData)
    (meta : ConfigurationsClient) (id : ResourceID) (children : List (String × String))
    (hid : ParseAzureResourceID d.Id = .ok id) (hnames : distinctNames children)
    (hlist : ListsChildren meta id children) :
    resourceArmMySQLConfigurationSetRead d meta =
      { d := { d with server_name := (id.Path.get "servers").getD "",
                      resource_group_name := id.ResourceGroup,
                      config_map := children.reverse },
        calls := [.ListByServer id.ResourceGroup ((id.Path.get "servers").getD "")],
        result := .nil } := by
  obtain ⟨response, hresp⟩ := hlist
  simp [resourceArmMySQLConfigurationSetRead, hid, hresp,
    collectConfigurations_distinct children hnames]

/-- The PostgreSQL Read on a successful listing of children with distinct names. -/
theorem resourceArmPostgreSQLConfigurationSetRead_lists (d : ConfigurationSetResourceData)
    (meta : ConfigurationsClient) (id : ResourceID) (children : List (String × String))
    (hid : ParseAzureResourceID d.Id = .ok id) (hnames : distinctNames children)
    (hlist : ListsChildren meta id children) :
    resourceArmPostgreSQLConfigurationSetRead d meta =
      { d := { d with server_name := (id.Path.get "servers").getD "",
                      resource_group_name := id.ResourceGroup,
                      config_map := children.reverse },
        calls := [.ListByServer id.ResourceGroup ((id.Path.get "servers").getD "")],
        result := .nil } := by
  obtain ⟨response, hresp⟩ := hlist
  simp [resourceArmPostgreSQLConfigurationSetRead, hid, hresp,
    collectConfigurations_distinct children hnames]

/-- The conclusions of the aggregate read for one of the two Read handlers:
given the runs on a listing and on a permutation of it. -/
theorem aggregate_of_runs (children children' : List (String × String))
    (hnames : distinctNames children) (hperm : children'.Perm children)
    (cm cm' : GoMap) (hcm : cm = children.reverse) (hcm' : cm' = children'.reverse) :
    (∀ k v, cm.get k = some v ↔ (k, v) ∈ children) ∧ cm.len = children.length ∧
      (∀ k, cm'.get k = cm.get k) := by
  subst hcm hcm'
  have hnames' : distinctNames children' :=
    ((hperm.map Prod.fst).nodup_iff).mpr hnames
  refine ⟨get_reverse_iff children hnames, by simp [GoMap.len], fun k => ?_⟩
  apply Option.ext
  intro v
  simp only [Option.mem_def]
  rw [get_reverse_iff children hnames, get_reverse_iff children' hnames']
  exact hperm.mem_iff

/-- C8: when the listing call succeeds and lists children with pairwise distinct
names, the MySQL and the PostgreSQL configuration-set Read return `nil` and set
`config_map` to the map holding exactly the entries name -> value of the listed
children (as many entries as children); a listing of the same children in
another order gives a map with the same entries. -/
theorem configuration_set_read_aggregate (d : ConfigurationSetResourceData)
    (meta meta' : ConfigurationsClient) (id : ResourceID)
    (children children' : List (String × String))
    (hid : ParseAzureResourceID d.Id = .ok id) (hnames : distinctNames children)
    (hlist : ListsChildren meta id children) (hperm : children'.Perm children)
    (hlist' : ListsChildren meta' id children') :
    ((resourceArmMySQLConfigurationSetRead d meta).result = .nil ∧
      (∀ k v, (resourceArmMySQLConfigurationSetRead d meta).d.config_map.get k = some v ↔
        (k, v) ∈ children) ∧
      (resourceArmMySQLConfigurationSetRead d meta).d.config_map.len = children.length ∧
      (∀ k, (resourceArmMySQLConfigurationSetRead d meta').d.config_map.get k =
        (resourceArmMySQLConfigurationSetRead d meta).d.config_map.get k)) ∧
    ((resourceArmPostgreSQLConfigurationSetRead d meta).result = .nil ∧
      (∀ k v, (resourceArmPostgreSQLConfigurationSetRead d meta).d.config_map.get k = some v ↔
        (k, v) ∈ children) ∧
      (resourceArmPostgreSQLConfigurationSetRead d meta).d.config_map.len = children.length ∧
      (∀ k, (resourceArmPostgreSQLConfigurationSetRead d meta').d.config_map.get k =
        (resourceArmPostgreSQLConfigurationSetRead d meta).d.config_map.get k)) := by
  have hnames' : distinctNames children' :=
    ((hperm.map Prod.fst).nodup_iff).mpr hnames
  constructor
  · rw [resourceArmMySQLConfigurationSetRead_lists d meta id children hid hnames hlist,
      resourceArmMySQLConfigurationSetRead_lists d meta' id children' hid hnames' hlist']
    exact ⟨rfl, aggregate_of_runs children children' hnames hperm _ _ rfl rfl⟩
  · rw [resourceArmPostgreSQLConfigurationSetRead_lists d meta id children hid hnames hlist,
      resourceArmPostgreSQLConfigurationSetRead_lists d meta' id children' hid hnames' hlist']
    exact ⟨rfl, aggregate_of_runs children children' hnames hperm _ _ rfl rfl⟩

/-- C8 on the spec's scenario: children a=1, b=2, c=3, listed in that order and
as c, a, b. -/
theorem configuration_set_read_aggregate_witness :
    (resourceArmMySQLConfigurationSetRead (configurationSetAt sampleServerID)
        (listingClient (listingOf [("a", "1"), ("b", "2"), ("c", "3")]))).result = .nil ∧
    (resourceArmMySQLConfigurationSetRead (configurationSetAt sampleServerID)
        (listingClient (listingOf [("a", "1"), ("b", "2"), ("c", "3")]))).d.config_map.len = 3 ∧
    (resourceArmMySQLConfigurationSetRead (configurationSetAt sampleServerID)
        (listingClient (listingOf [("c", "3"), ("a", "1"), ("b", "2")]))).d.config_map.get "b" =
      (resourceArmMySQLConfigurationSetRead (configurationSetAt sampleServerID)
        (listingClient (listingOf [("a", "1"), ("b", "2"), ("c", "3")]))).d.config_map.get "b" ∧
    (resourceArmPostgreSQLConfigurationSetRead (configurationSetAt sampleServerID)
        (listingClient (listingOf [("a", "1"), ("b", "2"), ("c", "3")]))).d.config_map.get "a" =
      some "1" :=
  have h := configuration_set_read_aggregate (configurationSetAt sampleServerID)
    (listingClient (listingOf [("a", "1"), ("b", "2"), ("c", "3")]))
    (listingClient (listingOf [("c", "3"), ("a", "1"), ("b", "2")]))
    sampleServerResourceID [("a", "1"), ("b", "2"), ("c", "3")]
    [("c", "3"), ("a", "1"), ("b", "2")] (by decide) (by decide) ⟨_, rfl⟩ (by decide)
    ⟨_, rfl⟩
  ⟨h.1.1, h.1.2.2.1, h.1.2.2.2 "b", (h.2.2.1 "a" "1").mpr (by decide)⟩

/-- C9: Create, Update and Delete of the MySQL configuration set, of the
PostgreSQL configuration set and of the MSSQL database transparent data
encryption resource return `nil`, leave the resource state (its ID included)
as it was and issue no call on the remote client. -/
theorem virtual_resource_writes_inert :
    (∀ (d : ConfigurationSetResourceData) (meta : ConfigurationsClient),
      resourceArmMySQLConfigurationSet.Create d meta = { d := d, calls := [], result := .nil } ∧
      resourceArmMySQLConfigurationSet.Update d meta = { d := d, calls := [], result := .nil } ∧
      resourceArmMySQLConfigurationSet.Delete d meta = { d := d, calls := [], result := .nil } ∧
      resourceArmPostgreSQLConfigurationSet.Create d meta =
        { d := d, calls := [], result := .nil } ∧
      resourceArmPostgreSQLConfigurationSet.Update d meta =
        { d := d, calls := [], result := .nil } ∧
      resourceArmPostgreSQLConfigurationSet.Delete d meta =
        { d := d, calls := [], result := .nil }) ∧
    (∀ (d : TransparentDataEncryptionResourceData) (meta : TransparentDataEncryptionsClient),
      resourceMsSqlDatabaseTransparentDataEncryptionCreateUpdate d meta =
        { d := d, calls := [], result := .nil } ∧
      resourceMsSqlDatabaseTransparentDataEncryptionDelete d meta =
        { d := d, calls := [], result := .nil }) :=
  ⟨fun _ _ => ⟨rfl, rfl, rfl, rfl, rfl, rfl⟩, fun _ _ => ⟨rfl, rfl⟩⟩

/-- C10 fails on the code: on a listing that succeeds with no value list, and on
one that lists a child without properties, the MySQL and the PostgreSQL Read end
in a nil-pointer dereference instead of returning `nil`. -/
theorem configuration_set_read_nil_dereference :
    (resourceArmMySQLConfigurationSetRead (configurationSetAt sampleServerID)
        (listingClient { Response := { StatusCode := some 200 }, Value := none })).result =
      .panic ∧
    (resourceArmMySQLConfigurationSetRead (configurationSetAt sampleServerID)
        (listingClient { Response := { StatusCode := some 200 },
                         Value := some [configurationWithoutProperties "max_connections"] })).result =
      .panic ∧
    (resourceArmPostgreSQLConfigurationSetRead (configurationSetAt sampleServerID)
        (listingClient { Response := { StatusCode := some 200 }, Value := none })).result =
      .panic ∧
    (resourceArmPostgreSQLConfigurationSetRead (configurationSetAt sampleServerID)
        (listingClient { Response := { StatusCode := some 200 },
                         Value := some [configurationWithoutProperties "max_connections"] })).result =
      .panic := by
  refine ⟨?_, ?_, ?_, ?_⟩ <;> decide

/-! ### Security Center subscription pricing: update then read -/

/-- The segments of a raw ID whose characters are `/` followed by slash-free
segments joined with `/`, the last of them non-empty. -/
theorem pathSegments_of_join (id : String) (segs : List String) (last : String)
    (hid : id.data = '/' :: joinSlash ((segs ++ [last]).map String.data))
    (hsegs : ∀ seg ∈ segs ++ [last], '/' ∉ seg.data) (hne : last.data ≠ []) :
    pathSegments id = segs ++ [last] := by
  unfold pathSegments
  rw [hid]
  simp only [trimPrefixSlash]
  have hmap : (segs ++ [last]).map String.data = segs.map String.data ++ [last.data] := by
    simp
  rw [hmap, trimSuffixSlash_joinSlash _ _ hne (hsegs last (by simp)), ← hmap,
    splitSlash_joinSlash _ (by simp)]
  · rw [List.map_map]
    exact List.map_id _
  · intro seg hseg
    obtain ⟨str, hstr, rfl⟩ := List.mem_map.mp hseg
    exact hsegs str hstr

theorem SecurityCenterSubscriptionPricingID_pricingID (sub name : String)
    (hsub : validSegment sub) (hname : validSegment name) :
    SecurityCenterSubscriptionPricingID (pricingID sub name) = .ok { ResourceType := name } := by
  obtain ⟨_, hsub'⟩ := validSegment_data hsub
  obtain ⟨hne, hname'⟩ := validSegment_data hname
  have hseg : pathSegments (pricingID sub name) =
      ["subscriptions", sub, "providers", "Microsoft.Security", "pricings"] ++ [name] := by
    apply pathSegments_of_join
    · simp [pricingID, String.data_append, joinSlash]
    · intro seg hseg
      simp only [List.cons_append, List.nil_append, List.mem_cons, List.mem_singleton,
        List.not_mem_nil, or_false] at hseg
      rcases hseg with h | h | h | h | h | h <;> subst h <;> first | assumption | decide
    · exact hne
  simp [SecurityCenterSubscriptionPricingID, ParseAzureResourceID, hseg, pairSegments,
    parsePairs, parseStep, extractSegment, ResourceID.PopSegment,
    ResourceID.ValidateNoEmptySegments, GoMap.set, GoMap.delete, GoMap.get, GoMap.len,
    hsub.1, hname.1]

theorem storeClient_storesTier (sub : String) : StoresTier (storeClient sub) sub where
  update_ok := fun _ _ _ => rfl
  get_keeps := fun s name => by
    simp only [storeClient]
    cases s.get name <;> rfl
  get_after_update := fun s name tier => by
    simp [storeClient, pricingOfTier, GoMap.get_set]

/-- Every resource type admitted by the schema is a non-empty slash-free segment. -/
theorem pricingResourceTypes_valid : ∀ r ∈ pricingResourceTypes, validSegment r := by
  decide

/-- One Update against a service that stores the submitted tier. -/
theorem pricing_update_run {σ : Type} (client : PricingClient σ) (sub : String)
    (hsub : validSegment sub) (hsvc : StoresTier client sub) (s : σ)
    (d : PricingResourceData) (hr : validSegment d.resource_type) :
    (resourceArmSecurityCenterSubscriptionPricingUpdate d client s).1.result = .nil ∧
    (resourceArmSecurityCenterSubscriptionPricingUpdate d client s).1.d =
      { Id := pricingID sub d.resource_type, tier := d.tier,
        resource_type := d.resource_type } := by
  have hu := hsvc.update_ok s d.resource_type (pricingOfTier d.tier)
  obtain ⟨hg1, hg2, hg3⟩ := hsvc.get_after_update s d.resource_type d.tier
  have hk := hsvc.get_keeps (client.Update s d.resource_type (pricingOfTier d.tier)).2
    d.resource_type
  unfold resourceArmSecurityCenterSubscriptionPricingUpdate
  simp only []
  rcases hupd : client.Update s d.resource_type (pricingOfTier d.tier) with ⟨⟨r0, e0⟩, s1⟩
  rw [hupd] at hu hg1 hg2 hg3 hk
  simp only at hu hg1 hg2 hg3 hk
  subst hu
  rcases hget : client.Get s1 d.resource_type with ⟨⟨r1, e1⟩, s2⟩
  rw [hget] at hg1 hg2 hg3 hk
  simp only at hg1 hg2 hg3 hk
  subst hg1 hk
  have hupd' : client.Update s d.resource_type
      { Response := { StatusCode := none },
        PricingProperties := some { PricingTier := d.tier }, ID := none } =
      ((r0, none), s2) := hupd
  simp only [hupd', hget, hg2, resourceArmSecurityCenterSubscriptionPricingRead,
    SecurityCenterSubscriptionPricingID_pricingID sub d.resource_type hsub hr, hg3]
  exact ⟨trivial, trivial⟩

/-- C7: against a pricing service that stores the tier submitted by Update
under the pricing name and answers with the ID `pricingID sub name`, for every
tier `t` and every non-empty slash-free resource type `r` (each resource type
of the schema is one),
`resourceArmSecurityCenterSubscriptionPricingUpdate` returns `nil` and leaves
`tier = t`, `resource_type = r` and the service's ID as tracked ID; a further
Update with another tier leaves that tier. -/
theorem pricing_update_then_read {σ : Type} (client : PricingClient σ) (sub : String)
    (hsub : validSegment sub) (hsvc : StoresTier client sub) (s : σ)
    (d : PricingResourceData) (t t' r : String) (hr : validSegment r) :
    (resourceArmSecurityCenterSubscriptionPricingUpdate
        { d with tier := t, resource_type := r } client s).1.result = .nil ∧
    (resourceArmSecurityCenterSubscriptionPricingUpdate
        { d with tier := t, resource_type := r } client s).1.d =
      { Id := pricingID sub r, tier := t, resource_type := r } ∧
    (resourceArmSecurityCenterSubscriptionPricingUpdate
        { (resourceArmSecurityCenterSubscriptionPricingUpdate
            { d with tier := t, resource_type := r } client s).1.d with tier := t' }
        client
        (resourceArmSecurityCenterSubscriptionPricingUpdate
            { d with tier := t, resource_type := r } client s).2).1.result = .nil ∧
    (resourceArmSecurityCenterSubscriptionPricingUpdate
        { (resourceArmSecurityCenterSubscriptionPricingUpdate
            { d with tier := t, resource_type := r } client s).1.d with tier := t' }
        client
        (resourceArmSecurityCenterSubscriptionPricingUpdate
            { d with tier := t, resource_type := r } client s).2).1.d =
      { Id := pricingID sub r, tier := t', resource_type := r } := by
  obtain ⟨h1, h2⟩ := pricing_update_run client sub hsub hsvc s
    { d with tier := t, resource_type := r } hr
  refine ⟨h1, h2, ?_⟩
  rw [h2]
  exact pricing_update_run client sub hsub hsvc _
    { Id := pricingID sub r, tier := t', resource_type := r } hr

/-- C7 on the acceptance test's scenario: tier Standard, then tier Free, with
the default resource type `VirtualMachines`, against the in-memory service. -/
theorem pricing_update_then_read_witness :
    (resourceArmSecurityCenterSubscriptionPricingUpdate
        { Id := "", tier := "Standard", resource_type := "VirtualMachines" }
        (storeClient "sub1") []).1.result = .nil ∧
    (resourceArmSecurityCenterSubscriptionPricingUpdate
        { Id := "", tier := "Standard", resource_type := "VirtualMachines" }
        (storeClient "sub1") []).1.d =
      { Id := pricingID "sub1" "VirtualMachines", tier := "Standard",
        resource_type := "VirtualMachines" } ∧
    (resourceArmSecurityCenterSubscriptionPricingUpdate
        { (resourceArmSecurityCenterSubscriptionPricingUpdate
            { Id := "", tier := "Standard", resource_type := "VirtualMachines" }
            (storeClient "sub1") []).1.d with tier := "Free" }
        (storeClient "sub1")
        (resourceArmSecurityCenterSubscriptionPricingUpdate
            { Id := "", tier := "Standard", resource_type := "VirtualMachines" }
            (storeClient "sub1") []).2).1.result = .nil ∧
    (resourceArmSecurityCenterSubscriptionPricingUpdate
        { (resourceArmSecurityCenterSubscriptionPricingUpdate
            { Id := "", tier := "Standard", resource_type := "VirtualMachines" }
            (storeClient "sub1") []).1.d with tier := "Free" }
        (storeClient "sub1")
        (resourceArmSecurityCenterSubscriptionPricingUpdate
            { Id := "", tier := "Standard", resource_type := "VirtualMachines" }
            (storeClient "sub1") []).2).1.d =
      { Id := pricingID "sub1" "VirtualMachines", tier := "Free",
        resource_type := "VirtualMachines" } :=
  pricing_update_then_read (storeClient "sub1") "sub1" (by decide)
    (storeClient_storesTier "sub1") []
    { Id := "", tier := "", resource_type := "" } "Standard" "Free" "VirtualMachines"
    (by decide)

/-! ### Not found on Read -/

/-- C11: for the transparent-data-encryption, flow-log, security-center-pricing
and configuration-set (MySQL, PostgreSQL) Read handlers and every ID that
parses: when the remote get or list call fails with a not-found response, Read
sets the tracked ID to the empty string, changes nothing else and returns `nil`;
when it fails with any other error, Read returns an error and leaves the state,
its ID included, as it was. -/
theorem read_not_found_is_not_an_error :
    (∀ (d : TransparentDataEncryptionResourceData) (meta : TransparentDataEncryptionsClient)
        (id : TransparentDataEncryptionId) (resp : TransparentDataEncryption) (err : GoError),
      parseTransparentDataEncryptionID d.Id = .ok id →
      meta.Get id.ResourceGroup id.ServerName id.DatabaseName = (resp, some err) →
      (ResponseWasNotFound resp.Response = true →
        (resourceMsSqlDatabaseTransparentDataEncryptionRead d meta).d = { d with Id := "" } ∧
        (resourceMsSqlDatabaseTransparentDataEncryptionRead d meta).result = .nil) ∧
      (ResponseWasNotFound resp.Response = false →
        (resourceMsSqlDatabaseTransparentDataEncryptionRead d meta).d = d ∧
        ∃ e, (resourceMsSqlDatabaseTransparentDataEncryptionRead d meta).result = .error e)) ∧
    (∀ (σ : Type) (d : FlowLogResourceData) (client : FlowLogsClient σ) (s s1 : σ)
        (id : NetworkWatcherFlowLogAccountID) (resp : FlowLog) (err : GoError),
      ParseNetworkWatcherFlowLogID d.Id = .ok id →
      client.Get s id.ResourceGroup id.NetworkWatcherName id.FlowLogName =
        ((resp, some err), s1) →
      (ResponseWasNotFound resp.Response = true →
        (resourceArmNetworkWatcherFlowLogRead d client s []).1.d = { d with Id := "" } ∧
        (resourceArmNetworkWatcherFlowLogRead d client s []).1.result = .nil) ∧
      (ResponseWasNotFound resp.Response = false →
        (resourceArmNetworkWatcherFlowLogRead d client s []).1.d = d ∧
        ∃ e, (resourceArmNetworkWatcherFlowLogRead d client s []).1.result = .error e)) ∧
    (∀ (σ : Type) (d : PricingResourceData) (client : PricingClient σ) (s s1 : σ)
        (id : SecurityCenterSubscriptionPricingId) (resp : Pricing) (err : GoError),
      SecurityCenterSubscriptionPricingID d.Id = .ok id →
      client.Get s id.ResourceType = ((resp, some err), s1) →
      (ResponseWasNotFound resp.Response = true →
        (resourceArmSecurityCenterSubscriptionPricingRead d client s []).1.d =
          { d with Id := "" } ∧
        (resourceArmSecurityCenterSubscriptionPricingRead d client s []).1.result = .nil) ∧
      (ResponseWasNotFound resp.Response = false →
        (resourceArmSecurityCenterSubscriptionPricingRead d client s []).1.d = d ∧
        ∃ e, (resourceArmSecurityCenterSubscriptionPricingRead d client s []).1.result =
          .error e)) ∧
    (∀ (d : ConfigurationSetResourceData) (meta : ConfigurationsClient) (id : ResourceID)
        (resp : ConfigurationListResult) (err : GoError),
      ParseAzureResourceID d.Id = .ok id →
      meta.ListByServer id.ResourceGroup ((id.Path.get "servers").getD "") = (resp, some err) →
      (ResponseWasNotFound resp.Response = true →
        (resourceArmMySQLConfigurationSetRead d meta).d = { d with Id := "" } ∧
        (resourceArmMySQLConfigurationSetRead d meta).result = .nil ∧
        (resourceArmPostgreSQLConfigurationSetRead d meta).d = { d with Id := "" } ∧
        (resourceArmPostgreSQLConfigurationSetRead d meta).result = .nil) ∧
      (ResponseWasNotFound resp.Response = false →
        (resourceArmMySQLConfigurationSetRead d meta).d = d ∧
        (∃ e, (resourceArmMySQLConfigurationSetRead d meta).result = .error e) ∧
        (resourceArmPostgreSQLConfigurationSetRead d meta).d = d ∧
        ∃ e, (resourceArmPostgreSQLConfigurationSetRead d meta).result = .error e)) := by
  refine ⟨?_, ?_, ?_, ?_⟩
  · intro d meta id resp err hid hget
    constructor <;> intro hnf <;>
      simp [resourceMsSqlDatabaseTransparentDataEncryptionRead, hid, hget, hnf]
  · intro σ d client s s1 id resp err hid hget
    constructor <;> intro hnf <;>
      simp [resourceArmNetworkWatcherFlowLogRead, hid, hget, hnf]
  · intro σ d client s s1 id resp err hid hget
    constructor <;> intro hnf <;>
      simp [resourceArmSecurityCenterSubscriptionPricingRead, hid, hget, hnf]
  · intro d meta id resp err hid hget
    constructor <;> intro hnf <;>
      simp [resourceArmMySQLConfigurationSetRead, resourceArmPostgreSQLConfigurationSetRead,
        hid, hget, hnf]

/-- C11 on concrete remote failures: a 404 and a 500 on the transparent data
encryption Get, a 404 on the flow-log Get, a 500 on the pricing Get and a 404 on
the configuration listing. -/
theorem read_not_found_is_not_an_error_witness :
    ((resourceMsSqlDatabaseTransparentDataEncryptionRead sampleTransparentDataEncryption
        (failingTransparentDataEncryptionsClient 404)).d =
        { sampleTransparentDataEncryption with Id := "" } ∧
      (resourceMsSqlDatabaseTransparentDataEncryptionRead sampleTransparentDataEncryption
        (failingTransparentDataEncryptionsClient 404)).result = .nil) ∧
    ((resourceMsSqlDatabaseTransparentDataEncryptionRead sampleTransparentDataEncryption
        (failingTransparentDataEncryptionsClient 500)).d = sampleTransparentDataEncryption ∧
      ∃ e, (resourceMsSqlDatabaseTransparentDataEncryptionRead sampleTransparentDataEncryption
        (failingTransparentDataEncryptionsClient 500)).result = .error e) ∧
    ((resourceArmNetworkWatcherFlowLogRead (sampleTrackedFlowLog true)
        (failingFlowLogsClient 404) () []).1.d = { sampleTrackedFlowLog true with Id := "" } ∧
      (resourceArmNetworkWatcherFlowLogRead (sampleTrackedFlowLog true)
        (failingFlowLogsClient 404) () []).1.result = .nil) ∧
    ((resourceArmSecurityCenterSubscriptionPricingRead samplePricing
        (failingPricingClient 500) () []).1.d = samplePricing ∧
      ∃ e, (resourceArmSecurityCenterSubscriptionPricingRead samplePricing
        (failingPricingClient 500) () []).1.result = .error e) ∧
    ((resourceArmMySQLConfigurationSetRead (configurationSetAt sampleServerID)
        (failingConfigurationsClient 404)).d = { configurationSetAt sampleServerID with Id := "" } ∧
      (resourceArmMySQLConfigurationSetRead (configurationSetAt sampleServerID)
        (failingConfigurationsClient 404)).result = .nil ∧
      (resourceArmPostgreSQLConfigurationSetRead (configurationSetAt sampleServerID)
        (failingConfigurationsClient 404)).d =
        { configurationSetAt sampleServerID with Id := "" } ∧
      (resourceArmPostgreSQLConfigurationSetRead (configurationSetAt sampleServerID)
        (failingConfigurationsClient 404)).result = .nil) :=
  ⟨(read_not_found_is_not_an_error.1 sampleTransparentDataEncryption
      (failingTransparentDataEncryptionsClient 404)
      (NewTransparentDataEncryptiontID "sub1" "rg1" "s1" "db1" "current") _ _
      (by decide) rfl).1 (by decide),
   (read_not_found_is_not_an_error.1 sampleTransparentDataEncryption
      (failingTransparentDataEncryptionsClient 500)
      (NewTransparentDataEncryptiontID "sub1" "rg1" "s1" "db1" "current") _ _
      (by decide) rfl).2 (by decide),
   (read_not_found_is_not_an_error.2.1 Unit (sampleTrackedFlowLog true)
      (failingFlowLogsClient 404) () ()
      { SubscriptionID := "sub1", ResourceGroup := "rg1", Provider := "Microsoft.Network",
        Path := [("flowLogs", "f1"), ("networkWatchers", "w1")],
        NetworkWatcherName := "w1", FlowLogName := "f1" } _ _
      (by decide) rfl).1 (by decide),
   (read_not_found_is_not_an_error.2.2.1 Unit samplePricing (failingPricingClient 500) () ()
      { ResourceType := "VirtualMachines" } _ _ (by decide) rfl).2 (by decide),
   (read_not_found_is_not_an_error.2.2.2 (configurationSetAt sampleServerID)
      (failingConfigurationsClient 404) sampleServerResourceID _ _ (by decide) rfl).1
      (by decide)⟩

/-! ### Key Vault secret: Read -/

/-- C12: Read on a secret ID that parses, when the parent vault's resource ID
cannot be determined from its base URL or when the vault existence check
answers false, clears the tracked ID, changes nothing else, returns `nil` and
issues the vault lookups only: no listing and no read of a secret. -/
theorem secret_read_vault_gone {σ : Type} (d : SecretResourceData) (meta : KeyVaultMeta σ)
    (s : σ) (id : KeyVaultChildID) (hid : ParseKeyVaultChildID d.Id = .ok id) :
    (∀ s1, meta.GetKeyVaultIDFromBaseUrl s id.KeyVaultBaseUrl = (.ok none, s1) →
      resourceArmKeyVaultSecretRead d meta s [] =
        ({ d := { d with Id := "" },
           calls := [.GetKeyVaultIDFromBaseUrl id.KeyVaultBaseUrl],
           result := .nil }, s1)) ∧
    (∀ s1 s2 keyVaultId,
      meta.GetKeyVaultIDFromBaseUrl s id.KeyVaultBaseUrl = (.ok (some keyVaultId), s1) →
      meta.KeyVaultExists s1 keyVaultId = (.ok false, s2) →
      resourceArmKeyVaultSecretRead d meta s [] =
        ({ d := { d with Id := "" },
           calls := [.GetKeyVaultIDFromBaseUrl id.KeyVaultBaseUrl,
                     .KeyVaultExists keyVaultId],
           result := .nil }, s2)) := by
  constructor
  · intro s1 h1
    simp [resourceArmKeyVaultSecretRead, hid, h1]
  · intro s1 s2 keyVaultId h1 h2
    simp [resourceArmKeyVaultSecretRead, hid, h1, h2]

/-- C12 on the in-memory vault: once with a vault that cannot be resolved, once
with a vault that no longer exists. -/
theorem secret_read_vault_gone_witness :
    resourceArmKeyVaultSecretRead (secretAt "db" "v1" "x") (vaultMeta false)
        { vaultWith [plainSecret "db" "v1"] with vaultKnown := false } [] =
      ({ d := { secretAt "db" "v1" "x" with Id := "" },
         calls := [.GetKeyVaultIDFromBaseUrl vaultBaseUrl],
         result := .nil }, { vaultWith [plainSecret "db" "v1"] with vaultKnown := false }) ∧
    resourceArmKeyVaultSecretRead (secretAt "db" "v1" "x") (vaultMeta false)
        { vaultWith [plainSecret "db" "v1"] with vaultExists := false } [] =
      ({ d := { secretAt "db" "v1" "x" with Id := "" },
         calls := [.GetKeyVaultIDFromBaseUrl vaultBaseUrl, .KeyVaultExists vaultResourceID],
         result := .nil }, { vaultWith [plainSecret "db" "v1"] with vaultExists := false }) :=
  ⟨(secret_read_vault_gone (secretAt "db" "v1" "x") (vaultMeta false) _
      (secretChildID "db" "v1") (by decide)).1 _ rfl,
   (secret_read_vault_gone (secretAt "db" "v1" "x") (vaultMeta false) _
      (secretChildID "db" "v1") (by decide)).2 _ _ _ rfl rfl⟩

/-- On a page of well-formed items the loop of Read finds the first item whose
last ID part is the name, if there is one. -/
theorem searchSecret_wellFormed (name : String) (page : List SecretItem)
    (hwf : ∀ item ∈ page, wellFormedItem item = true) :
    searchSecret name page =
      match page.find? (itemMatches name) with
      | some item => .found item
      | none => .absent := by
  induction page with
  | nil => rfl
  | cons item rest ih =>
    have hitem := hwf item (by simp)
    have hrest := ih (fun i hi => hwf i (List.mem_cons_of_mem _ hi))
    unfold wellFormedItem at hitem
    cases hID : item.ID with
    | none => simp [hID] at hitem
    | some itemID =>
      simp only [hID, decide_eq_true_eq] at hitem
      have hlen : ¬ (secretParts itemID).length < 4 := by omega
      by_cases hm : (secretParts itemID).getLast? = some name
      · simp [searchSecret, hID, hlen, hm, itemMatches, List.find?_cons]
      · simp [searchSecret, hID, hlen, hm, itemMatches, List.find?_cons, hrest]

/-- The index of the first matching item depends on the item IDs only. -/
theorem findIdx_itemMatches_of_IDs (name : String) (page page' : List SecretItem)
    (h : page'.map (fun item => item.ID) = page.map (fun item => item.ID)) :
    page'.findIdx (itemMatches name) = page.findIdx (itemMatches name) := by
  induction page generalizing page' with
  | nil =>
    cases page' with
    | nil => rfl
    | cons _ _ => simp at h
  | cons item rest ih =>
    cases page' with
    | nil => simp at h
    | cons item' rest' =>
      simp only [List.map_cons, List.cons.injEq] at h
      have hm : itemMatches name item' = itemMatches name item := by
        simp [itemMatches, h.1]
      simp [List.findIdx_cons, hm, ih rest' h.2]

/-- What `setSecretFields` leaves in the state. -/
theorem setSecretFields_fields {σ : Type} (meta : KeyVaultMeta σ) (d : SecretResourceData)
    (keyVaultId : String) (id : KeyVaultChildID) (secret : SecretItem) :
    (setSecretFields meta d keyVaultId id secret).Id = d.Id ∧
    (setSecretFields meta d keyVaultId id secret).version = id.Version ∧
    (setSecretFields meta d keyVaultId id secret).content_type = secret.ContentType.getD "" ∧
    (setSecretFields meta d keyVaultId id secret).tags = secret.Tags ∧
    (∀ attributes v, secret.Attributes = some attributes → attributes.NotBefore = some v →
      (setSecretFields meta d keyVaultId id secret).not_before_date = meta.formatTime v) ∧
    (∀ attributes v, secret.Attributes = some attributes → attributes.Expires = some v →
      (setSecretFields meta d keyVaultId id secret).expiration_date = meta.formatTime v) := by
  rcases secret with ⟨itemID, contentType, attributes, tags⟩
  rcases attributes with _ | ⟨notBefore, expires⟩
  · simp [setSecretFields]
  · cases notBefore <;> cases expires <;>
      refine ⟨rfl, rfl, rfl, rfl, ?_, ?_⟩ <;>
      intro attributes v ha hv <;>
      simp only [Option.some.injEq] at ha <;>
      subst ha <;>
      simp only [Option.some.injEq, reduceCtorEq] at hv <;>
      (subst hv; rfl)

/-- Read on a page of well-formed items, in terms of the first matching item. -/
theorem resourceArmKeyVaultSecretRead_page {σ : Type} (d : SecretResourceData)
    (meta : KeyVaultMeta σ) (s s' : σ) (calls : List KeyVaultCall) (id : KeyVaultChildID)
    (keyVaultId : String) (page : List SecretItem)
    (hid : ParseKeyVaultChildID d.Id = .ok id) (hlist : ListsPage meta s id keyVaultId page s')
    (hwf : ∀ item ∈ page, wellFormedItem item = true) :
    resourceArmKeyVaultSecretRead d meta s calls =
      match page.find? (itemMatches id.Name) with
      | some secret =>
        ({ d := setSecretFields meta d keyVaultId id secret,
           calls := calls ++ readCalls id keyVaultId, result := .nil }, s')
      | none =>
        ({ d := { d with Id := "" }, calls := calls ++ readCalls id keyVaultId,
           result := .nil }, s') := by
  obtain ⟨s1, s2, h1, h2, h3⟩ := hlist
  simp only [resourceArmKeyVaultSecretRead, hid, h1, h2, h3,
    searchSecret_wellFormed id.Name page hwf, readCalls, List.append_assoc,
    List.singleton_append]
  cases page.find? (itemMatches id.Name) <;> rfl

/-- C13: when the listing page holds items with well-formed IDs and the last ID
part of one of them is the name parsed from the tracked ID, Read returns `nil`,
sets `content_type`, the dates and the tags from the first such item in page
order, keeps the tracked ID and issues the two vault lookups and the listing
only, never `GetSecret`; and the position of the chosen item is the same for any
page with the same item IDs, whatever the other fields of the items are. -/
theorem secret_read_list_and_filter {σ : Type} (d : SecretResourceData)
    (meta : KeyVaultMeta σ) (s s' : σ) (id : KeyVaultChildID) (keyVaultId : String)
    (page : List SecretItem) (hid : ParseKeyVaultChildID d.Id = .ok id)
    (hlist : ListsPage meta s id keyVaultId page s')
    (hwf : ∀ item ∈ page, wellFormedItem item = true)
    (hex : ∃ item ∈ page, itemMatches id.Name item = true) :
    ∃ secret, page.find? (itemMatches id.Name) = some secret ∧
      (resourceArmKeyVaultSecretRead d meta s []).1.result = .nil ∧
      (resourceArmKeyVaultSecretRead d meta s []).1.d.Id = d.Id ∧
      (resourceArmKeyVaultSecretRead d meta s []).1.d.content_type =
        secret.ContentType.getD "" ∧
      (resourceArmKeyVaultSecretRead d meta s []).1.d.tags = secret.Tags ∧
      (∀ attributes v, secret.Attributes = some attributes → attributes.NotBefore = some v →
        (resourceArmKeyVaultSecretRead d meta s []).1.d.not_before_date = meta.formatTime v) ∧
      (∀ attributes v, secret.Attributes = some attributes → attributes.Expires = some v →
        (resourceArmKeyVaultSecretRead d meta s []).1.d.expiration_date = meta.formatTime v) ∧
      (resourceArmKeyVaultSecretRead d meta s []).1.calls = readCalls id keyVaultId ∧
      (∀ base name version,
        KeyVaultCall.GetSecret base name version ∉
          (resourceArmKeyVaultSecretRead d meta s []).1.calls) ∧
      (∀ page' : List SecretItem,
        page'.map (fun item => item.ID) = page.map (fun item => item.ID) →
        page'.findIdx (itemMatches id.Name) = page.findIdx (itemMatches id.Name)) := by
  obtain ⟨item, hmem, hmatch⟩ := hex
  cases hfind : page.find? (itemMatches id.Name) with
  | none =>
    have := List.find?_eq_none.mp hfind item hmem
    exact absurd hmatch this
  | some secret =>
    have hrun := resourceArmKeyVaultSecretRead_page d meta s s' [] id keyVaultId page hid
      hlist hwf
    rw [hfind] at hrun
    simp only [List.nil_append] at hrun
    refine ⟨secret, rfl, ?_⟩
    rw [hrun]
    obtain ⟨f1, _, f3, f4, f5, f6⟩ := setSecretFields_fields meta d keyVaultId id secret
    refine ⟨rfl, f1, f3, f4, f5, f6, rfl, ?_, ?_⟩
    · intro base name version
      simp [readCalls]
    · intro page' hIDs
      exact findIdx_itemMatches_of_IDs id.Name page page' hIDs

/-- C13 on a page of 25 items whose 10th is the tracked secret. -/
theorem secret_read_list_and_filter_witness :
    (sampleVault 25).secrets.length = 25 ∧
    ((sampleVault 25).secrets.map StoredSecret.item).findIdx
      (itemMatches (sampleSecretName 9)) = 9 ∧
    ∃ secret, ((sampleVault 25).secrets.map StoredSecret.item).find?
        (itemMatches (sampleSecretName 9)) = some secret ∧
      (resourceArmKeyVaultSecretRead (secretAt (sampleSecretName 9) "v" "x") (vaultMeta false)
        (sampleVault 25) []).1.result = .nil ∧
      (resourceArmKeyVaultSecretRead (secretAt (sampleSecretName 9) "v" "x") (vaultMeta false)
        (sampleVault 25) []).1.d.Id = secretID (sampleSecretName 9) "v" ∧
      (resourceArmKeyVaultSecretRead (secretAt (sampleSecretName 9) "v" "x") (vaultMeta false)
        (sampleVault 25) []).1.d.content_type = secret.ContentType.getD "" ∧
      (resourceArmKeyVaultSecretRead (secretAt (sampleSecretName 9) "v" "x") (vaultMeta false)
        (sampleVault 25) []).1.calls =
        readCalls (secretChildID (sampleSecretName 9) "v") vaultResourceID :=
  ⟨by decide, by decide,
   match secret_read_list_and_filter (secretAt (sampleSecretName 9) "v" "x") (vaultMeta false)
      (sampleVault 25) (sampleVault 25) (secretChildID (sampleSecretName 9) "v")
      vaultResourceID ((sampleVault 25).secrets.map StoredSecret.item) (by decide)
      ⟨_, _, rfl, rfl, rfl⟩ (by decide) (by decide) with
   | ⟨secret, h1, h2, h3, h4, _, _, _, h8, _⟩ => ⟨secret, h1, h2, h3, h4, h8⟩⟩

/-- C14: Read requests one listing page of at most 25 items and looks at the
items of that page only: when the page it gets back holds well-formed items none
of which is the tracked secret, Read clears the tracked ID, changes nothing else
and returns `nil`, wherever else in the vault the secret may be. -/
theorem secret_read_beyond_first_page {σ : Type} (d : SecretResourceData)
    (meta : KeyVaultMeta σ) (s s' : σ) (id : KeyVaultChildID) (keyVaultId : String)
    (page : List SecretItem) (hid : ParseKeyVaultChildID d.Id = .ok id)
    (hlist : ListsPage meta s id keyVaultId page s')
    (hwf : ∀ item ∈ page, wellFormedItem item = true)
    (hno : ∀ item ∈ page, itemMatches id.Name item = false) :
    resourceArmKeyVaultSecretRead d meta s [] =
      ({ d := { d with Id := "" },
         calls := [.GetKeyVaultIDFromBaseUrl id.KeyVaultBaseUrl, .KeyVaultExists keyVaultId,
                   .GetSecrets id.KeyVaultBaseUrl (some 25)],
         result := .nil }, s') := by
  have hfind : page.find? (itemMatches id.Name) = none :=
    List.find?_eq_none.mpr (fun item hmem => by simp [hno item hmem])
  rw [resourceArmKeyVaultSecretRead_page d meta s s' [] id keyVaultId page hid hlist hwf, hfind]
  rfl

/-- C14 on a vault of 30 secrets: the tracked secret is the 28th, the first page
holds the first 25. -/
theorem secret_read_beyond_first_page_witness :
    ((sampleVault 30).find (sampleSecretName 27)).isSome = true ∧
    resourceArmKeyVaultSecretRead (secretAt (sampleSecretName 27) "v" "x") (vaultMeta false)
        (sampleVault 30) [] =
      ({ d := { secretAt (sampleSecretName 27) "v" "x" with Id := "" },
         calls := [.GetKeyVaultIDFromBaseUrl vaultBaseUrl, .KeyVaultExists vaultResourceID,
                   .GetSecrets vaultBaseUrl (some 25)],
         result := .nil }, sampleVault 30) :=
  ⟨by decide,
   secret_read_beyond_first_page (secretAt (sampleSecretName 27) "v" "x") (vaultMeta false)
     (sampleVault 30) (sampleVault 30) (secretChildID (sampleSecretName 27) "v")
     vaultResourceID (((sampleVault 30).secrets.take 25).map StoredSecret.item) (by decide)
     ⟨_, _, rfl, rfl, rfl⟩ (by decide) (by decide)⟩

/-! ### Key Vault secret: Create -/

/-- Read only adds calls to those issued before it. -/
theorem resourceArmKeyVaultSecretRead_calls {σ : Type} (d : SecretResourceData)
    (meta : KeyVaultMeta σ) (s : σ) (calls : List KeyVaultCall) :
    calls <+: (resourceArmKeyVaultSecretRead d meta s calls).1.calls := by
  unfold resourceArmKeyVaultSecretRead
  repeat' split
  all_goals simp [List.append_assoc]

/-- Read leaves the tracked ID as it is or clears it. -/
theorem resourceArmKeyVaultSecretRead_Id {σ : Type} (d : SecretResourceData)
    (meta : KeyVaultMeta σ) (s : σ) (calls : List KeyVaultCall) :
    (resourceArmKeyVaultSecretRead d meta s calls).1.d.Id = d.Id ∨
      (resourceArmKeyVaultSecretRead d meta s calls).1.d.Id = "" := by
  unfold resourceArmKeyVaultSecretRead
  repeat' split
  all_goals first
    | exact Or.inl rfl
    | exact Or.inr rfl
    | exact Or.inl (setSecretFields_fields _ _ _ _ _).1

/-- C15: with import protection enabled, when the lookup of the secret by name
answers (without error, or with a not-found error) with a non-empty ID, Create
returns the already-exists error carrying that ID, having issued the base-URL
lookup and that `GetSecret` only (no `SetSecret`), and leaves the state, its
tracked ID included, as it was; with import protection disabled, the call that
follows the base-URL lookup is `SetSecret`. -/
theorem secret_create_import_protection {σ : Type} (d : SecretResourceData)
    (meta : KeyVaultMeta σ) (s s1 : σ) (keyVaultBaseUrl : String)
    (hbase : meta.GetKeyVaultBaseUrlFromID s d.key_vault_id = (.ok keyVaultBaseUrl, s1)) :
    (meta.ShouldResourcesBeImported = true →
      ∀ (existing : SecretBundle) (err : Option GoError) (s2 : σ) (existingID : String),
        meta.GetSecret s1 keyVaultBaseUrl d.name "" = ((existing, err), s2) →
        (err = none ∨ ResponseWasNotFound existing.Response = true) →
        existing.ID = some existingID → existingID ≠ "" →
        resourceArmKeyVaultSecretCreate d meta s =
          ({ d := d,
             calls := [.GetKeyVaultBaseUrlFromID d.key_vault_id,
                       .GetSecret keyVaultBaseUrl d.name ""],
             result := .error (ImportAsExistsError "azurerm_key_vault_secret" existingID) },
           s2)) ∧
    (meta.ShouldResourcesBeImported = false →
      [KeyVaultCall.GetKeyVaultBaseUrlFromID d.key_vault_id,
       KeyVaultCall.SetSecret keyVaultBaseUrl d.name (secretSetParametersOf meta d)] <+:
        (resourceArmKeyVaultSecretCreate d meta s).1.calls) := by
  constructor
  · intro hflag existing err s2 existingID hget herr hID hne
    rcases herr with herr | herr
    · subst herr
      simp [resourceArmKeyVaultSecretCreate, hbase, hflag, hget, hID, hne]
    · cases err with
      | none => simp [resourceArmKeyVaultSecretCreate, hbase, hflag, hget, hID, hne]
      | some e => simp [resourceArmKeyVaultSecretCreate, hbase, hflag, hget, hID, hne, herr]
  · intro hflag
    simp only [resourceArmKeyVaultSecretCreate, hbase, hflag, Bool.false_eq_true, ↓reduceIte]
    repeat' split
    all_goals first
      | simp [List.append_assoc]; done
      | exact List.IsPrefix.trans (by simp [List.append_assoc])
          (resourceArmKeyVaultSecretRead_calls _ _ _ _)

/-- C15 on the in-memory vault holding the secret `a`: Create of `a` with import
protection enabled and with import protection disabled. -/
theorem secret_create_import_protection_witness :
    resourceArmKeyVaultSecretCreate (newSecret "a" "x") (vaultMeta true)
        (vaultWith [plainSecret "a" "v"]) =
      ({ d := newSecret "a" "x",
         calls := [.GetKeyVaultBaseUrlFromID vaultResourceID, .GetSecret vaultBaseUrl "a" ""],
         result := .error (ImportAsExistsError "azurerm_key_vault_secret" (secretID "a" "v")) },
       vaultWith [plainSecret "a" "v"]) ∧
    [KeyVaultCall.GetKeyVaultBaseUrlFromID vaultResourceID,
     KeyVaultCall.SetSecret vaultBaseUrl "a"
       (secretSetParametersOf (vaultMeta false) (newSecret "a" "x"))] <+:
      (resourceArmKeyVaultSecretCreate (newSecret "a" "x") (vaultMeta false)
        (vaultWith [plainSecret "a" "v"])).1.calls :=
  ⟨(secret_create_import_protection (newSecret "a" "x") (vaultMeta true)
      (vaultWith [plainSecret "a" "v"]) _ vaultBaseUrl rfl).1 rfl _ _ _ (secretID "a" "v") rfl
      (Or.inl rfl) rfl (by decide),
   (secret_create_import_protection (newSecret "a" "x") (vaultMeta false)
      (vaultWith [plainSecret "a" "v"]) _ vaultBaseUrl rfl).2 rfl⟩

/-! ### The re-read after a write -/

/-- The flow-log Read leaves the tracked ID as it is or clears it. -/
theorem resourceArmNetworkWatcherFlowLogRead_Id {σ : Type} (d : FlowLogResourceData)
    (client : FlowLogsClient σ) (s : σ) (calls : List FlowLogsCall) :
    (resourceArmNetworkWatcherFlowLogRead d client s calls).1.d.Id = d.Id ∨
      (resourceArmNetworkWatcherFlowLogRead d client s calls).1.d.Id = "" := by
  unfold resourceArmNetworkWatcherFlowLogRead
  repeat' split
  all_goals first
    | exact Or.inl rfl
    | exact Or.inr rfl

/-- The pricing Read leaves the tracked ID as it is or clears it. -/
theorem resourceArmSecurityCenterSubscriptionPricingRead_Id {σ : Type}
    (d : PricingResourceData) (client : PricingClient σ) (s : σ) (calls : List PricingCall) :
    (resourceArmSecurityCenterSubscriptionPricingRead d client s calls).1.d.Id = d.Id ∨
      (resourceArmSecurityCenterSubscriptionPricingRead d client s calls).1.d.Id = "" := by
  unfold resourceArmSecurityCenterSubscriptionPricingRead
  repeat' split
  all_goals first
    | exact Or.inl rfl
    | exact Or.inr rfl

/-- The secret Create once the import check has passed. -/
theorem resourceArmKeyVaultSecretCreate_submit {σ : Type} (d : SecretResourceData)
    (meta : KeyVaultMeta σ) (s s1 s2 : σ) (keyVaultBaseUrl : String)
    (checks : List KeyVaultCall)
    (hbase : meta.GetKeyVaultBaseUrlFromID s d.key_vault_id = (.ok keyVaultBaseUrl, s1))
    (hcheck : ImportCheckPasses meta s1 keyVaultBaseUrl d.name checks s2) :
    resourceArmKeyVaultSecretCreate d meta s =
      match meta.SetSecret s2 keyVaultBaseUrl d.name (secretSetParametersOf meta d) with
      | ((_, some err), s3) =>
        ({ d := d,
           calls := [.GetKeyVaultBaseUrlFromID d.key_vault_id] ++ checks ++
             [.SetSecret keyVaultBaseUrl d.name (secretSetParametersOf meta d)],
           result := .error err }, s3)
      | ((_, none), s3) =>
        match meta.GetSecret s3 keyVaultBaseUrl d.name "" with
        | ((_, some err), s4) =>
          ({ d := d,
             calls := [.GetKeyVaultBaseUrlFromID d.key_vault_id] ++ checks ++
               [.SetSecret keyVaultBaseUrl d.name (secretSetParametersOf meta d),
                .GetSecret keyVaultBaseUrl d.name ""],
             result := .error err }, s4)
        | ((read, none), s4) =>
          match read.ID with
          | none =>
            ({ d := d,
               calls := [.GetKeyVaultBaseUrlFromID d.key_vault_id] ++ checks ++
                 [.SetSecret keyVaultBaseUrl d.name (secretSetParametersOf meta d),
                  .GetSecret keyVaultBaseUrl d.name ""],
               result := .error (.errorf "Cannot read KeyVault Secret '%s' (in key vault '%s')"
                 [d.name, keyVaultBaseUrl]) }, s4)
          | some readID =>
            resourceArmKeyVaultSecretRead { d with Id := readID } meta s4
              ([.GetKeyVaultBaseUrlFromID d.key_vault_id] ++ checks ++
                [.SetSecret keyVaultBaseUrl d.name (secretSetParametersOf meta d),
                 .GetSecret keyVaultBaseUrl d.name ""]) := by
  rcases hcheck with ⟨hflag, rfl, rfl⟩ | ⟨hflag, rfl, existing, err, hget, herr, hID⟩
  · simp only [resourceArmKeyVaultSecretCreate, hbase, hflag, Bool.false_eq_true, ↓reduceIte]
    repeat' split
    all_goals simp_all
  · have hnoID : ∀ rest : Run SecretResourceData KeyVaultCall × σ,
        (match existing.ID with
          | some existingID =>
            if existingID ≠ "" then
              ({ d := d,
                 calls := [KeyVaultCall.GetKeyVaultBaseUrlFromID d.key_vault_id] ++
                   [KeyVaultCall.GetSecret keyVaultBaseUrl d.name ""],
                 result := .error (ImportAsExistsError "azurerm_key_vault_secret" existingID) },
               s2)
            else rest
          | none => rest) = rest := by
      intro rest
      rcases hID with h | h <;> simp [h]
    simp only [resourceArmKeyVaultSecretCreate, hbase, hflag, ↓reduceIte, hget]
    cases err with
    | none =>
      simp only [hnoID]
      repeat' split
      all_goals simp_all
    | some e =>
      have hnf : ResponseWasNotFound existing.Response = true := by
        rcases herr with h | h
        · cases h
        · exact h
      simp only [hnf, ↓reduceIte, hnoID]
      repeat' split
      all_goals simp_all

/-- C16: in the secret Create, the flow-log Create/Update and the pricing Update,
when the write succeeds and the re-read answers without error: if the payload
has no ID the handler returns an error and leaves the state, its tracked ID
included, as it was; if it has an ID the handler sets the tracked ID to exactly
that ID and goes on as Read from there, which keeps that ID or clears it. -/
theorem post_create_read_failure :
    (∀ (σ : Type) (d : SecretResourceData) (meta : KeyVaultMeta σ) (s s1 s2 s3 s4 : σ)
        (keyVaultBaseUrl : String) (checks : List KeyVaultCall) (written read : SecretBundle),
      meta.GetKeyVaultBaseUrlFromID s d.key_vault_id = (.ok keyVaultBaseUrl, s1) →
      ImportCheckPasses meta s1 keyVaultBaseUrl d.name checks s2 →
      meta.SetSecret s2 keyVaultBaseUrl d.name (secretSetParametersOf meta d) =
        ((written, none), s3) →
      meta.GetSecret s3 keyVaultBaseUrl d.name "" = ((read, none), s4) →
      (read.ID = none →
        (resourceArmKeyVaultSecretCreate d meta s).1.d = d ∧
        ∃ e, (resourceArmKeyVaultSecretCreate d meta s).1.result = .error e) ∧
      (∀ id, read.ID = some id →
        resourceArmKeyVaultSecretCreate d meta s =
          resourceArmKeyVaultSecretRead { d with Id := id } meta s4
            ([.GetKeyVaultBaseUrlFromID d.key_vault_id] ++ checks ++
              [.SetSecret keyVaultBaseUrl d.name (secretSetParametersOf meta d),
               .GetSecret keyVaultBaseUrl d.name ""]) ∧
        ((resourceArmKeyVaultSecretCreate d meta s).1.d.Id = id ∨
          (resourceArmKeyVaultSecretCreate d meta s).1.d.Id = ""))) ∧
    (∀ (σ : Type) (d : FlowLogResourceData) (client : FlowLogsClient σ) (s s1 s2 s3 : σ)
        (parameters resp : FlowLog),
      flowLogParameters d = some parameters →
      client.CreateOrUpdate s d.resource_group_name d.network_watcher_name
        d.network_security_group_id parameters = (none, s1) →
      client.WaitForCreateOrUpdate s1 = (none, s2) →
      client.Get s2 d.resource_group_name d.network_watcher_name d.network_security_group_id =
        ((resp, none), s3) →
      (resp.ID = none →
        (resourceArmNetworkWatcherFlowLogCreateUpdate d client s).1.d = d ∧
        ∃ e, (resourceArmNetworkWatcherFlowLogCreateUpdate d client s).1.result = .error e) ∧
      (∀ id, resp.ID = some id →
        resourceArmNetworkWatcherFlowLogCreateUpdate d client s =
          resourceArmNetworkWatcherFlowLogRead { d with Id := id } client s3
            [.CreateOrUpdate d.resource_group_name d.network_watcher_name
               d.network_security_group_id parameters,
             .WaitForCreateOrUpdate,
             .Get d.resource_group_name d.network_watcher_name d.network_security_group_id] ∧
        ((resourceArmNetworkWatcherFlowLogCreateUpdate d client s).1.d.Id = id ∨
          (resourceArmNetworkWatcherFlowLogCreateUpdate d client s).1.d.Id = ""))) ∧
    (∀ (σ : Type) (d : PricingResourceData) (client : PricingClient σ) (s s1 s2 : σ)
        (written resp : Pricing),
      client.Update s d.resource_type (pricingOfTier d.tier) = ((written, none), s1) →
      client.Get s1 d.resource_type = ((resp, none), s2) →
      (resp.ID = none →
        (resourceArmSecurityCenterSubscriptionPricingUpdate d client s).1.d = d ∧
        ∃ e, (resourceArmSecurityCenterSubscriptionPricingUpdate d client s).1.result =
          .error e) ∧
      (∀ id, resp.ID = some id →
        resourceArmSecurityCenterSubscriptionPricingUpdate d client s =
          resourceArmSecurityCenterSubscriptionPricingRead { d with Id := id } client s2
            [.Update d.resource_type (pricingOfTier d.tier), .Get d.resource_type] ∧
        ((resourceArmSecurityCenterSubscriptionPricingUpdate d client s).1.d.Id = id ∨
          (resourceArmSecurityCenterSubscriptionPricingUpdate d client s).1.d.Id = ""))) := by
  refine ⟨?_, ?_, ?_⟩
  · intro σ d meta s s1 s2 s3 s4 base checks written read hbase hcheck hset hget
    have hrun := resourceArmKeyVaultSecretCreate_submit d meta s s1 s2 base checks hbase hcheck
    rw [hset] at hrun
    simp only [hget] at hrun
    constructor
    · intro hID
      rw [hrun, hID]
      exact ⟨rfl, _, rfl⟩
    · intro id hID
      rw [hID] at hrun
      refine ⟨hrun, ?_⟩
      rw [hrun]
      exact resourceArmKeyVaultSecretRead_Id _ _ _ _
  · intro σ d client s s1 s2 s3 parameters resp hpar hcreate hwait hget
    constructor
    · intro hID
      simp [resourceArmNetworkWatcherFlowLogCreateUpdate, hpar, hcreate, hwait, hget, hID]
    · intro id hID
      have hrun : resourceArmNetworkWatcherFlowLogCreateUpdate d client s =
          resourceArmNetworkWatcherFlowLogRead { d with Id := id } client s3
            [.CreateOrUpdate d.resource_group_name d.network_watcher_name
               d.network_security_group_id parameters,
             .WaitForCreateOrUpdate,
             .Get d.resource_group_name d.network_watcher_name
               d.network_security_group_id] := by
        simp [resourceArmNetworkWatcherFlowLogCreateUpdate, hpar, hcreate, hwait, hget, hID]
      refine ⟨hrun, ?_⟩
      rw [hrun]
      exact resourceArmNetworkWatcherFlowLogRead_Id _ _ _ _
  · intro σ d client s s1 s2 written resp hupd hget
    have hupd' : client.Update s d.resource_type
        { Response := { StatusCode := none },
          PricingProperties := some { PricingTier := d.tier }, ID := none } =
        ((written, none), s1) := hupd
    constructor
    · intro hID
      simp [resourceArmSecurityCenterSubscriptionPricingUpdate, hupd', hget, hID]
    · intro id hID
      have hrun : resourceArmSecurityCenterSubscriptionPricingUpdate d client s =
          resourceArmSecurityCenterSubscriptionPricingRead { d with Id := id } client s2
            [.Update d.resource_type (pricingOfTier d.tier), .Get d.resource_type] := by
        simp [resourceArmSecurityCenterSubscriptionPricingUpdate, hupd', hget, hID,
          pricingOfTier]
      refine ⟨hrun, ?_⟩
      rw [hrun]
      exact resourceArmSecurityCenterSubscriptionPricingRead_Id _ _ _ _

/-- C16 on three runs: the secret Create and the flow-log Create/Update against
the in-memory services, whose re-read carries an ID, and the pricing Update
against a service whose re-read carries none. -/
theorem post_create_read_failure_witness :
    (resourceArmKeyVaultSecretCreate (newSecret "a" "x") (vaultMeta false) (vaultWith []) =
      resourceArmKeyVaultSecretRead { newSecret "a" "x" with Id := secretID "a" "v" }
        (vaultMeta false)
        ((vaultMeta false).SetSecret (vaultWith []) vaultBaseUrl "a"
          (secretSetParametersOf (vaultMeta false) (newSecret "a" "x"))).2
        [.GetKeyVaultBaseUrlFromID vaultResourceID,
         .SetSecret vaultBaseUrl "a" (secretSetParametersOf (vaultMeta false) (newSecret "a" "x")),
         .GetSecret vaultBaseUrl "a" ""]) ∧
    ((resourceArmNetworkWatcherFlowLogCreateUpdate (sampleFlowLog true) flowLogStoreClient
        none).1.d.Id = sampleFlowLogID ∨
      (resourceArmNetworkWatcherFlowLogCreateUpdate (sampleFlowLog true) flowLogStoreClient
        none).1.d.Id = "") ∧
    ((resourceArmSecurityCenterSubscriptionPricingUpdate samplePricing anonymousPricingClient
        ()).1.d = samplePricing ∧
      ∃ e, (resourceArmSecurityCenterSubscriptionPricingUpdate samplePricing
        anonymousPricingClient ()).1.result = .error e) :=
  ⟨((post_create_read_failure.1 VaultState (newSecret "a" "x") (vaultMeta false) (vaultWith [])
      (vaultWith []) (vaultWith []) _ _ vaultBaseUrl [] _ _ rfl (Or.inl ⟨rfl, rfl, rfl⟩)
      rfl rfl).2 (secretID "a" "v") (by decide)).1,
   ((post_create_read_failure.2.1 (Option FlowLog) (sampleFlowLog true) flowLogStoreClient
      none _ _ _ _ _ rfl rfl rfl rfl).2 sampleFlowLogID rfl).2,
   (post_create_read_failure.2.2 Unit samplePricing anonymousPricingClient () () ()
      _ _ rfl rfl).1 rfl⟩

/-! ### Key Vault secret: Update -/

/-- C17: when field `value` changes, Update submits `SetSecret`, re-reads the
latest version, sets the tracked ID to the re-read ID and goes on as Read,
without ever calling `UpdateSecret`; against a service that answers the re-read
with the ID of a fresh version and lists the secret in the page Read requests,
Update returns `nil`, the tracked ID after it is the re-read ID and differs from
the ID passed in, and the version Read reports is the new one. -/
theorem secret_update_version_bump {σ : Type} (d : SecretResourceData) (meta : KeyVaultMeta σ)
    (s s1 s2 s3 s4 s5 : σ) (id newChild : KeyVaultChildID) (keyVaultId newID : String)
    (written read : SecretBundle) (page : List SecretItem)
    (hid : ParseKeyVaultChildID d.Id = .ok id) (hchange : d.value_prior ≠ d.value)
    (hvault : meta.GetKeyVaultIDFromBaseUrl s id.KeyVaultBaseUrl = (.ok (some keyVaultId), s1))
    (hexists : meta.KeyVaultExists s1 keyVaultId = (.ok true, s2))
    (hset : meta.SetSecret s2 id.KeyVaultBaseUrl id.Name (secretSetParametersOf meta d) =
      ((written, none), s3))
    (hget : meta.GetSecret s3 id.KeyVaultBaseUrl id.Name "" = ((read, none), s4))
    (hread : read.ID = some newID) (hnew : ParseKeyVaultChildID newID = .ok newChild)
    (hfresh : newChild.Version ≠ id.Version)
    (hlist : ListsPage meta s4 newChild keyVaultId page s5)
    (hwf : ∀ item ∈ page, wellFormedItem item = true)
    (hex : ∃ item ∈ page, itemMatches newChild.Name item = true) :
    (resourceArmKeyVaultSecretUpdate d meta s).1.result = .nil ∧
    (resourceArmKeyVaultSecretUpdate d meta s).1.d.Id = newID ∧
    newID ≠ d.Id ∧
    (resourceArmKeyVaultSecretUpdate d meta s).1.d.version = newChild.Version ∧
    (resourceArmKeyVaultSecretUpdate d meta s).1.calls =
      [.GetKeyVaultIDFromBaseUrl id.KeyVaultBaseUrl, .KeyVaultExists keyVaultId,
       .SetSecret id.KeyVaultBaseUrl id.Name (secretSetParametersOf meta d),
       .GetSecret id.KeyVaultBaseUrl id.Name ""] ++ readCalls newChild keyVaultId ∧
    (∀ base name version parameters,
      KeyVaultCall.UpdateSecret base name version parameters ∉
        (resourceArmKeyVaultSecretUpdate d meta s).1.calls) := by
  obtain ⟨item, hmem, hmatch⟩ := hex
  cases hfind : page.find? (itemMatches newChild.Name) with
  | none => exact absurd hmatch (List.find?_eq_none.mp hfind item hmem)
  | some secret =>
    have hrun : resourceArmKeyVaultSecretUpdate d meta s =
        ({ d := setSecretFields meta { d with Id := newID } keyVaultId newChild secret,
           calls := [.GetKeyVaultIDFromBaseUrl id.KeyVaultBaseUrl, .KeyVaultExists keyVaultId,
             .SetSecret id.KeyVaultBaseUrl id.Name (secretSetParametersOf meta d),
             .GetSecret id.KeyVaultBaseUrl id.Name ""] ++ readCalls newChild keyVaultId,
           result := .nil }, s5) := by
      have hr := resourceArmKeyVaultSecretRead_page { d with Id := newID } meta s4 s5
        [.GetKeyVaultIDFromBaseUrl id.KeyVaultBaseUrl, .KeyVaultExists keyVaultId,
         .SetSecret id.KeyVaultBaseUrl id.Name (secretSetParametersOf meta d),
         .GetSecret id.KeyVaultBaseUrl id.Name ""] newChild keyVaultId page hnew hlist hwf
      rw [hfind] at hr
      simp only [resourceArmKeyVaultSecretUpdate, hid, hvault, hexists, hset, hget, hread, hnew,
        if_pos hchange, List.singleton_append, List.cons_append, List.nil_append]
      exact hr
    obtain ⟨f1, f2, _⟩ := setSecretFields_fields meta { d with Id := newID } keyVaultId
      newChild secret
    rw [hrun]
    refine ⟨rfl, f1, ?_, f2, rfl, ?_⟩
    · intro e
      rw [e, hid] at hnew
      simp only [Except.ok.injEq] at hnew
      exact hfresh (hnew ▸ rfl)
    · intro base name version parameters
      simp [readCalls]

/-- C17 on the in-memory vault: the value of the secret `db`, tracked at version
`v1`, changes; the vault assigns the version `v11`. -/
theorem secret_update_version_bump_witness :
    (resourceArmKeyVaultSecretUpdate { secretAt "db" "v1" "x" with value_prior := "old" }
      (vaultMeta false) (vaultWith [plainSecret "a" "v", plainSecret "db" "v1"])).1.result =
      .nil ∧
    (resourceArmKeyVaultSecretUpdate { secretAt "db" "v1" "x" with value_prior := "old" }
      (vaultMeta false) (vaultWith [plainSecret "a" "v", plainSecret "db" "v1"])).1.d.Id =
      secretID "db" "v11" ∧
    secretID "db" "v11" ≠ secretID "db" "v1" ∧
    (resourceArmKeyVaultSecretUpdate { secretAt "db" "v1" "x" with value_prior := "old" }
      (vaultMeta false) (vaultWith [plainSecret "a" "v", plainSecret "db" "v1"])).1.d.version =
      "v11" :=
  have h := secret_update_version_bump { secretAt "db" "v1" "x" with value_prior := "old" }
    (vaultMeta false) (vaultWith [plainSecret "a" "v", plainSecret "db" "v1"]) _ _ _ _ _
    (secretChildID "db" "v1") (secretChildID "db" "v11") vaultResourceID (secretID "db" "v11")
    _ _ _ (by decide) (by decide) rfl rfl rfl rfl rfl (by decide) (by decide)
    ⟨_, _, rfl, rfl, rfl⟩ (by decide) (by decide)
  ⟨h.1, h.2.1, h.2.2.1, h.2.2.2.1⟩

/-- Read adds only vault lookups and the listing to the calls issued before it. -/
theorem resourceArmKeyVaultSecretRead_lookups {σ : Type} (d : SecretResourceData)
    (meta : KeyVaultMeta σ) (s : σ) (calls : List KeyVaultCall) :
    ∃ rest, (resourceArmKeyVaultSecretRead d meta s calls).1.calls = calls ++ rest ∧
      ∀ c ∈ rest, isLookupCall c = true := by
  unfold resourceArmKeyVaultSecretRead
  repeat' split
  all_goals simp only [List.append_assoc]
  all_goals first
    | (refine ⟨_, rfl, ?_⟩; simp [isLookupCall])
    | (refine ⟨[], ?_, ?_⟩ <;> simp)

/-- Update with `value` unchanged and the vault present: the in-place branch. -/
theorem resourceArmKeyVaultSecretUpdate_inplace {σ : Type} (d : SecretResourceData)
    (meta : KeyVaultMeta σ) (s s1 s2 : σ) (id : KeyVaultChildID) (keyVaultId : String)
    (hid : ParseKeyVaultChildID d.Id = .ok id) (hsame : d.value_prior = d.value)
    (hvault : meta.GetKeyVaultIDFromBaseUrl s id.KeyVaultBaseUrl = (.ok (some keyVaultId), s1))
    (hexists : meta.KeyVaultExists s1 keyVaultId = (.ok true, s2)) :
    resourceArmKeyVaultSecretUpdate d meta s =
      match meta.UpdateSecret s2 id.KeyVaultBaseUrl id.Name id.Version
          (secretUpdateParametersOf meta d) with
      | ((_, some err), s3) =>
        ({ d := d,
           calls := [.GetKeyVaultIDFromBaseUrl id.KeyVaultBaseUrl, .KeyVaultExists keyVaultId,
             .UpdateSecret id.KeyVaultBaseUrl id.Name id.Version
               (secretUpdateParametersOf meta d)],
           result := .error err }, s3)
      | ((_, none), s3) =>
        resourceArmKeyVaultSecretRead d meta s3
          [.GetKeyVaultIDFromBaseUrl id.KeyVaultBaseUrl, .KeyVaultExists keyVaultId,
           .UpdateSecret id.KeyVaultBaseUrl id.Name id.Version
             (secretUpdateParametersOf meta d)] := by
  have hno : ¬ d.value_prior ≠ d.value := fun h => h hsame
  simp only [resourceArmKeyVaultSecretUpdate, hid, hvault, hexists, if_neg hno,
    List.singleton_append, List.cons_append, List.nil_append]

/-- C18 fails on the code: on a vault of 30 secrets that holds the tracked
secret as its 28th, an Update with `value` unchanged finds the vault, submits
`UpdateSecret` against the tracked name and version without any `SetSecret` and
returns `nil`, yet the tracked ID after it is the empty string: the tail Read
lists one page of 25 items, does not find the secret there and clears the ID,
where its comments say that it searches the list of all secrets in the Key
Vault. -/
theorem secret_update_inplace_clears_id :
    (secretAt (sampleSecretName 27) "v" "x").value_prior =
      (secretAt (sampleSecretName 27) "v" "x").value ∧
    ((sampleVault 30).find (sampleSecretName 27)).isSome = true ∧
    ((vaultMeta false).GetKeyVaultIDFromBaseUrl (sampleVault 30) vaultBaseUrl).1 =
      .ok (some vaultResourceID) ∧
    ((vaultMeta false).KeyVaultExists (sampleVault 30) vaultResourceID).1 = .ok true ∧
    (resourceArmKeyVaultSecretUpdate (secretAt (sampleSecretName 27) "v" "x") (vaultMeta false)
      (sampleVault 30)).1.result = .nil ∧
    (resourceArmKeyVaultSecretUpdate (secretAt (sampleSecretName 27) "v" "x") (vaultMeta false)
      (sampleVault 30)).1.calls =
      [.GetKeyVaultIDFromBaseUrl vaultBaseUrl, .KeyVaultExists vaultResourceID,
       .UpdateSecret vaultBaseUrl (sampleSecretName 27) "v"
         (secretUpdateParametersOf (vaultMeta false) (secretAt (sampleSecretName 27) "v" "x")),
       .GetKeyVaultIDFromBaseUrl vaultBaseUrl, .KeyVaultExists vaultResourceID,
       .GetSecrets vaultBaseUrl (some 25)] ∧
    (resourceArmKeyVaultSecretUpdate (secretAt (sampleSecretName 27) "v" "x") (vaultMeta false)
      (sampleVault 30)).1.d.Id = "" ∧
    (resourceArmKeyVaultSecretUpdate (secretAt (sampleSecretName 27) "v" "x") (vaultMeta false)
      (sampleVault 30)).1.d.Id ≠ (secretAt (sampleSecretName 27) "v" "x").Id := by
  decide

/-- The in-place Update where the tail Read finds the secret: for every Update
that returns `nil` with `value` unchanged and the parent vault present, the
handler calls `UpdateSecret` against the name and version of the tracked ID,
never calls `SetSecret`, and the tracked ID after Update is the tracked ID
before it or is cleared; it is the tracked ID before it whenever the page that
the tail Read lists holds well-formed items one of which is the secret. -/
theorem secret_update_inplace_keeps_id {σ : Type} (d : SecretResourceData)
    (meta : KeyVaultMeta σ) (s s1 s2 : σ) (id : KeyVaultChildID) (keyVaultId : String)
    (hid : ParseKeyVaultChildID d.Id = .ok id) (hsame : d.value_prior = d.value)
    (hvault : meta.GetKeyVaultIDFromBaseUrl s id.KeyVaultBaseUrl = (.ok (some keyVaultId), s1))
    (hexists : meta.KeyVaultExists s1 keyVaultId = (.ok true, s2))
    (hnil : (resourceArmKeyVaultSecretUpdate d meta s).1.result = .nil) :
    KeyVaultCall.UpdateSecret id.KeyVaultBaseUrl id.Name id.Version
        (secretUpdateParametersOf meta d) ∈ (resourceArmKeyVaultSecretUpdate d meta s).1.calls ∧
    (∀ base name parameters,
      KeyVaultCall.SetSecret base name parameters ∉
        (resourceArmKeyVaultSecretUpdate d meta s).1.calls) ∧
    ((resourceArmKeyVaultSecretUpdate d meta s).1.d.Id = d.Id ∨
      (resourceArmKeyVaultSecretUpdate d meta s).1.d.Id = "") ∧
    (∀ (s4 : σ) (page : List SecretItem),
      ListsPage meta
        (meta.UpdateSecret s2 id.KeyVaultBaseUrl id.Name id.Version
          (secretUpdateParametersOf meta d)).2 id keyVaultId page s4 →
      (∀ item ∈ page, wellFormedItem item = true) →
      (∃ item ∈ page, itemMatches id.Name item = true) →
      (resourceArmKeyVaultSecretUpdate d meta s).1.d.Id = d.Id) := by
  have hrun := resourceArmKeyVaultSecretUpdate_inplace d meta s s1 s2 id keyVaultId hid hsame
    hvault hexists
  rcases hupd : meta.UpdateSecret s2 id.KeyVaultBaseUrl id.Name id.Version
      (secretUpdateParametersOf meta d) with ⟨⟨written, err⟩, s3⟩
  rw [hupd] at hrun
  cases err with
  | some e =>
    simp only at hrun
    rw [hrun] at hnil
    cases hnil
  | none =>
    simp only at hrun
    rw [hrun]
    obtain ⟨rest, hcalls, hrest⟩ := resourceArmKeyVaultSecretRead_lookups d meta s3
      [.GetKeyVaultIDFromBaseUrl id.KeyVaultBaseUrl, .KeyVaultExists keyVaultId,
       .UpdateSecret id.KeyVaultBaseUrl id.Name id.Version (secretUpdateParametersOf meta d)]
    refine ⟨?_, ?_, resourceArmKeyVaultSecretRead_Id _ _ _ _, ?_⟩
    · rw [hcalls]
      simp
    · intro base name parameters hmem
      rw [hcalls] at hmem
      simp only [List.cons_append, List.nil_append, List.mem_cons, reduceCtorEq,
        false_or] at hmem
      have := hrest _ hmem
      simp [isLookupCall] at this
    · intro s4 page hlist hwf hex
      obtain ⟨item, hmem, hmatch⟩ := hex
      rw [resourceArmKeyVaultSecretRead_page d meta s3 s4 _ id keyVaultId page hid hlist hwf]
      cases hfind : page.find? (itemMatches id.Name) with
      | none => exact absurd hmatch (List.find?_eq_none.mp hfind item hmem)
      | some secret => exact (setSecretFields_fields meta d keyVaultId id secret).1

/-- The in-place Update on the in-memory vault holding `a` and `db`: an Update
of `db` with `value` unchanged keeps the tracked ID. -/
theorem secret_update_inplace_keeps_id_witness :
    KeyVaultCall.UpdateSecret vaultBaseUrl "db" "v1"
        (secretUpdateParametersOf (vaultMeta false) (secretAt "db" "v1" "x")) ∈
      (resourceArmKeyVaultSecretUpdate (secretAt "db" "v1" "x") (vaultMeta false)
        (vaultWith [plainSecret "a" "v", plainSecret "db" "v1"])).1.calls ∧
    (resourceArmKeyVaultSecretUpdate (secretAt "db" "v1" "x") (vaultMeta false)
      (vaultWith [plainSecret "a" "v", plainSecret "db" "v1"])).1.d.Id = secretID "db" "v1" :=
  have h := secret_update_inplace_keeps_id (secretAt "db" "v1" "x") (vaultMeta false)
    (vaultWith [plainSecret "a" "v", plainSecret "db" "v1"]) _ _ (secretChildID "db" "v1")
    vaultResourceID (by decide) rfl rfl rfl (by decide)
  ⟨h.1, h.2.2.2 _ _ ⟨_, _, rfl, rfl, rfl⟩ (by decide) (by decide)⟩

/-! ### Key Vault secret: a vault that is gone -/

/-- C19 fails as stated: when the resource ID of the vault cannot be determined
from the base URL, Update and Delete return an error and keep the tracked ID. -/
theorem secret_update_delete_unresolved_vault :
    (resourceArmKeyVaultSecretUpdate (secretAt "db" "v1" "x") (vaultMeta false)
        { vaultWith [plainSecret "db" "v1"] with vaultKnown := false }).1.result =
      .error (.errorf "Unable to determine the Resource ID for the Key Vault at URL %q"
        [vaultBaseUrl]) ∧
    (resourceArmKeyVaultSecretUpdate (secretAt "db" "v1" "x") (vaultMeta false)
        { vaultWith [plainSecret "db" "v1"] with vaultKnown := false }).1.d.Id =
      secretID "db" "v1" ∧
    (resourceArmKeyVaultSecretDelete (secretAt "db" "v1" "x") (vaultMeta false)
        { vaultWith [plainSecret "db" "v1"] with vaultKnown := false }).1.result =
      .error (.errorf "Unable to determine the Resource ID for the Key Vault at URL %q"
        [vaultBaseUrl]) ∧
    (resourceArmKeyVaultSecretDelete (secretAt "db" "v1" "x") (vaultMeta false)
        { vaultWith [plainSecret "db" "v1"] with vaultKnown := false }).1.d.Id =
      secretID "db" "v1" := by
  decide

/-- C19 (amended): for a secret ID that parses, when the vault existence check
answers false, Update and Delete clear the tracked ID, change nothing else and
return `nil`; when the resource ID of the vault cannot be determined from the
base URL, they return an error and leave the state as it was; in both cases
they issue the vault lookups only and submit no write. -/
theorem secret_update_delete_vault_gone {σ : Type} (d : SecretResourceData)
    (meta : KeyVaultMeta σ) (s : σ) (id : KeyVaultChildID)
    (hid : ParseKeyVaultChildID d.Id = .ok id) :
    (∀ s1 s2 keyVaultId,
      meta.GetKeyVaultIDFromBaseUrl s id.KeyVaultBaseUrl = (.ok (some keyVaultId), s1) →
      meta.KeyVaultExists s1 keyVaultId = (.ok false, s2) →
      resourceArmKeyVaultSecretUpdate d meta s =
        ({ d := { d with Id := "" },
           calls := [.GetKeyVaultIDFromBaseUrl id.KeyVaultBaseUrl, .KeyVaultExists keyVaultId],
           result := .nil }, s2) ∧
      resourceArmKeyVaultSecretDelete d meta s =
        ({ d := { d with Id := "" },
           calls := [.GetKeyVaultIDFromBaseUrl id.KeyVaultBaseUrl, .KeyVaultExists keyVaultId],
           result := .nil }, s2)) ∧
    (∀ s1, meta.GetKeyVaultIDFromBaseUrl s id.KeyVaultBaseUrl = (.ok none, s1) →
      resourceArmKeyVaultSecretUpdate d meta s =
        ({ d := d, calls := [.GetKeyVaultIDFromBaseUrl id.KeyVaultBaseUrl],
           result := .error (.errorf
             "Unable to determine the Resource ID for the Key Vault at URL %q"
             [id.KeyVaultBaseUrl]) }, s1) ∧
      resourceArmKeyVaultSecretDelete d meta s =
        ({ d := d, calls := [.GetKeyVaultIDFromBaseUrl id.KeyVaultBaseUrl],
           result := .error (.errorf
             "Unable to determine the Resource ID for the Key Vault at URL %q"
             [id.KeyVaultBaseUrl]) }, s1)) := by
  constructor
  · intro s1 s2 keyVaultId h1 h2
    simp [resourceArmKeyVaultSecretUpdate, resourceArmKeyVaultSecretDelete, hid, h1, h2]
  · intro s1 h1
    simp [resourceArmKeyVaultSecretUpdate, resourceArmKeyVaultSecretDelete, hid, h1]

/-- C19 (amended) on the in-memory vault: once with a vault that no longer
exists, once with a vault that cannot be resolved. -/
theorem secret_update_delete_vault_gone_witness :
    (resourceArmKeyVaultSecretUpdate (secretAt "db" "v1" "x") (vaultMeta false)
        { vaultWith [plainSecret "db" "v1"] with vaultExists := false } =
      ({ d := { secretAt "db" "v1" "x" with Id := "" },
         calls := [.GetKeyVaultIDFromBaseUrl vaultBaseUrl, .KeyVaultExists vaultResourceID],
         result := .nil }, { vaultWith [plainSecret "db" "v1"] with vaultExists := false }) ∧
      resourceArmKeyVaultSecretDelete (secretAt "db" "v1" "x") (vaultMeta false)
        { vaultWith [plainSecret "db" "v1"] with vaultExists := false } =
      ({ d := { secretAt "db" "v1" "x" with Id := "" },
         calls := [.GetKeyVaultIDFromBaseUrl vaultBaseUrl, .KeyVaultExists vaultResourceID],
         result := .nil }, { vaultWith [plainSecret "db" "v1"] with vaultExists := false })) ∧
    (resourceArmKeyVaultSecretDelete (secretAt "db" "v1" "x") (vaultMeta false)
        { vaultWith [plainSecret "db" "v1"] with vaultKnown := false } =
      ({ d := secretAt "db" "v1" "x", calls := [.GetKeyVaultIDFromBaseUrl vaultBaseUrl],
         result := .error (.errorf
           "Unable to determine the Resource ID for the Key Vault at URL %q" [vaultBaseUrl]) },
       { vaultWith [plainSecret "db" "v1"] with vaultKnown := false })) :=
  ⟨(secret_update_delete_vault_gone (secretAt "db" "v1" "x") (vaultMeta false)
      { vaultWith [plainSecret "db" "v1"] with vaultExists := false }
      (secretChildID "db" "v1") (by decide)).1 _ _ vaultResourceID rfl rfl,
   ((secret_update_delete_vault_gone (secretAt "db" "v1" "x") (vaultMeta false)
      { vaultWith [plainSecret "db" "v1"] with vaultKnown := false }
      (secretChildID "db" "v1") (by decide)).2
      { vaultWith [plainSecret "db" "v1"] with vaultKnown := false } rfl).2⟩

/-! ### Delete twice -/

/-- C20 fails on the code for the Key Vault secret: against the in-memory vault,
where a deleted secret is absent and later calls on it answer not-found, the
first Delete of the secret `db` returns `nil` and the second Delete on the same
identifier returns the not-found error of `DeleteSecret`.  The flow-log Delete,
against the in-memory flow-log service, returns `nil` both times. -/
theorem secret_delete_twice_fails :
    (resourceArmKeyVaultSecretDelete (secretAt "db" "v1" "x") (vaultMeta false)
      (vaultWith [plainSecret "db" "v1"])).1.result = .nil ∧
    (resourceArmKeyVaultSecretDelete (secretAt "db" "v1" "x") (vaultMeta false)
      (vaultWith [plainSecret "db" "v1"])).1.d = secretAt "db" "v1" "x" ∧
    (resourceArmKeyVaultSecretDelete (secretAt "db" "v1" "x") (vaultMeta false)
      (resourceArmKeyVaultSecretDelete (secretAt "db" "v1" "x") (vaultMeta false)
        (vaultWith [plainSecret "db" "v1"])).2).1.result = .error (remoteFailure 404) ∧
    (resourceArmNetworkWatcherFlowLogDelete (sampleTrackedFlowLog true) flowLogStoreClient
      (some storedFlowLog)).1.result = .nil ∧
    (resourceArmNetworkWatcherFlowLogDelete (sampleTrackedFlowLog true) flowLogStoreClient
      (resourceArmNetworkWatcherFlowLogDelete (sampleTrackedFlowLog true) flowLogStoreClient
        (some storedFlowLog)).2).1.result = .nil := by
  decide

/-! ### Flow log: the drift predicates and the retention policy -/

/-- C22: the two retention-policy drift predicates are functions of the observed
value `old` and of the `enabled` toggle alone: two calls that agree on them
return the same result, whatever the keys, the declared values and the other
fields of the two states are.  (A predicate returns a `Bool` and nothing else:
it has no way to change the state it is given.) -/
theorem suppress_predicates_pure (k k' old new new' : String) (d d' : FlowLogResourceData)
    (h : d.enabled = d'.enabled) :
    azureRMSuppressFlowLogRetentionPolicyEnabledDiff k old new d =
      azureRMSuppressFlowLogRetentionPolicyEnabledDiff k' old new' d' ∧
    azureRMSuppressFlowLogRetentionPolicyDaysDiff k old new d =
      azureRMSuppressFlowLogRetentionPolicyDaysDiff k' old new' d' := by
  simp [azureRMSuppressFlowLogRetentionPolicyEnabledDiff,
    azureRMSuppressFlowLogRetentionPolicyDaysDiff, h]

/-- C22 on two calls with different keys, declared values and states that agree
on the observed value `0` and on a disabled toggle. -/
theorem suppress_predicates_pure_witness :
    azureRMSuppressFlowLogRetentionPolicyEnabledDiff "retention_policy.0.enabled" "0" "30"
        (sampleFlowLog false) =
      azureRMSuppressFlowLogRetentionPolicyEnabledDiff "retention_policy.0.days" "0" "7"
        (sampleTrackedFlowLog false) ∧
    azureRMSuppressFlowLogRetentionPolicyDaysDiff "retention_policy.0.enabled" "0" "30"
        (sampleFlowLog false) =
      azureRMSuppressFlowLogRetentionPolicyDaysDiff "retention_policy.0.days" "0" "7"
        (sampleTrackedFlowLog false) :=
  suppress_predicates_pure "retention_policy.0.enabled" "retention_policy.0.days" "0" "30" "7"
    (sampleFlowLog false) (sampleTrackedFlowLog false) rfl

theorem toInt32_of_range (n : Int) (h1 : -2147483648 ≤ n) (h2 : n < 2147483648) :
    toInt32 n = n := by
  unfold toInt32
  omega

theorem toInt32_range (n : Int) :
    -2147483648 ≤ toInt32 n ∧ toInt32 n < 2147483648 ∧ (toInt32 n - n) % 4294967296 = 0 := by
  unfold toInt32
  omega

/-- C29: the retention-policy expansion returns nothing for an empty list and
for a list whose first element is `nil`; the flattening of a missing input is
the empty list; for every flag `e` and every `n` with `-2^31 ≤ n < 2^31`,
flattening the expansion of one block `(e, n)` gives exactly one map with
`enabled = e` and `days = n`; and for every `n` at all the expanded `Days` lies
in the signed 32-bit range and is congruent to `n` modulo `2^32`. -/
theorem retention_policy_roundtrip (d : FlowLogResourceData) (e : Bool) (n : Int) :
    expandAzureRmNetworkWatcherFlowLogRetentionPolicy { d with retention_policy := [] } =
      none ∧
    (∀ rest, expandAzureRmNetworkWatcherFlowLogRetentionPolicy
      { d with retention_policy := none :: rest } = none) ∧
    flattenAzureRmNetworkWatcherFlowLogRetentionPolicy none = [] ∧
    (-2147483648 ≤ n → n < 2147483648 →
      flattenAzureRmNetworkWatcherFlowLogRetentionPolicy
        (expandAzureRmNetworkWatcherFlowLogRetentionPolicy
          { d with retention_policy := [some { enabled := e, days := n }] }) =
        [{ enabled := some e, days := some n }]) ∧
    (∃ days, expandAzureRmNetworkWatcherFlowLogRetentionPolicy
        { d with retention_policy := [some { enabled := e, days := n }] } =
        some { Enabled := some e, Days := some days } ∧
      -2147483648 ≤ days ∧ days < 2147483648 ∧ (days - n) % 4294967296 = 0) := by
  refine ⟨rfl, fun _ => rfl, rfl, fun h1 h2 => ?_, toInt32 n, rfl, toInt32_range n⟩
  simp [expandAzureRmNetworkWatcherFlowLogRetentionPolicy,
    flattenAzureRmNetworkWatcherFlowLogRetentionPolicy, toInt32_of_range n h1 h2]

/-- C29 at 30 days, and at `2^31` days, which expands to `-2^31`. -/
theorem retention_policy_roundtrip_witness :
    flattenAzureRmNetworkWatcherFlowLogRetentionPolicy
        (expandAzureRmNetworkWatcherFlowLogRetentionPolicy
          { sampleFlowLog true with retention_policy := [some { enabled := true, days := 30 }] }) =
      [{ enabled := some true, days := some 30 }] ∧
    expandAzureRmNetworkWatcherFlowLogRetentionPolicy
        { sampleFlowLog true with
          retention_policy := [some { enabled := true, days := 2147483648 }] } =
      some { Enabled := some true, Days := some (-2147483648) } :=
  ⟨(retention_policy_roundtrip (sampleFlowLog true) true 30).2.2.2.1 (by decide) (by decide),
   by decide⟩

/-! ### Flow log: Delete and Read -/

/-- C21: for a flow-log ID that parses, Delete submits the remote delete exactly
when the preceding Get succeeds and reports the flow log as enabled.  When the
Get answers not-found, Delete clears the tracked ID and returns `nil`; when the
Get succeeds and the properties or `enabled` are missing or `enabled` is false,
Delete returns `nil`; in both cases only the Get is issued.  When `enabled` is
true, Delete calls the client's Delete and waits for completion, returns an
error if either step fails and `nil` otherwise. -/
theorem flow_log_delete_when_enabled {σ : Type} (d : FlowLogResourceData)
    (client : FlowLogsClient σ) (s s1 : σ) (id : NetworkWatcherFlowLogAccountID)
    (resp : FlowLog) (err : Option GoError)
    (hid : ParseNetworkWatcherFlowLogID d.Id = .ok id)
    (hget : client.Get s id.ResourceGroup id.NetworkWatcherName id.FlowLogName =
      ((resp, err), s1)) :
    (err ≠ none → ResponseWasNotFound resp.Response = true →
      resourceArmNetworkWatcherFlowLogDelete d client s =
        ({ d := { d with Id := "" },
           calls := [.Get id.ResourceGroup id.NetworkWatcherName id.FlowLogName],
           result := .nil }, s1)) ∧
    (err = none → reportsEnabled resp = false →
      resourceArmNetworkWatcherFlowLogDelete d client s =
        ({ d := d, calls := [.Get id.ResourceGroup id.NetworkWatcherName id.FlowLogName],
           result := .nil }, s1)) ∧
    (err = none → reportsEnabled resp = true →
      (∀ e s2, client.Delete s1 id.ResourceGroup id.NetworkWatcherName id.FlowLogName =
          (some e, s2) →
        resourceArmNetworkWatcherFlowLogDelete d client s =
          ({ d := d,
             calls := [.Get id.ResourceGroup id.NetworkWatcherName id.FlowLogName,
                       .Delete id.ResourceGroup id.NetworkWatcherName id.FlowLogName],
             result := .error (.wrapf "Error deleting Flow Log %q: %+v" [d.Id] e) }, s2)) ∧
      (∀ s2 waited s3,
        client.Delete s1 id.ResourceGroup id.NetworkWatcherName id.FlowLogName = (none, s2) →
        client.WaitForDelete s2 = (waited, s3) →
        resourceArmNetworkWatcherFlowLogDelete d client s =
          ({ d := d,
             calls := [.Get id.ResourceGroup id.NetworkWatcherName id.FlowLogName,
                       .Delete id.ResourceGroup id.NetworkWatcherName id.FlowLogName,
                       .WaitForDelete],
             result :=
               match waited with
               | some e => .error (.wrapf
                   "Error waiting for completion of Flow Log deletion %q: %+v" [d.Id] e)
               | none => .nil }, s3))) ∧
    ((∃ resourceGroup watcher name,
        FlowLogsCall.Delete resourceGroup watcher name ∈
          (resourceArmNetworkWatcherFlowLogDelete d client s).1.calls) ↔
      (err = none ∧ reportsEnabled resp = true)) := by
  refine ⟨?_, ?_, ?_, ?_⟩
  · intro herr hnf
    cases err with
    | none => exact absurd rfl herr
    | some e => simp [resourceArmNetworkWatcherFlowLogDelete, hid, hget, hnf]
  · intro herr hen
    subst herr
    unfold reportsEnabled at hen
    simp [resourceArmNetworkWatcherFlowLogDelete, hid, hget, hen]
  · intro herr hen
    subst herr
    unfold reportsEnabled at hen
    constructor
    · intro e s2 hdel
      simp [resourceArmNetworkWatcherFlowLogDelete, hid, hget, hen, hdel]
    · intro s2 waited s3 hdel hwait
      cases waited <;>
        simp [resourceArmNetworkWatcherFlowLogDelete, hid, hget, hen, hdel, hwait]
  · cases err with
    | some e =>
      by_cases hnf : ResponseWasNotFound resp.Response = true <;>
        simp [resourceArmNetworkWatcherFlowLogDelete, hid, hget, hnf]
    | none =>
      cases hen : reportsEnabled resp
      · unfold reportsEnabled at hen
        simp [resourceArmNetworkWatcherFlowLogDelete, hid, hget, hen]
      · unfold reportsEnabled at hen
        rcases hdel : client.Delete s1 id.ResourceGroup id.NetworkWatcherName id.FlowLogName
          with ⟨e, s2⟩
        cases e with
        | some e => simp [resourceArmNetworkWatcherFlowLogDelete, hid, hget, hen, hdel]
        | none =>
          rcases hwait : client.WaitForDelete s2 with ⟨w, s3⟩
          cases w <;>
            simp [resourceArmNetworkWatcherFlowLogDelete, hid, hget, hen, hdel, hwait]

/-- C21 against the in-memory flow-log service: Delete of an absent, of a
disabled and of an enabled flow log. -/
theorem flow_log_delete_when_enabled_witness :
    resourceArmNetworkWatcherFlowLogDelete (sampleTrackedFlowLog true) flowLogStoreClient none =
      ({ d := { sampleTrackedFlowLog true with Id := "" }, calls := [.Get "rg1" "w1" "f1"],
         result := .nil }, none) ∧
    resourceArmNetworkWatcherFlowLogDelete (sampleTrackedFlowLog true) flowLogStoreClient
        (some disabledFlowLog) =
      ({ d := sampleTrackedFlowLog true, calls := [.Get "rg1" "w1" "f1"], result := .nil },
       some disabledFlowLog) ∧
    resourceArmNetworkWatcherFlowLogDelete (sampleTrackedFlowLog true) flowLogStoreClient
        (some storedFlowLog) =
      ({ d := sampleTrackedFlowLog true,
         calls := [.Get "rg1" "w1" "f1", .Delete "rg1" "w1" "f1", .WaitForDelete],
         result := .nil }, none) :=
  ⟨(flow_log_delete_when_enabled (sampleTrackedFlowLog true) flowLogStoreClient none none
      sampleFlowLogAccountID _ (some (remoteFailure 404)) (by decide) rfl).1
      (by decide) (by decide),
   (flow_log_delete_when_enabled (sampleTrackedFlowLog true) flowLogStoreClient
      (some disabledFlowLog) (some disabledFlowLog) sampleFlowLogAccountID disabledFlowLog none
      (by decide) rfl).2.1 rfl (by decide),
   ((flow_log_delete_when_enabled (sampleTrackedFlowLog true) flowLogStoreClient
      (some storedFlowLog) (some storedFlowLog) sampleFlowLogAccountID storedFlowLog none
      (by decide) rfl).2.2.1 rfl (by decide)).2 none none none rfl rfl⟩

/-- C23: for a flow-log ID that parses and a Get that succeeds, Read leaves
`storage_account_id` as it was when the response reports no storage ID or the
empty string, and sets it to the reported storage ID when that is non-empty. -/
theorem flow_log_read_storage_account_id {σ : Type} (d : FlowLogResourceData)
    (client : FlowLogsClient σ) (s s1 : σ) (calls : List FlowLogsCall)
    (id : NetworkWatcherFlowLogAccountID) (resp : FlowLog)
    (hid : ParseNetworkWatcherFlowLogID d.Id = .ok id)
    (hget : client.Get s id.ResourceGroup id.NetworkWatcherName id.FlowLogName =
      ((resp, none), s1)) :
    ((reportedStorageID resp = none ∨ reportedStorageID resp = some "") →
      (resourceArmNetworkWatcherFlowLogRead d client s calls).1.d.storage_account_id =
        d.storage_account_id) ∧
    (∀ storageID, reportedStorageID resp = some storageID → storageID ≠ "" →
      (resourceArmNetworkWatcherFlowLogRead d client s calls).1.d.storage_account_id =
        storageID) := by
  unfold reportedStorageID
  cases hprops : resp.FlowLogPropertiesFormat with
  | none =>
    simp [resourceArmNetworkWatcherFlowLogRead, hid, hget, hprops]
  | some props =>
    cases hfmt : props.Format <;> cases hsid : props.StorageID <;>
      simp [resourceArmNetworkWatcherFlowLogRead, hid, hget, hprops, hfmt, hsid]
    all_goals (constructor <;> intro h <;> simp [h])

/-- C23 against the in-memory flow-log service: a disabled flow log, reported
with an empty storage ID, and an enabled one, reported with the storage ID `sa`. -/
theorem flow_log_read_storage_account_id_witness :
    (resourceArmNetworkWatcherFlowLogRead
        { sampleTrackedFlowLog true with storage_account_id := "declared" } flowLogStoreClient
        (some disabledFlowLog) []).1.d.storage_account_id = "declared" ∧
    (resourceArmNetworkWatcherFlowLogRead
        { sampleTrackedFlowLog true with storage_account_id := "declared" } flowLogStoreClient
        (some storedFlowLog) []).1.d.storage_account_id = "sa" :=
  ⟨(flow_log_read_storage_account_id
      { sampleTrackedFlowLog true with storage_account_id := "declared" } flowLogStoreClient
      (some disabledFlowLog) (some disabledFlowLog) [] sampleFlowLogAccountID disabledFlowLog
      (by decide) rfl).1 (Or.inr rfl),
   (flow_log_read_storage_account_id
      { sampleTrackedFlowLog true with storage_account_id := "declared" } flowLogStoreClient
      (some storedFlowLog) (some storedFlowLog) [] sampleFlowLogAccountID storedFlowLog
      (by decide) rfl).2 "sa" rfl (by decide)⟩

/-! ### Configuration set: an ID without server; secret Update: a re-read without ID -/

/-- C25 fails on the code: on the ID of a resource group, which the generic
parser accepts and which has no `servers` segment, the MySQL and the PostgreSQL
Read issue the listing call with the empty server name and, when it answers,
return `nil`. -/
theorem configuration_set_read_without_server :
    ParseAzureResourceID "/subscriptions/sub1/resourceGroups/rg1" =
      .ok { SubscriptionID := "sub1", ResourceGroup := "rg1", Provider := "", Path := [] } ∧
    ¬ hasSegment "/subscriptions/sub1/resourceGroups/rg1" "servers" ∧
    resourceArmMySQLConfigurationSetRead
        (configurationSetAt "/subscriptions/sub1/resourceGroups/rg1")
        (listingClient (listingOf [])) =
      { d := { Id := "/subscriptions/sub1/resourceGroups/rg1", config_map := [],
               resource_group_name := "rg1", server_name := "" },
        calls := [.ListByServer "rg1" ""], result := .nil } ∧
    resourceArmPostgreSQLConfigurationSetRead
        (configurationSetAt "/subscriptions/sub1/resourceGroups/rg1")
        (listingClient (listingOf [])) =
      { d := { Id := "/subscriptions/sub1/resourceGroups/rg1", config_map := [],
               resource_group_name := "rg1", server_name := "" },
        calls := [.ListByServer "rg1" ""], result := .nil } := by
  decide

/-- C28 fails on the code: when `value` changed, `SetSecret` succeeded and the
re-read answers without error with a payload that has no ID, Update dereferences
the missing ID: it ends in a panic, not in an error, after the submission and
the re-read. -/
theorem secret_update_reread_without_id {σ : Type} (d : SecretResourceData)
    (meta : KeyVaultMeta σ) (s s1 s2 s3 s4 : σ) (id : KeyVaultChildID) (keyVaultId : String)
    (written read : SecretBundle)
    (hid : ParseKeyVaultChildID d.Id = .ok id)
    (hvault : meta.GetKeyVaultIDFromBaseUrl s id.KeyVaultBaseUrl = (.ok (some keyVaultId), s1))
    (hexists : meta.KeyVaultExists s1 keyVaultId = (.ok true, s2))
    (hchanged : d.value_prior ≠ d.value)
    (hset : meta.SetSecret s2 id.KeyVaultBaseUrl id.Name (secretSetParametersOf meta d) =
      ((written, none), s3))
    (hread : meta.GetSecret s3 id.KeyVaultBaseUrl id.Name "" = ((read, none), s4))
    (hnoID : read.ID = none) :
    resourceArmKeyVaultSecretUpdate d meta s =
      ({ d := d,
         calls := [.GetKeyVaultIDFromBaseUrl id.KeyVaultBaseUrl, .KeyVaultExists keyVaultId,
                   .SetSecret id.KeyVaultBaseUrl id.Name (secretSetParametersOf meta d),
                   .GetSecret id.KeyVaultBaseUrl id.Name ""],
         result := .panic }, s4) := by
  simp [resourceArmKeyVaultSecretUpdate, hid, hvault, hexists, hchanged, hset, hread, hnoID]

/-- C28 on the in-memory vault whose re-read carries no ID: Update of the secret
`db` with a new value panics, where Create of the same secret returns the error
`Cannot read KeyVault Secret`. -/
theorem secret_update_reread_without_id_witness :
    (resourceArmKeyVaultSecretUpdate { secretAt "db" "v" "new" with value_prior := "old" }
        (vaultMetaWithoutReadID false) (vaultWith [plainSecret "db" "v"])).1.result = .panic ∧
    (resourceArmKeyVaultSecretUpdate { secretAt "db" "v" "new" with value_prior := "old" }
        (vaultMetaWithoutReadID false) (vaultWith [plainSecret "db" "v"])).1.d.Id =
      secretID "db" "v" ∧
    (resourceArmKeyVaultSecretCreate (newSecret "db" "new") (vaultMetaWithoutReadID false)
        (vaultWith [])).1.result =
      .error (.errorf "Cannot read KeyVault Secret '%s' (in key vault '%s')"
        ["db", vaultBaseUrl]) :=
  have h := secret_update_reread_without_id
    { secretAt "db" "v" "new" with value_prior := "old" } (vaultMetaWithoutReadID false)
    (vaultWith [plainSecret "db" "v"]) (vaultWith [plainSecret "db" "v"])
    (vaultWith [plainSecret "db" "v"])
    ((vaultMetaWithoutReadID false).SetSecret (vaultWith [plainSecret "db" "v"]) vaultBaseUrl
      "db" (secretSetParametersOf (vaultMetaWithoutReadID false)
        { secretAt "db" "v" "new" with value_prior := "old" })).2
    ((vaultMetaWithoutReadID false).SetSecret (vaultWith [plainSecret "db" "v"]) vaultBaseUrl
      "db" (secretSetParametersOf (vaultMetaWithoutReadID false)
        { secretAt "db" "v" "new" with value_prior := "old" })).2
    (secretChildID "db" "v") vaultResourceID
    { Response := { StatusCode := some 200 }, ID := some (secretID "db" "v1") }
    { Response := { StatusCode := some 200 }, ID := none }
    (by decide) rfl rfl (by decide) rfl rfl rfl
  ⟨by rw [h], by rw [h]; rfl, by decide⟩

/-! ### Key Vault secret: the search of Read and malformed item IDs -/

/-- On a page whose items all have an ID, the loop of Read ends with the format
error exactly when some item of fewer than 4 parts has no matching item in front
of it. -/
theorem searchSecret_unexpectedFormat_iff (name : String) (page : List SecretItem)
    (hIDs : ∀ item ∈ page, item.ID ≠ none) :
    (∃ itemID, searchSecret name page = .unexpectedFormat itemID) ↔
      ∃ pre item post, page = pre ++ item :: post ∧ malformedItem item = true ∧
        ∀ x ∈ pre, itemMatches name x = false := by
  induction page with
  | nil => simp [searchSecret]
  | cons item rest ih =>
    have hrest := ih (fun i hi => hIDs i (List.mem_cons_of_mem _ hi))
    cases hID : item.ID with
    | none => exact absurd hID (hIDs item (by simp))
    | some itemID =>
      by_cases hlen : (secretParts itemID).length < 4
      · constructor
        · intro _
          exact ⟨[], item, rest, rfl, by simp [malformedItem, hID, hlen], by simp⟩
        · intro _
          exact ⟨itemID, by simp [searchSecret, hID, hlen]⟩
      · by_cases hm : (secretParts itemID).getLast? = some name
        · constructor
          · intro ⟨bad, h⟩
            simp [searchSecret, hID, hlen, hm] at h
          · rintro ⟨pre, x, post, hpage, hbad, hpre⟩
            cases pre with
            | nil =>
              simp only [List.nil_append, List.cons.injEq] at hpage
              rw [← hpage.1] at hbad
              simp [malformedItem, hID, hlen] at hbad
            | cons p pre' =>
              simp only [List.cons_append, List.cons.injEq] at hpage
              have := hpre p (by simp)
              rw [← hpage.1] at this
              simp [itemMatches, hID, hm] at this
        · have hstep : searchSecret name (item :: rest) = searchSecret name rest := by
            simp [searchSecret, hID, hlen, hm]
          rw [hstep, hrest]
          constructor
          · rintro ⟨pre, x, post, hpage, hbad, hpre⟩
            refine ⟨item :: pre, x, post, by simp [hpage], hbad, ?_⟩
            intro y hy
            rcases List.mem_cons.mp hy with rfl | hy
            · simp [itemMatches, hID, hm]
            · exact hpre y hy
          · rintro ⟨pre, x, post, hpage, hbad, hpre⟩
            cases pre with
            | nil =>
              simp only [List.nil_append, List.cons.injEq] at hpage
              rw [← hpage.1] at hbad
              simp [malformedItem, hID, hlen] at hbad
            | cons p pre' =>
              simp only [List.cons_append, List.cons.injEq] at hpage
              exact ⟨pre', x, post, hpage.2, hbad,
                fun y hy => hpre y (List.mem_cons_of_mem _ hy)⟩

/-- The loop of Read stops at a well-formed matching item that follows
well-formed items without a match, whatever comes after it. -/
theorem searchSecret_stops (name : String) (pre post : List SecretItem) (m : SecretItem)
    (hpre : ∀ x ∈ pre, wellFormedItem x = true ∧ itemMatches name x = false)
    (hwf : wellFormedItem m = true) (hm : itemMatches name m = true) :
    searchSecret name (pre ++ m :: post) = .found m := by
  induction pre with
  | nil =>
    cases hID : m.ID with
    | none => simp [wellFormedItem, hID] at hwf
    | some itemID =>
      simp only [wellFormedItem, hID, decide_eq_true_eq] at hwf
      simp only [itemMatches, hID, decide_eq_true_eq] at hm
      have hlen : ¬ (secretParts itemID).length < 4 := by omega
      simp [searchSecret, hID, hlen, hm]
  | cons x pre' ih =>
    have hx := hpre x (by simp)
    have hrest := ih (fun y hy => hpre y (List.mem_cons_of_mem _ hy))
    cases hID : x.ID with
    | none => simp [wellFormedItem, hID] at hx
    | some itemID =>
      simp only [wellFormedItem, itemMatches, hID, decide_eq_true_eq,
        decide_eq_false_iff_not] at hx
      have hlen : ¬ (secretParts itemID).length < 4 := by omega
      simp [searchSecret, hID, hlen, hx.2, hrest]

/-- C30 as stated fails: the page holds the single item with ID `db`, whose last
part is the tracked name `db`, so that item is the first matching item and no
item occurs before it; the ID has fewer than 4 parts and Read returns the format
error, because the number of parts is tested before the name is compared. -/
theorem secret_read_malformed_matching_item :
    itemMatches "db" (itemWithID "db") = true ∧
    [itemWithID "db"].findIdx (itemMatches "db") = 0 ∧
    malformedItem (itemWithID "db") = true ∧
    (resourceArmKeyVaultSecretRead (secretAt "db" "v" "x") (pageMeta [itemWithID "db"])
        (vaultWith []) []).1.result =
      .error (.errorf "Unexpected Key Vault Secret ID format: %+v" ["db"]) := by
  decide

/-- C30, amended: when the listing succeeds with a page whose items all have an
ID, Read returns the `Unexpected Key Vault Secret ID format` error if and only
if the page holds an item of fewer than 4 parts with no item in front of it
whose last part is the tracked name; and whenever the page starts with
well-formed items without a match followed by a well-formed matching item, Read
returns `nil` with the fields of that item, whatever items come after it. -/
theorem secret_read_unexpected_format {σ : Type} (d : SecretResourceData)
    (meta : KeyVaultMeta σ) (s s' : σ) (id : KeyVaultChildID) (keyVaultId : String)
    (page : List SecretItem) (hid : ParseKeyVaultChildID d.Id = .ok id)
    (hlist : ListsPage meta s id keyVaultId page s') :
    ((∀ item ∈ page, item.ID ≠ none) →
      ((∃ itemID, (resourceArmKeyVaultSecretRead d meta s []).1.result =
          .error (.errorf "Unexpected Key Vault Secret ID format: %+v" [itemID])) ↔
        ∃ pre item post, page = pre ++ item :: post ∧ malformedItem item = true ∧
          ∀ x ∈ pre, itemMatches id.Name x = false)) ∧
    (∀ pre m post, page = pre ++ m :: post →
      (∀ x ∈ pre, wellFormedItem x = true ∧ itemMatches id.Name x = false) →
      wellFormedItem m = true → itemMatches id.Name m = true →
      resourceArmKeyVaultSecretRead d meta s [] =
        ({ d := setSecretFields meta d keyVaultId id m, calls := readCalls id keyVaultId,
           result := .nil }, s')) := by
  obtain ⟨s1, s2, h1, h2, h3⟩ := hlist
  constructor
  · intro hIDs
    rw [← searchSecret_unexpectedFormat_iff id.Name page hIDs]
    simp only [resourceArmKeyVaultSecretRead, hid, h1, h2, h3]
    cases hsearch : searchSecret id.Name page <;> simp
  · intro pre m post hpage hpre hwf hm
    have hsearch := searchSecret_stops id.Name pre post m hpre hwf hm
    rw [← hpage] at hsearch
    simp [resourceArmKeyVaultSecretRead, hid, h1, h2, h3, hsearch, readCalls]

/-- C30, amended, on two pages listed for the secret `db`: the listing
entry of `a`, then the 3-part ID `x/y/z`, then the entry of `db`, where Read returns the format error;
and `a`, then `db`, then `x/y/z`, where Read returns `nil`. -/
theorem secret_read_unexpected_format_witness :
    (∃ itemID, (resourceArmKeyVaultSecretRead (secretAt "db" "v" "x")
        (pageMeta [(plainSecret "a" "v").item, itemWithID "x/y/z",
          (plainSecret "db" "v").item]) (vaultWith []) []).1.result =
      .error (.errorf "Unexpected Key Vault Secret ID format: %+v" [itemID])) ∧
    (resourceArmKeyVaultSecretRead (secretAt "db" "v" "x")
        (pageMeta [(plainSecret "a" "v").item, (plainSecret "db" "v").item,
          itemWithID "x/y/z"]) (vaultWith []) []).1.result = .nil :=
  ⟨((secret_read_unexpected_format (secretAt "db" "v" "x")
      (pageMeta [(plainSecret "a" "v").item, itemWithID "x/y/z",
        (plainSecret "db" "v").item]) (vaultWith []) (vaultWith [])
      (secretChildID "db" "v") vaultResourceID
      [(plainSecret "a" "v").item, itemWithID "x/y/z", (plainSecret "db" "v").item]
      (by decide) ⟨_, _, rfl, rfl, rfl⟩).1 (by decide)).mpr
      ⟨[(plainSecret "a" "v").item], itemWithID "x/y/z", [(plainSecret "db" "v").item],
        rfl, by decide, by decide⟩,
   by
    rw [(secret_read_unexpected_format (secretAt "db" "v" "x")
      (pageMeta [(plainSecret "a" "v").item, (plainSecret "db" "v").item,
        itemWithID "x/y/z"]) (vaultWith []) (vaultWith [])
      (secretChildID "db" "v") vaultResourceID
      [(plainSecret "a" "v").item, (plainSecret "db" "v").item, itemWithID "x/y/z"]
      (by decide) ⟨_, _, rfl, rfl, rfl⟩).2 [(plainSecret "a" "v").item]
      ((plainSecret "db" "v").item) [itemWithID "x/y/z"] rfl (by decide) (by decide)
      (by decide)]⟩

/-! ### SQL extended auditing: Expand and Flatten -/

/-- The keys of the sample auditing block are those of the element schema. -/
theorem sampleAuditingBlock_keys (key : String) :
    (sampleAuditingBlock.lookup key).isSome ↔ key ∈ ExtendedAuditingSchema := by
  simp only [sampleAuditingBlock, ExtendedAuditingSchema, List.lookup]
  by_cases h1 : key = "storage_endpoint"
  · simp [h1]
  · by_cases h2 : key = "storage_account_access_key_is_secondary"
    · subst h2
      decide
    · by_cases h3 : key = "retention_in_days"
      · subst h3
        decide
      · have e1 : (key == "storage_endpoint") = false := by simpa using h1
        have e2 : (key == "storage_account_access_key_is_secondary") = false := by
          simpa using h2
        have e3 : (key == "retention_in_days") = false := by simpa using h3
        simp [e1, e2, e3, h1, h2, h3]

/-- C26 fails on the code: on an input whose first element is a map with exactly
the keys of the element schema, both Expand functions panic, because they assert
the string type of `storage_account_access_key`, a key the schema does not
declare and the map does not hold. -/
theorem expand_auditing_schema_keys_panics (m : GoObject) (rest : List GoValue)
    (hkeys : ∀ key, (m.lookup key).isSome ↔ key ∈ ExtendedAuditingSchema) :
    ExpandAzureRmSqlServerBlobAuditingPolicies (.object m :: rest) = none ∧
    ExpandAzureRmSqlDBBlobAuditingPolicies (.object m :: rest) = none := by
  have hkey : m.lookup "storage_account_access_key" = none := by
    have h := hkeys "storage_account_access_key"
    cases hl : m.lookup "storage_account_access_key" with
    | none => rfl
    | some v =>
      rw [hl] at h
      exact absurd (h.mp rfl) (by decide)
  simp [ExpandAzureRmSqlServerBlobAuditingPolicies, ExpandAzureRmSqlDBBlobAuditingPolicies,
    hkey]

/-- C26 on the sample auditing block, which holds an endpoint, the secondary-key
flag and 30 retention days. -/
theorem expand_auditing_schema_keys_panics_witness :
    sampleAuditingBlock.map Prod.fst = ExtendedAuditingSchema ∧
    ExpandAzureRmSqlServerBlobAuditingPolicies [.object sampleAuditingBlock] = none ∧
    ExpandAzureRmSqlDBBlobAuditingPolicies [.object sampleAuditingBlock] = none :=
  ⟨by decide,
   expand_auditing_schema_keys_panics sampleAuditingBlock [] sampleAuditingBlock_keys⟩

/-- C27: for the empty input both Expand functions yield State Disabled, and
Flatten of a policy carrying that yields the empty list; for a one-element input
whose map holds the access key `k`, the endpoint `e`, the secondary flag `b` and
the retention days `r` with `0 ≤ r ≤ 3285`, both Expand functions yield an
Enabled policy with these four values, and Flatten of a policy carrying it
yields exactly one map of the endpoint, the flag and the retention days, in
which the access key does not appear. -/
theorem auditing_flatten_expand (m : GoObject) (k e : String) (b : Bool) (r : Int)
    (hk : m.lookup "storage_account_access_key" = some (.str k))
    (he : m.lookup "storage_endpoint" = some (.str e))
    (hb : m.lookup "storage_account_access_key_is_secondary" = some (.bool b))
    (hr : m.lookup "retention_in_days" = some (.int r))
    (hlo : 0 ≤ r) (hhi : r ≤ 3285) :
    (ExpandAzureRmSqlServerBlobAuditingPolicies [] =
        some { State := BlobAuditingPolicyStateDisabled } ∧
      FlattenAzureRmSqlServerBlobAuditingPolicies
        (some ⟨ExpandAzureRmSqlServerBlobAuditingPolicies []⟩) = some [] ∧
      ExpandAzureRmSqlServerBlobAuditingPolicies [.object m] =
        some { State := BlobAuditingPolicyStateEnabled, StorageEndpoint := some e,
               StorageAccountAccessKey := some k, RetentionDays := some r,
               IsStorageSecondaryKeyInUse := some b } ∧
      FlattenAzureRmSqlServerBlobAuditingPolicies
        (some ⟨ExpandAzureRmSqlServerBlobAuditingPolicies [.object m]⟩) =
        some [.object [("storage_endpoint", .str e),
                       ("storage_account_access_key_is_secondary", .bool b),
                       ("retention_in_days", .int32 r)]]) ∧
    (ExpandAzureRmSqlDBBlobAuditingPolicies [] =
        some { State := BlobAuditingPolicyStateDisabled } ∧
      FlattenAzureRmSqlDBBlobAuditingPolicies
        (some ⟨ExpandAzureRmSqlDBBlobAuditingPolicies []⟩) = some [] ∧
      ExpandAzureRmSqlDBBlobAuditingPolicies [.object m] =
        some { State := BlobAuditingPolicyStateEnabled, StorageEndpoint := some e,
               StorageAccountAccessKey := some k, RetentionDays := some r,
               IsStorageSecondaryKeyInUse := some b } ∧
      FlattenAzureRmSqlDBBlobAuditingPolicies
        (some ⟨ExpandAzureRmSqlDBBlobAuditingPolicies [.object m]⟩) =
        some [.object [("storage_endpoint", .str e),
                       ("storage_account_access_key_is_secondary", .bool b),
                       ("retention_in_days", .int32 r)]]) ∧
    List.lookup "storage_account_access_key"
      [("storage_endpoint", GoScalar.str e),
       ("storage_account_access_key_is_secondary", GoScalar.bool b),
       ("retention_in_days", GoScalar.int32 r)] = none := by
  have hr32 : toInt32 r = r := toInt32_of_range r (by omega) (by omega)
  have hstate : BlobAuditingPolicyStateEnabled ≠ BlobAuditingPolicyStateDisabled := by decide
  refine ⟨⟨rfl, rfl, ?_, ?_⟩, ⟨rfl, rfl, ?_, ?_⟩, by simp [List.lookup]⟩ <;>
    simp [ExpandAzureRmSqlServerBlobAuditingPolicies, ExpandAzureRmSqlDBBlobAuditingPolicies,
      FlattenAzureRmSqlServerBlobAuditingPolicies, FlattenAzureRmSqlDBBlobAuditingPolicies,
      hk, he, hb, hr, hr32, hstate]

/-- C27 on a block with access key `key1`, an endpoint, the secondary key in use
and the largest retention the schema admits. -/
theorem auditing_flatten_expand_witness :
    FlattenAzureRmSqlServerBlobAuditingPolicies
        (some ⟨ExpandAzureRmSqlServerBlobAuditingPolicies
          [.object (("storage_account_access_key", .str "key1") ::
            [("storage_endpoint", .str "https://acct.blob.core.windows.net/"),
             ("storage_account_access_key_is_secondary", .bool true),
             ("retention_in_days", .int 3285)])]⟩) =
      some [.object [("storage_endpoint", .str "https://acct.blob.core.windows.net/"),
                     ("storage_account_access_key_is_secondary", .bool true),
                     ("retention_in_days", .int32 3285)]] ∧
    FlattenAzureRmSqlDBBlobAuditingPolicies
        (some ⟨ExpandAzureRmSqlDBBlobAuditingPolicies
          [.object (("storage_account_access_key", .str "key1") ::
            [("storage_endpoint", .str "https://acct.blob.core.windows.net/"),
             ("storage_account_access_key_is_secondary", .bool true),
             ("retention_in_days", .int 3285)])]⟩) =
      some [.object [("storage_endpoint", .str "https://acct.blob.core.windows.net/"),
                     ("storage_account_access_key_is_secondary", .bool true),
                     ("retention_in_days", .int32 3285)]] :=
  have h := auditing_flatten_expand
    (("storage_account_access_key", .str "key1") ::
      [("storage_endpoint", .str "https://acct.blob.core.windows.net/"),
       ("storage_account_access_key_is_secondary", .bool true),
       ("retention_in_days", .int 3285)])
    "key1" "https://acct.blob.core.windows.net/" true 3285
    (by decide) (by decide) (by decide) (by decide) (by decide) (by decide)
  ⟨h.1.2.2.2, h.2.1.2.2.2⟩

/-! ### Timeouts of the handlers -/

/-- The flow-log CreateUpdate opens its context with `timeouts.ForRead`: with the
declared timeouts it runs under 5 minutes, where the resource declares 30
minutes for Create and for Update. -/
theorem resourceArmNetworkWatcherFlowLogCreateUpdate_deadline :
    Handler.deadline networkWatcherFlowLogTimeouts
      .resourceArmNetworkWatcherFlowLogCreateUpdate = 300 ∧
    networkWatcherFlowLogTimeouts.Create = 1800 ∧
    networkWatcherFlowLogTimeouts.Update = 1800 := by
  decide

/-- C24 as stated fails: the PostgreSQL configuration-set Read does not run
under the read timeout of its resource, which is declared as 5 minutes, but
under a fixed 30 seconds, whatever read timeout is in force. -/
theorem postgresql_read_fixed_timeout :
    postgreSQLConfigurationSetTimeouts.Read = 300 ∧
    Handler.deadline postgreSQLConfigurationSetTimeouts
      .resourceArmPostgreSQLConfigurationSetRead = 30 ∧
    Handler.deadline { postgreSQLConfigurationSetTimeouts with Read := 600 }
      .resourceArmPostgreSQLConfigurationSetRead = 30 := by
  decide

/-- C24, amended: every resource declares a read timeout of 5 minutes and equal
create, update and delete timeouts of at least 30 minutes; with `t` the timeouts
in force, the secret Create, Update, Read and Delete, the pricing Update and
Read, the flow-log Read and Delete, the MySQL configuration-set Read and the
transparent-data-encryption Read run under the timeout of their own kind, and
the PostgreSQL configuration-set Read runs under 30 seconds. -/
theorem handler_timeouts (t : ResourceTimeout) :
    (∀ declared ∈ [networkWatcherFlowLogTimeouts, keyVaultSecretTimeouts,
        mySQLConfigurationSetTimeouts, postgreSQLConfigurationSetTimeouts,
        securityCenterSubscriptionPricingTimeouts, transparentDataEncryptionTimeouts],
      declared.Read = 5 * 60 ∧ 30 * 60 ≤ declared.Create ∧
      declared.Update = declared.Create ∧ declared.Delete = declared.Create) ∧
    Handler.deadline t .resourceArmKeyVaultSecretCreate = t.Create ∧
    Handler.deadline t .resourceArmKeyVaultSecretUpdate = t.Update ∧
    Handler.deadline t .resourceArmKeyVaultSecretRead = t.Read ∧
    Handler.deadline t .resourceArmKeyVaultSecretDelete = t.Delete ∧
    Handler.deadline t .resourceArmSecurityCenterSubscriptionPricingUpdate = t.Update ∧
    Handler.deadline t .resourceArmSecurityCenterSubscriptionPricingRead = t.Read ∧
    Handler.deadline t .resourceArmNetworkWatcherFlowLogRead = t.Read ∧
    Handler.deadline t .resourceArmNetworkWatcherFlowLogDelete = t.Delete ∧
    Handler.deadline t .resourceArmMySQLConfigurationSetRead = t.Read ∧
    Handler.deadline t .resourceMsSqlDatabaseTransparentDataEncryptionRead = t.Read ∧
    Handler.deadline t .resourceArmPostgreSQLConfigurationSetRead = 30 :=
  ⟨by decide, rfl, rfl, rfl, rfl, rfl, rfl, rfl, rfl, rfl, rfl, rfl⟩

end AzureRM
